import Mathlib

/-!
# Slice accounting and vector emission of the isimpoint profiler

A shallow embedding of `isimpoint_inst.H` and `isimpoint_profiles.H`
(sde-external-9.53.0, pinkit/sde-example/include), and of the loop counters of
`loop-tracker.H` (sde-external-9.21.1, pinkit/sde-example/example).

* Machine integers are `Int`/`Nat`; every `INT64` result is reduced to the signed
  64-bit range with `toINT64`, every `UINT64`/`UINT32` result with `%`.
* Per-thread arrays (`slice`, `active`, `_vectorPending`, the per-block counters)
  are functions of the thread id.
* A `BLOCK*` is an address of the block heap `PROFILING.blocks`; `NULL` is `none`;
  `new BLOCK` takes the address `PROFILING.nblocks`.
* Static knobs are an immutable record `Knobs` handed to every routine.
* A failed `ASSERT`/`ASSERTX` is `Except.error` carrying the assertion text.
* Calls of `PROFILING::EmitSliceEnd` are recorded in `PROFILING.emitted`.
-/

/-! ## Machine integers -/

abbrev THREADID := Nat
abbrev ADDRINT := Nat
abbrev BlockPtr := Nat

/-- Two to the power 64, the modulus of `UINT64` and `ADDRINT`. -/
def UINT64_MOD : Nat := 18446744073709551616

/-- Two to the power 32, the modulus of `UINT32` and `THREADID`. -/
def UINT32_MOD : Nat := 4294967296

/-- Reduction of an integer to the signed 64-bit range (two's complement); the cast
`(INT64)x` and the result of every `INT64` operation. -/
def toINT64 (x : Int) : Int :=
  (x + 9223372036854775808) % 18446744073709551616 - 9223372036854775808

/-- Membership in the range of `INT64`. -/
def InINT64 (x : Int) : Prop := -9223372036854775808 ≤ x ∧ x < 9223372036854775808

instance (x : Int) : Decidable (InINT64 x) := by unfold InINT64; infer_instance

/-! ## Configuration -/

/-- The static `KNOB` members of `ISIMPOINT` (isimpoint_inst.H:96-110) that the
modelled routines read. -/
structure Knobs where
  KnobBbv : Bool
  KnobLdv : Bool
  KnobSliceSize : Int
  KnobEmitVectors : Bool
  KnobDelayVectorEmission : Bool
  KnobEmitFirstSlice : Bool
  KnobEmitLastSlice : Bool
  KnobEmitPrevBlockCounts : Bool
  KnobPid : Bool

/-! ## Block registry data -/

/-- The class `BLOCK_KEY` (isimpoint_profiles.H:27-45). -/
structure BLOCK_KEY where
  _start : ADDRINT
  _end : ADDRINT
  _size : Nat
  deriving DecidableEq, Repr

/-- The constructor `BLOCK_KEY(s, e, z)` with its `ASSERTX(_end >= _start)`. -/
def BLOCK_KEY.make (s e : ADDRINT) (z : Nat) : Except String BLOCK_KEY :=
  if e ≥ s then .ok ⟨s, e, z⟩ else .error "ASSERTX(_end >= _start)"

def BLOCK_KEY.Start (k : BLOCK_KEY) : ADDRINT := k._start
def BLOCK_KEY.End (k : BLOCK_KEY) : ADDRINT := k._end
def BLOCK_KEY.Size (k : BLOCK_KEY) : Nat := k._size

/-- Modelled from the spec: `operator<` on `BLOCK_KEY` is declared a friend at
isimpoint_profiles.H:29 and defined outside src/. The spec (section 3) has the triple
`(startAddress, endAddress, staticSize)` identify a block and distinct keys never alias, so
the order compares the three fields lexicographically. -/
def BLOCK_KEY.lt (p1 p2 : BLOCK_KEY) : Bool :=
  if p1._start ≠ p2._start then decide (p1._start < p2._start)
  else if p1._end ≠ p2._end then decide (p1._end < p2._end)
  else decide (p1._size < p2._size)

/-- Key equivalence as `std::map` sees it: neither key is less than the other. -/
def BLOCK_KEY.equiv (p1 p2 : BLOCK_KEY) : Bool := !(p1.lt p2) && !(p2.lt p1)

/-- The class `BLOCK` (isimpoint_profiles.H:69-106); the three arrays are indexed by
thread id, `_blockCountMap[tid]` is a `std::map<INT32, INT64>` kept as an association
list. -/
structure BLOCK where
  _staticInstructionCount : Int
  _id : Int
  _imgId : Nat
  _key : BLOCK_KEY
  _sliceBlockCount : THREADID → Int
  _cumulativeBlockCount : THREADID → Int
  _blockCountMap : THREADID → List (Int × Int)

def BLOCK.StaticInstructionCount (b : BLOCK) : Int := b._staticInstructionCount
def BLOCK.ImgId (b : BLOCK) : Nat := b._imgId
def BLOCK.Key (b : BLOCK) : BLOCK_KEY := b._key
def BLOCK.Id (b : BLOCK) : Int := b._id

/-- The one-argument `BLOCK::Execute(tid)`: `_sliceBlockCount[tid]++`. -/
def BLOCK.Execute (tid : THREADID) (b : BLOCK) : BLOCK :=
  { b with _sliceBlockCount :=
      Function.update b._sliceBlockCount tid (toINT64 (b._sliceBlockCount tid + 1)) }

/-- The accessor `BLOCK::CumulativeBlockCount(tid)`. -/
def BLOCK.CumulativeBlockCount (tid : THREADID) (b : BLOCK) : Int :=
  toINT64 (b._cumulativeBlockCount tid + b._sliceBlockCount tid)

/-- The accessor `BLOCK::SliceInstructionCount(tid)`. -/
def BLOCK.SliceInstructionCount (tid : THREADID) (b : BLOCK) : Int :=
  toINT64 (b._sliceBlockCount tid * b._staticInstructionCount)

/-- Increment of the entry `k` of a `std::map<INT32, INT64>` (`m[k]++`, the entry is
created at zero when absent). -/
def BLOCK_COUNT_MAP.bump (k : Int) : List (Int × Int) → List (Int × Int)
  | [] => [(k, 1)]
  | (k1, v) :: rest =>
    if k1 = k then (k1, toINT64 (v + 1)) :: rest else (k1, v) :: BLOCK_COUNT_MAP.bump k rest

/-- Modelled from the spec: `BLOCK::Execute(tid, prev_block, isimpoint)` is declared at
isimpoint_profiles.H:77 and defined outside src/. Spec section 4.1: the overload
"additionally accepts the previously executed Block and, if transition tracking is enabled,
increments previousBlock to thisBlock transition count for that thread". -/
def BLOCK.ExecutePrev (k : Knobs) (tid : THREADID) (prev_block : Option BLOCK) (b : BLOCK) :
    BLOCK :=
  let b1 := b.Execute tid
  if k.KnobEmitPrevBlockCounts then
    match prev_block with
    | none => b1
    | some p =>
      { b1 with _blockCountMap :=
          Function.update b1._blockCountMap tid (BLOCK_COUNT_MAP.bump p._id (b1._blockCountMap tid)) }
  else b1

/-! ## Per-thread slice state -/

/-- The data members of `SLICE_INFO` (isimpoint_profiles.H:112-129) with their default
member initialisers; `length_queue` is a `std::queue<UINT64>`, front first. -/
structure SLICE_INFO where
  CumulativeInstructionCount : Int := 0
  first_eip : ADDRINT := 0
  first_eip_imgID : Nat := 0
  first : Bool := true
  last : Bool := false
  SliceTimer : Int := 0
  CurrentSliceSize : Int := 0
  RepIterations : Int := 0
  last_block : Option BlockPtr := none
  length_queue : List Nat := []
  deriving DecidableEq

/-- One call of `PROFILING::EmitSliceEnd(tid, endMarker, imgId, markerCount, sp)`. -/
structure SliceEndCall where
  tid : THREADID
  endMarker : ADDRINT
  imgId : Nat
  markerCountOffset : Nat
  deriving DecidableEq, Repr

/-- The class `PROFILING` (isimpoint_profiles.H:216-373). `bbv`/`ldv` tell whether the
profile vector is allocated; `blocks` is the heap of `BLOCK` objects, of which the first
`nblocks` addresses are allocated; `emitted` is the trace of `EmitSliceEnd` calls. -/
structure PROFILING where
  _nthreads : Nat
  slices_start_set : List ADDRINT
  _currentId : Nat → Nat
  active : THREADID → Bool
  slice : THREADID → SLICE_INFO
  bbv : Bool
  ldv : Bool
  bbv_blocks : List (BLOCK_KEY × BlockPtr)
  blocks : BlockPtr → BLOCK
  nblocks : Nat
  emitted : List SliceEndCall

/-- The data members of `ISIMPOINT` (isimpoint_inst.H:86-113, 433-435). -/
structure ISIMPOINT where
  commandLine : String
  _vectorPending : THREADID → Bool
  Pid : Nat
  profiling : PROFILING
  interesting_thread_lut_ : THREADID → Bool

/-! ## Heap access -/

/-- In-place update of the `BLOCK` behind a pointer. -/
def PROFILING.modifyBlock (f : BLOCK → BLOCK) (b : BlockPtr) (p : PROFILING) : PROFILING :=
  { p with blocks := Function.update p.blocks b (f (p.blocks b)) }

/-- Update of `slice[tid]`. -/
def PROFILING.setSlice (tid : THREADID) (sl : SLICE_INFO) (p : PROFILING) : PROFILING :=
  { p with slice := Function.update p.slice tid sl }

/-- Replacement of `profiling.slice[tid]` in the engine state. -/
def ISIMPOINT.setSlice (s : ISIMPOINT) (tid : THREADID) (sl : SLICE_INFO) : ISIMPOINT :=
  { s with profiling := s.profiling.setSlice tid sl }

/-! ## Emission -/

/-- Modelled from the spec: `BLOCK::EmitSliceEnd(tid, bbfile)` is declared at
isimpoint_profiles.H:78 and defined outside src/. Spec section 4.4: on emission the
current-slice count is folded into the cumulative count and the slice counter is zeroed. -/
def BLOCK.EmitSliceEnd (tid : THREADID) (b : BLOCK) : BLOCK :=
  { b with
    _cumulativeBlockCount :=
      Function.update b._cumulativeBlockCount tid
        (toINT64 (b._cumulativeBlockCount tid + b._sliceBlockCount tid))
    _sliceBlockCount := Function.update b._sliceBlockCount tid 0 }

/-- Modelled from the spec: `PROFILING::EmitSliceEnd` is declared at
isimpoint_profiles.H:288 and defined outside src/. Spec sections 4.3 and 4.4: the call
delegates to each enabled profile with the marker and the marker count, the marker address
is recorded in the slice-start set, and the frequency profile folds the slice counts of
every block for this thread. The call itself is appended to the trace `emitted`. -/
def PROFILING.EmitSliceEnd (tid : THREADID) (endMarker : ADDRINT) (imgId : Nat)
    (markerCount : Nat) (p : PROFILING) : PROFILING :=
  { p with
    emitted := p.emitted ++ [⟨tid, endMarker, imgId, markerCount⟩]
    slices_start_set := endMarker :: p.slices_start_set
    blocks := if p.bbv then fun a => (p.blocks a).EmitSliceEnd tid else p.blocks }

/-! ## The analysis routines of `ISIMPOINT` (isimpoint_inst.H:128-265) -/

def ISIMPOINT.VectorPending (s : ISIMPOINT) (tid : THREADID) : Bool := s._vectorPending tid

def ISIMPOINT.InterestingThreadLut (s : ISIMPOINT) (tid : THREADID) : Bool :=
  s.interesting_thread_lut_ tid

/-- The routine `ISIMPOINT::EmitSliceEnd(endMarker, imgId, tid, markerCountOffset = 0)`. -/
def ISIMPOINT.EmitSliceEnd (endMarker : ADDRINT) (imgId : Nat) (tid : THREADID)
    (markerCountOffset : Nat) (s : ISIMPOINT) : ISIMPOINT :=
  { s with profiling := s.profiling.EmitSliceEnd tid endMarker imgId markerCountOffset }

/-- The routine `ISIMPOINT::GetFirstIP_If`. -/
def ISIMPOINT.GetFirstIP_If (tid : THREADID) (s : ISIMPOINT) : Nat :=
  if (s.profiling.slice tid).first_eip = 0 then 1 else 0

/-- The routine `ISIMPOINT::GetFirstIP_Then`; `PIN_RemoveInstrumentation` has no effect on
the modelled state. -/
def ISIMPOINT.GetFirstIP_Then (ip : ADDRINT) (tid : THREADID) (imgID : Nat) (s : ISIMPOINT) :
    ISIMPOINT :=
  if !s.InterestingThreadLut tid then s
  else
    let slice := s.profiling.slice tid
    { s with profiling :=
        s.profiling.setSlice tid { slice with first_eip := ip, first_eip_imgID := imgID } }

/-- The routine `ISIMPOINT::CountRepIterations`; `1 - firstRepIter` is computed in
`ADDRINT` and added to the `INT64` counter. -/
def ISIMPOINT.CountRepIterations (tid : THREADID) (firstRepIter : ADDRINT) (s : ISIMPOINT) :
    ISIMPOINT :=
  if !s.InterestingThreadLut tid then s
  else
    let slice := s.profiling.slice tid
    let reps := toINT64 (slice.RepIterations + (1 - (firstRepIter : Int)))
    { s with profiling := s.profiling.setSlice tid { slice with RepIterations := reps } }

/-- The routine `ISIMPOINT::CountBlock_If`: the returned `ADDRINT` and the new state. -/
def ISIMPOINT.CountBlock_If (block : BlockPtr) (tid : THREADID) (s : ISIMPOINT) :
    Nat × ISIMPOINT :=
  let p1 := s.profiling.modifyBlock (BLOCK.Execute tid) block
  let slice := p1.slice tid
  let timer := toINT64 (slice.SliceTimer - (p1.blocks block).StaticInstructionCount)
  let p2 := p1.setSlice tid { slice with SliceTimer := timer, last_block := some block }
  (if timer < 0 then 1 else 0, { s with profiling := p2 })

/-- The routine `ISIMPOINT::CountBlockAndTrackPrevious_If`. -/
def ISIMPOINT.CountBlockAndTrackPrevious_If (k : Knobs) (block : BlockPtr) (tid : THREADID)
    (s : ISIMPOINT) : Nat × ISIMPOINT :=
  let slice := s.profiling.slice tid
  let p1 := s.profiling.modifyBlock
    (BLOCK.ExecutePrev k tid (slice.last_block.map s.profiling.blocks)) block
  let timer := toINT64 (slice.SliceTimer - (p1.blocks block).StaticInstructionCount)
  let p2 := p1.setSlice tid { slice with SliceTimer := timer, last_block := some block }
  (if timer < 0 then 1 else 0, { s with profiling := p2 })

/-- The routine `ISIMPOINT::ResetSliceTimer`. -/
def ISIMPOINT.ResetSliceTimer (k : Knobs) (tid : THREADID) (s : ISIMPOINT) : ISIMPOINT :=
  if !s.InterestingThreadLut tid then s
  else
    let slice := s.profiling.slice tid
    match slice.length_queue with
    | front :: rest =>
      let cum := toINT64 (slice.CumulativeInstructionCount +
        toINT64 (slice.CurrentSliceSize - slice.SliceTimer))
      let timer := toINT64 (front : Int)
      let slice1 := { slice with CumulativeInstructionCount := cum, SliceTimer := timer,
                                 CurrentSliceSize := timer, length_queue := rest }
      { s with profiling := s.profiling.setSlice tid slice1 }
    | [] =>
      let cum := toINT64 (slice.CumulativeInstructionCount +
        toINT64 (slice.CurrentSliceSize - slice.SliceTimer))
      let timer := k.KnobSliceSize
      let slice1 := { slice with CumulativeInstructionCount := cum, SliceTimer := timer,
                                 CurrentSliceSize := timer }
      { s with profiling := s.profiling.setSlice tid slice1 }

/-- The routine `ISIMPOINT::CheckDelayedVectorEmission`. -/
def ISIMPOINT.CheckDelayedVectorEmission (tid : THREADID) (s : ISIMPOINT) : Nat :=
  if s.VectorPending tid then 1 else 0

/-- The routine `ISIMPOINT::EmitVectorForFriend`; `ASSERTX` aborts when the flag is clear. -/
def ISIMPOINT.EmitVectorForFriend (k : Knobs) (marker : ADDRINT) (imageid : Nat)
    (tid : THREADID) (markerCountOffset : Nat) (s : ISIMPOINT) : Except String ISIMPOINT :=
  if !s.InterestingThreadLut tid then .ok s
  else if !s._vectorPending tid then .error "ASSERTX(isimpoint->_vectorPending[tid])"
  else
    let s1 := { s with _vectorPending := Function.update s._vectorPending tid false }
    let s2 := ISIMPOINT.ResetSliceTimer k tid s1
    .ok (ISIMPOINT.EmitSliceEnd marker imageid tid markerCountOffset s2)

/-- The routine `ISIMPOINT::DelayedVectorEmission`. -/
def ISIMPOINT.DelayedVectorEmission (k : Knobs) (block : BlockPtr) (tid : THREADID)
    (s : ISIMPOINT) : Except String ISIMPOINT :=
  if !s.InterestingThreadLut tid then .ok s
  else
    ISIMPOINT.EmitVectorForFriend k (s.profiling.blocks block).Key.Start
      (s.profiling.blocks block).ImgId tid 1 s

/-- The routine `ISIMPOINT::CountBlock_Then`. -/
def ISIMPOINT.CountBlock_Then (k : Knobs) (block : BlockPtr) (tid : THREADID)
    (s : ISIMPOINT) : ISIMPOINT :=
  if !s.InterestingThreadLut tid then s
  else if !k.KnobEmitVectors then
    { s with _vectorPending := Function.update s._vectorPending tid true }
  else if k.KnobDelayVectorEmission then
    { s with _vectorPending := Function.update s._vectorPending tid true }
  else
    let s1 := ISIMPOINT.ResetSliceTimer k tid s
    ISIMPOINT.EmitSliceEnd (s1.profiling.blocks block).Key.End
      (s1.profiling.blocks block).ImgId tid 0 s1

/-! ## Thread start and finish (isimpoint_inst.H:365-391, isimpoint_profiles.H:262-269) -/

/-- The routine `PROFILING::ThreadStart`; the two `StartProfile` calls open the output
streams of the thread, which are outside the modelled state. -/
def PROFILING.ThreadStart (tid : THREADID) (p : PROFILING) : PROFILING :=
  { p with active := Function.update p.active tid true }

/-- The routine `ISIMPOINT::ThreadStart`; `IsInterestingThread` is the answer of the replay
engine `pinplay_engine_`. -/
def ISIMPOINT.ThreadStart (IsInterestingThread : THREADID → Bool) (tid : THREADID)
    (s : ISIMPOINT) : Except String ISIMPOINT :=
  let lut := Function.update s.interesting_thread_lut_ tid (IsInterestingThread tid)
  let s1 := { s with interesting_thread_lut_ := lut }
  if !s1.interesting_thread_lut_ tid then .ok s1
  else if ¬ (tid < s1.profiling._nthreads) then
    .error "Use knob -bbthreads to increase number of threads"
  else .ok { s1 with profiling := s1.profiling.ThreadStart tid }

/-- The routine `ISIMPOINT::ThreadFini`; `ProfilingThreadFini` stands for
`PROFILING::ThreadFini`, whose body is outside src/. -/
def ISIMPOINT.ThreadFini (ProfilingThreadFini : THREADID → ISIMPOINT → ISIMPOINT)
    (tid : THREADID) (s : ISIMPOINT) : ISIMPOINT :=
  if !s.InterestingThreadLut tid then s else ProfilingThreadFini tid s

/-! ## Block lookup (isimpoint_profiles.H:306-339) -/

/-- What `LookupBlock` reads of a Pin `BBL`: the addresses of its head and tail
instructions, `BBL_Size`, `BBL_NumIns`, and the `IMG_Id` reached through the routine and
section of the head instruction (that of `IMG_Invalid()` when there is none). -/
structure BBL where
  headAddress : ADDRINT
  tailAddress : ADDRINT
  size : Nat
  numIns : Nat
  imgId : Nat
  deriving DecidableEq

/-- Reduction to the signed 32-bit range, the conversion of `_currentId[0]` to `INT32`. -/
def toINT32 (x : Int) : Int := (x + 2147483648) % 4294967296 - 2147483648

/-- The lookup `bbv_blocks.find(key)` of the `std::map`, kept as an association list:
the entry whose key is equivalent to `key`. -/
def BLOCK_MAP.find (key : BLOCK_KEY) : List (BLOCK_KEY × BlockPtr) → Option BlockPtr
  | [] => none
  | (k1, b) :: rest => if k1.equiv key then some b else BLOCK_MAP.find key rest

/-- Modelled from the spec: the constructor `BLOCK::BLOCK` is declared at
isimpoint_profiles.H:72 and defined outside src/. Spec section 4.1: "a new key allocates
fresh per-thread counter storage (all zero)". -/
def BLOCK.new (key : BLOCK_KEY) (instructionCount : Int) (id : Int) (imgId : Nat) : BLOCK :=
  { _staticInstructionCount := instructionCount, _id := id, _imgId := imgId, _key := key,
    _sliceBlockCount := fun _ => 0, _cumulativeBlockCount := fun _ => 0,
    _blockCountMap := fun _ => [] }

/-- The routine `PROFILING::LookupBlock(BBL, BOOL)`: the returned `BLOCK*` and the new
state, or the failed assertion of the `BLOCK_KEY` constructor. -/
def PROFILING.LookupBlock (bbl : BBL) (emit_prev_block_counts : Bool) (p : PROFILING) :
    Except String (BlockPtr × PROFILING) :=
  match BLOCK_KEY.make bbl.headAddress bbl.tailAddress bbl.size with
  | .error e => .error e
  | .ok key =>
    match BLOCK_MAP.find key p.bbv_blocks with
    | none =>
      let id : Int := if !emit_prev_block_counts then toINT32 (p._currentId 0) else 0
      let cur := if !emit_prev_block_counts
        then Function.update p._currentId 0 ((p._currentId 0 + 1) % UINT32_MOD)
        else p._currentId
      let block := BLOCK.new key (bbl.numIns : Int) id bbl.imgId
      .ok (p.nblocks,
        { p with _currentId := cur,
                 blocks := Function.update p.blocks p.nblocks block,
                 nblocks := p.nblocks + 1,
                 bbv_blocks := p.bbv_blocks ++ [(key, p.nblocks)] })
    | some b => .ok (b, p)

/-! ## The length file (isimpoint_profiles.H:131-174) -/

/-- The constant `SLICE_INFO::BUFSIZE`. -/
def SLICE_INFO.BUFSIZE : Nat := 100

/-- An input file stream: the unread characters and the two state bits that
`ReadLengthFile` depends on. -/
structure IFSTREAM where
  rest : List Char
  eofbit : Bool
  failbit : Bool
  deriving DecidableEq

/-- Why the extraction loop of `istream::getline` stopped. -/
inductive GetlineStop
  | eof
  | delim
  | full
  deriving DecidableEq

/-- The extraction loop of `istream::getline(s, n)` with `room = n - 1` characters still
to store: the stored characters, the unread rest and the reason for stopping. End of file
is tested first, then the delimiter (extracted, not stored), then the full buffer. -/
def IFSTREAM.extract : Nat → List Char → List Char × List Char × GetlineStop
  | _, [] => ([], [], .eof)
  | room, c :: cs =>
    if c = Char.ofNat 10 then ([], cs, .delim)
    else
      match room with
      | 0 => ([], c :: cs, .full)
      | room1 + 1 =>
        let r := IFSTREAM.extract room1 cs
        (c :: r.1, r.2.1, r.2.2)

/-- The call `lfile.getline(record, n)`: the characters stored before the terminating NUL
and the new stream. A stream that is not good extracts nothing and sets `failbit`; no
extracted character sets `failbit`; a full buffer sets `failbit`. -/
def IFSTREAM.getline (n : Nat) (st : IFSTREAM) : List Char × IFSTREAM :=
  if st.eofbit || st.failbit then ([], { st with failbit := true })
  else
    match IFSTREAM.extract (n - 1) st.rest with
    | (stored, rest, .eof) => (stored, { rest := rest, eofbit := true, failbit := stored.isEmpty })
    | (stored, rest, .delim) => (stored, { rest := rest, eofbit := false, failbit := false })
    | (stored, rest, .full) => (stored, { rest := rest, eofbit := false, failbit := true })

/-- The C string held by a character buffer: the characters before the first NUL. -/
def cstr (buf : List Char) : List Char := buf.takeWhile (fun c => c ≠ Char.ofNat 0)

/-- The loop of `SLICE_INFO::ReadLengthFile`, one iteration per unit of `fuel`; `none` when
the fuel runs out before the loop is left. `Uint64FromString` is the Pin helper of that
name; `recordNum` is a `UINT32`. -/
def SLICE_INFO.ReadLengthLoop (Uint64FromString : String → Nat) :
    Nat → IFSTREAM → Nat → SLICE_INFO → Option (Except String SLICE_INFO)
  | 0, _, _, _ => none
  | fuel + 1, lfile, recordNum, sl =>
    if lfile.eofbit then some (.ok sl)
    else
      let got := lfile.getline SLICE_INFO.BUFSIZE
      let record := cstr got.1
      if record.length = 0 then
        SLICE_INFO.ReadLengthLoop Uint64FromString fuel got.2 recordNum sl
      else if record.head? = some (Char.ofNat 35) then
        SLICE_INFO.ReadLengthLoop Uint64FromString fuel got.2 recordNum sl
      else
        let field := record.takeWhile (fun c => c ≠ Char.ofNat 10)
        if field.isEmpty then some (.error "Empty length field.")
        else if recordNum = 0 then
          let v := toINT64 ((Uint64FromString (String.mk field) % UINT64_MOD : Nat) : Int)
          SLICE_INFO.ReadLengthLoop Uint64FromString fuel got.2 ((recordNum + 1) % UINT32_MOD)
            { sl with CurrentSliceSize := v, SliceTimer := v }
        else
          SLICE_INFO.ReadLengthLoop Uint64FromString fuel got.2 ((recordNum + 1) % UINT32_MOD)
            { sl with length_queue :=
                sl.length_queue ++ [Uint64FromString (String.mk field) % UINT64_MOD] }

/-- The routine `SLICE_INFO::ReadLengthFile`; `file` is the content of the length file,
`none` when it cannot be opened. -/
def SLICE_INFO.ReadLengthFile (Uint64FromString : String → Nat) (fuel : Nat)
    (file : Option (List Char)) (sl : SLICE_INFO) : Option (Except String SLICE_INFO) :=
  match file with
  | none => some (.error "Could not open length file:")
  | some content =>
    SLICE_INFO.ReadLengthLoop Uint64FromString fuel
      { rest := content, eofbit := false, failbit := false } 0 sl

/-! ## Callback sequences of one thread -/

/-- The analysis and thread callbacks that Pin invokes for a thread, with the arguments
Pin hands over besides the thread id. -/
inductive Callback
  | GetFirstIP_If
  | GetFirstIP_Then (ip : ADDRINT) (imgID : Nat)
  | CountRepIterations (firstRepIter : ADDRINT)
  | CountBlock_If (block : BlockPtr)
  | CountBlockAndTrackPrevious_If (block : BlockPtr)
  | ResetSliceTimer
  | CheckDelayedVectorEmission
  | EmitVectorForFriend (marker : ADDRINT) (imageid : Nat) (markerCountOffset : Nat)
  | DelayedVectorEmission (block : BlockPtr)
  | CountBlock_Then (block : BlockPtr)
  | ThreadFini

/-- The effect of one callback invoked for thread `tid`. -/
def Callback.run (k : Knobs) (fini : THREADID → ISIMPOINT → ISIMPOINT) (tid : THREADID) :
    Callback → ISIMPOINT → Except String ISIMPOINT
  | .GetFirstIP_If, s => .ok s
  | .GetFirstIP_Then ip imgID, s => .ok (ISIMPOINT.GetFirstIP_Then ip tid imgID s)
  | .CountRepIterations f, s => .ok (ISIMPOINT.CountRepIterations tid f s)
  | .CountBlock_If b, s => .ok (ISIMPOINT.CountBlock_If b tid s).2
  | .CountBlockAndTrackPrevious_If b, s => .ok (ISIMPOINT.CountBlockAndTrackPrevious_If k b tid s).2
  | .ResetSliceTimer, s => .ok (ISIMPOINT.ResetSliceTimer k tid s)
  | .CheckDelayedVectorEmission, s => .ok s
  | .EmitVectorForFriend m i o, s => ISIMPOINT.EmitVectorForFriend k m i tid o s
  | .DelayedVectorEmission b, s => ISIMPOINT.DelayedVectorEmission k b tid s
  | .CountBlock_Then b, s => .ok (ISIMPOINT.CountBlock_Then k b tid s)
  | .ThreadFini, s => .ok (ISIMPOINT.ThreadFini fini tid s)

/-- A sequence of callbacks invoked for thread `tid`, stopping at the first abort. -/
def Callback.runAll (k : Knobs) (fini : THREADID → ISIMPOINT → ISIMPOINT) (tid : THREADID) :
    List Callback → ISIMPOINT → Except String ISIMPOINT
  | [], s => .ok s
  | cb :: rest, s =>
    match Callback.run k fini tid cb s with
    | .error e => .error e
    | .ok s1 => Callback.runAll k fini tid rest s1

/-! ## The probes around one basic block (isimpoint_inst.H:305-330) -/

/-- One execution of basic block `block` by thread `tid` under the instrumentation that
`ISIMPOINT::Trace` inserts: at the head instruction the delayed-emission check (inserted
only with `KnobEmitVectors && KnobDelayVectorEmission`), then at the tail instruction the
counting `If` routine and, when it returns nonzero, `CountBlock_Then`. -/
def ISIMPOINT.executeBlock (k : Knobs) (block : BlockPtr) (tid : THREADID) (s : ISIMPOINT) :
    Except String ISIMPOINT :=
  let head : Except String ISIMPOINT :=
    if k.KnobEmitVectors && k.KnobDelayVectorEmission then
      if ISIMPOINT.CheckDelayedVectorEmission tid s ≠ 0 then
        ISIMPOINT.DelayedVectorEmission k block tid s
      else .ok s
    else .ok s
  match head with
  | .error e => .error e
  | .ok s1 =>
    let counted :=
      if k.KnobEmitPrevBlockCounts then ISIMPOINT.CountBlockAndTrackPrevious_If k block tid s1
      else ISIMPOINT.CountBlock_If block tid s1
    .ok (if counted.1 ≠ 0 then ISIMPOINT.CountBlock_Then k block tid counted.2 else counted.2)

/-- A sequence of basic-block executions by thread `tid`. -/
def ISIMPOINT.executeBlocks (k : Knobs) (tid : THREADID) :
    List BlockPtr → ISIMPOINT → Except String ISIMPOINT
  | [], s => .ok s
  | b :: rest, s =>
    match ISIMPOINT.executeBlock k b tid s with
    | .error e => .error e
    | .ok s1 => ISIMPOINT.executeBlocks k tid rest s1

/-! ## Fixtures: the scenarios of the specification -/

/-- Knobs of scenarios A and B: fixed slice size 100, vectors emitted by the tool itself,
emission immediate (`delay = false`) or deferred (`delay = true`). -/
def scenarioKnobs (delay : Bool) : Knobs :=
  { KnobBbv := true, KnobLdv := false, KnobSliceSize := 100, KnobEmitVectors := true,
    KnobDelayVectorEmission := delay, KnobEmitFirstSlice := false, KnobEmitLastSlice := false,
    KnobEmitPrevBlockCounts := false, KnobPid := false }

/-- Three regions of 10, 20 and 5 instructions at heap addresses 0, 1 and 2; every other
address holds an empty block. -/
def scenarioBlocks : BlockPtr → BLOCK
  | 0 => BLOCK.new ⟨4096, 4132, 40⟩ 10 0 1
  | 1 => BLOCK.new ⟨4136, 4212, 80⟩ 20 1 1
  | 2 => BLOCK.new ⟨4216, 4232, 20⟩ 5 2 1
  | _ => BLOCK.new ⟨0, 0, 0⟩ 0 0 0

/-- The state of scenarios A and B before the first region executes: thread 0 is
interesting and active, its timer and slice size are 100, nothing is pending. -/
def scenarioInit : ISIMPOINT :=
  { commandLine := "", _vectorPending := fun _ => false, Pid := 0,
    interesting_thread_lut_ := fun t => decide (t = 0),
    profiling :=
      { _nthreads := 1, slices_start_set := [], _currentId := fun _ => 3,
        active := fun t => decide (t = 0),
        slice := fun _ => { SliceTimer := 100, CurrentSliceSize := 100 },
        bbv := true, ldv := false,
        bbv_blocks := [(⟨4096, 4132, 40⟩, 0), (⟨4136, 4212, 80⟩, 1), (⟨4216, 4232, 20⟩, 2)],
        blocks := scenarioBlocks, nblocks := 3, emitted := [] } }

/-- Scenario C after `ReadLengthFile` and 55 executed instructions: slice size 50, timer
-5, the lengths 30 and 20 still queued. -/
def scenarioQueued : ISIMPOINT :=
  { scenarioInit with
    profiling := scenarioInit.profiling.setSlice 0
      { SliceTimer := -5, CurrentSliceSize := 50, length_queue := [30, 20] } }

/-- The state of a run that did not abort (the initial scenario state otherwise). -/
def scenarioState (r : Except String ISIMPOINT) : ISIMPOINT :=
  match r with
  | .ok s => s
  | .error _ => scenarioInit

/-- Scenario B after three full cycles of the three regions, deferred emission enabled. -/
def scenarioB9 : ISIMPOINT :=
  scenarioState
    (ISIMPOINT.executeBlocks (scenarioKnobs true) 0 [0, 1, 2, 0, 1, 2, 0, 1, 2] scenarioInit)

/-! ## Frame of the gated callbacks -/

/-- What a callback of a thread that is not interesting may change: nothing of the trace,
the pending flags, the lookup table, or the reset-controlled fields of the slice. -/
def GatedFrame (tid : THREADID) (s s1 : ISIMPOINT) : Prop :=
  s1.profiling.emitted = s.profiling.emitted
  ∧ s1._vectorPending = s._vectorPending
  ∧ s1.interesting_thread_lut_ = s.interesting_thread_lut_
  ∧ (s1.profiling.slice tid).CurrentSliceSize = (s.profiling.slice tid).CurrentSliceSize
  ∧ (s1.profiling.slice tid).CumulativeInstructionCount
      = (s.profiling.slice tid).CumulativeInstructionCount
  ∧ (s1.profiling.slice tid).length_queue = (s.profiling.slice tid).length_queue
  ∧ (s1.profiling.slice tid).RepIterations = (s.profiling.slice tid).RepIterations
  ∧ (s1.profiling.slice tid).first_eip = (s.profiling.slice tid).first_eip
  ∧ (s1.profiling.slice tid).first_eip_imgID = (s.profiling.slice tid).first_eip_imgID

/-! ## Sequences of block lookups -/

/-- The key that `LookupBlock` builds for a `BBL`. -/
def BBL.key (bbl : BBL) : BLOCK_KEY := ⟨bbl.headAddress, bbl.tailAddress, bbl.size⟩

/-- A sequence of `LookupBlock` calls: the returned pointers in call order and the final
state, or the first failed assertion. -/
def PROFILING.lookupAll (emit_prev_block_counts : Bool) :
    List BBL → PROFILING → Except String (List BlockPtr × PROFILING)
  | [], p => .ok ([], p)
  | bbl :: rest, p =>
    match PROFILING.LookupBlock bbl emit_prev_block_counts p with
    | .error e => .error e
    | .ok r =>
      match PROFILING.lookupAll emit_prev_block_counts rest r.2 with
      | .error e => .error e
      | .ok rs => .ok (r.1 :: rs.1, rs.2)

/-- Registry invariant: every registered pointer is allocated and no pointer is registered
twice. -/
def RegistryInv (p : PROFILING) : Prop :=
  (∀ e ∈ p.bbv_blocks, e.2 < p.nblocks) ∧ (p.bbv_blocks.map Prod.snd).Nodup

/-- A profiling state with nothing registered yet: no block, id counter at zero. -/
def emptyRegistry : PROFILING :=
  { scenarioInit.profiling with bbv_blocks := [], nblocks := 0, _currentId := fun _ => 0 }

/-- The basic block of region 0 of the scenarios as Pin reports it. -/
def bblA : BBL := ⟨4096, 4132, 40, 10, 1⟩

/-- The basic block of region 1 of the scenarios as Pin reports it. -/
def bblB : BBL := ⟨4136, 4212, 80, 20, 1⟩

/-! ## Vocabulary for length files and reset sequences -/

/-- The content of a file made of the given lines, each ended by a newline. -/
def joinLines : List (List Char) → List Char
  | [] => []
  | l :: rest => l ++ (Char.ofNat 10 :: joinLines rest)

/-- A line that `ReadLengthFile` takes as a record: its C string is neither empty nor
starts with the comment character. -/
def isRecord (line : List Char) : Bool :=
  decide ((cstr line).length ≠ 0) && decide ((cstr line).head? ≠ some (Char.ofNat 35))

/-- The `UINT64` value that `ReadLengthFile` reads from a record line. -/
def recordValue (Uint64FromString : String → Nat) (line : List Char) : Nat :=
  Uint64FromString (String.mk (cstr line)) % UINT64_MOD

/-- The values of the records of a file, in file order. -/
def records (Uint64FromString : String → Nat) (lines : List (List Char)) : List Nat :=
  (lines.filter isRecord).map (recordValue Uint64FromString)

/-- The effect of a sequence of record values on the slice state when `recordNum` records
have been counted before. -/
def applyRecords : Nat → List Nat → SLICE_INFO → SLICE_INFO
  | _, [], sl => sl
  | recordNum, v :: vs, sl =>
    if recordNum = 0 then
      applyRecords ((recordNum + 1) % UINT32_MOD) vs
        { sl with CurrentSliceSize := toINT64 (v : Int), SliceTimer := toINT64 (v : Int) }
    else
      applyRecords ((recordNum + 1) % UINT32_MOD) vs
        { sl with length_queue := sl.length_queue ++ [v] }

/-- The state after `j` calls of `ResetSliceTimer` for thread `tid`, the call number `i + 1`
being preceded by the other activity `between i` of the program. -/
def resetsInterleaved (k : Knobs) (tid : THREADID) (between : Nat → ISIMPOINT → ISIMPOINT) :
    Nat → ISIMPOINT → ISIMPOINT
  | 0, s => s
  | j + 1, s => ISIMPOINT.ResetSliceTimer k tid (between j (resetsInterleaved k tid between j s))

/-- A decimal reading of a string, standing for `Uint64FromString` in the scenarios. -/
def decimalValue (str : String) : Nat :=
  str.data.foldl (fun acc c => 10 * acc + (c.toNat - 48)) 0

/-- The length file of scenario C: a comment, the records 50, 30, 20 and a blank line. -/
def scenarioLengthLines : List (List Char) :=
  [['#', ' ', 'l', 'e', 'n'], ['5', '0'], [], ['3', '0'], ['2', '0']]

/-! ## Block ids -/

/-- Two to the power 31, the first value outside `INT32`. -/
def INT32_LIMIT : Nat := 2147483648

/-- The ids of the registered blocks in the order of their creation. -/
def PROFILING.registryIds (p : PROFILING) : List Int :=
  p.bbv_blocks.map (fun e => (p.blocks e.2)._id)

/-- Id invariant of the registry when ids are assigned at instrumentation time: every
registered id is below the counter `_currentId[0]` and the ids increase in creation order. -/
def IdInv (p : PROFILING) : Prop :=
  RegistryInv p
  ∧ (∀ x ∈ p.registryIds, x < (p._currentId 0 : Int))
  ∧ p.registryIds.Pairwise (fun a b => a < b)

/-! ## Interleaved callbacks of several threads and block-count accounting -/

/-- A sequence of callbacks, each invoked for the thread it is paired with, stopping at
the first abort. -/
def Callback.runEvents (k : Knobs) (fini : THREADID → ISIMPOINT → ISIMPOINT) :
    List (THREADID × Callback) → ISIMPOINT → Except String ISIMPOINT
  | [], s => .ok s
  | e :: rest, s =>
    match Callback.run k fini e.1 e.2 s with
    | .error err => .error err
    | .ok s1 => Callback.runEvents k fini rest s1

/-- The block that a counting callback executes. -/
def Callback.executes? : Callback → Option BlockPtr
  | .CountBlock_If b => some b
  | .CountBlockAndTrackPrevious_If b => some b
  | _ => none

/-- Whether the callback is the thread-finish callback. -/
def Callback.isThreadFini : Callback → Bool
  | .ThreadFini => true
  | _ => false

/-- The number of region executions that thread `tid` performs in a sequence of events. -/
def executionsOf (tid : THREADID) (events : List (THREADID × Callback)) : Nat :=
  (events.filter (fun e => decide (e.1 = tid) && (e.2.executes?).isSome)).length

/-- The sum over all allocated blocks of `CumulativeBlockCount(tid)`. -/
def PROFILING.totalCumulativeBlockCount (tid : THREADID) (p : PROFILING) : Int :=
  ((List.range p.nblocks).map (fun a => (p.blocks a).CumulativeBlockCount tid)).sum

/-- The current-slice count of thread `tid` at the block of address `a`. -/
def ISIMPOINT.sliceCount (tid : THREADID) (s : ISIMPOINT) (a : BlockPtr) : Int :=
  (s.profiling.blocks a)._sliceBlockCount tid

/-- The prior (pre-slice) count of thread `tid` at the block of address `a`. -/
def ISIMPOINT.priorCount (tid : THREADID) (s : ISIMPOINT) (a : BlockPtr) : Int :=
  (s.profiling.blocks a)._cumulativeBlockCount tid

/-- The counters of thread `tid` are the same in `s1` as in `s`. -/
def CountsSame (tid : THREADID) (s s1 : ISIMPOINT) : Prop :=
  s1.profiling.nblocks = s.profiling.nblocks
  ∧ ∀ a, s1.sliceCount tid a = s.sliceCount tid a ∧ s1.priorCount tid a = s.priorCount tid a

/-- The counters of thread `tid` in `s1` are those of `s` after an emission folded every
slice count into the prior count. -/
def CountsFolded (tid : THREADID) (s s1 : ISIMPOINT) : Prop :=
  s1.profiling.nblocks = s.profiling.nblocks
  ∧ ∀ a, s1.sliceCount tid a = 0
      ∧ s1.priorCount tid a = toINT64 (s.priorCount tid a + s.sliceCount tid a)

/-- The counters of thread `tid` in `s1` are those of `s` after one execution of block `b`. -/
def CountsExecuted (tid : THREADID) (b : BlockPtr) (s s1 : ISIMPOINT) : Prop :=
  s1.profiling.nblocks = s.profiling.nblocks
  ∧ s1.sliceCount tid b = toINT64 (s.sliceCount tid b + 1)
  ∧ (∀ a, a ≠ b → s1.sliceCount tid a = s.sliceCount tid a)
  ∧ ∀ a, s1.priorCount tid a = s.priorCount tid a

/-- Accounting invariant: `N` blocks are allocated, the counters of thread `tid` are not
negative, and prior plus slice counts add up to `n` over the allocated blocks. -/
def CountInv (tid : THREADID) (N : Nat) (n : Int) (s : ISIMPOINT) : Prop :=
  s.profiling.nblocks = N
  ∧ (∀ a, a < N → 0 ≤ s.sliceCount tid a ∧ 0 ≤ s.priorCount tid a)
  ∧ (Finset.range N).sum (fun a => s.priorCount tid a + s.sliceCount tid a) = n

/-- Scenario A as a sequence of events: thread 0 runs three cycles of the three regions, the
ninth tail probe reports the boundary and `CountBlock_Then` follows, then thread 0 executes
regions 0 and 1 again; the uninteresting thread 1 executes region 0 in between. -/
def scenarioEvents : List (THREADID × Callback) :=
  [(0, .CountBlock_If 0), (0, .CountBlock_If 1), (0, .CountBlock_If 2),
   (0, .CountBlock_If 0), (1, .CountBlock_If 0), (0, .CountBlock_If 1), (0, .CountBlock_If 2),
   (0, .CountBlock_If 0), (0, .CountBlock_If 1), (0, .CountBlock_If 2),
   (0, .CountBlock_Then 2), (0, .CountBlock_If 0), (0, .CountBlock_If 1)]

/-! ## Runs of the counting probe -/

/-- A sequence of `CountBlock_If` calls of thread `tid`: the returned values in call order
and the final state. -/
def ISIMPOINT.countBlocks (tid : THREADID) : List BlockPtr → ISIMPOINT → List Nat × ISIMPOINT
  | [], s => ([], s)
  | b :: rest, s =>
    let r := ISIMPOINT.CountBlock_If b tid s
    let rs := ISIMPOINT.countBlocks tid rest r.2
    (r.1 :: rs.1, rs.2)

/-- A state of scenario A: the regions `b0`, `b1`, `b2` have 10, 20 and 5 instructions, the
timer of thread `tid` is `t`, its slice size is 100 and its current-slice counts of the
three regions are `c0`, `c1`, `c2`. -/
def ScenarioA (tid : THREADID) (b0 b1 b2 : BlockPtr) (t c0 c1 c2 : Int) (s : ISIMPOINT) :
    Prop :=
  (s.profiling.blocks b0).StaticInstructionCount = 10
  ∧ (s.profiling.blocks b1).StaticInstructionCount = 20
  ∧ (s.profiling.blocks b2).StaticInstructionCount = 5
  ∧ (s.profiling.slice tid).SliceTimer = t
  ∧ (s.profiling.slice tid).CurrentSliceSize = 100
  ∧ (s.profiling.blocks b0)._sliceBlockCount tid = c0
  ∧ (s.profiling.blocks b1)._sliceBlockCount tid = c1
  ∧ (s.profiling.blocks b2)._sliceBlockCount tid = c2

/-- A length file whose first line is a comment of 100 characters, followed by the records
50 and 30. -/
def longCommentFile : List Char :=
  joinLines [List.replicate 100 '#', ['5', '0'], ['3', '0']]

/-- The same length file with the comment line deleted. -/
def shortLengthFile : List Char :=
  joinLines [['5', '0'], ['3', '0']]

/-! ## Address masking of the locality profile (isimpoint_profiles.H:25, 196, 343-348) -/

/-- The macro `ADDRESS64_MASK`, `(~0x3f)`: the complement of the `int` constant. -/
def ADDRESS64_MASK : Int := ~~~(0x3f : Int)

/-- The expression `address & ADDRESS64_MASK`: the `int` operand is converted to the 64-bit
unsigned `ADDRINT` before the bitwise and. -/
def maskAddress (address : ADDRINT) : ADDRINT :=
  address &&& (ADDRESS64_MASK % (UINT64_MOD : Int)).toNat

/-- The routine `LDV_PROF::ExecuteMemory`: the address passed to `_ldvState->access`. -/
def LDV_PROF.ExecuteMemory (address : ADDRINT) : ADDRINT := maskAddress address

/-- The routine `PROFILING::ExecuteMemory`: the address that reaches `LDV::access` for
thread `tid`, or the failed assertion when the locality profile is not selected. -/
def PROFILING.ExecuteMemory (tid : THREADID) (address : ADDRINT) (p : PROFILING) :
    Except String (THREADID × ADDRINT) :=
  if !p.ldv then .error "LDV not selected for analysis"
  else .ok (tid, LDV_PROF.ExecuteMemory (maskAddress address))

/-! ## Frame of another thread -/

/-- What an operation invoked for a different thread leaves alone of thread `t2`: its slice
state, its pending flag, and the current-slice and prior counts of every block for `t2`. -/
def OtherThreadFrame (t2 : THREADID) (s s1 : ISIMPOINT) : Prop :=
  s1.profiling.slice t2 = s.profiling.slice t2
  ∧ s1._vectorPending t2 = s._vectorPending t2
  ∧ ∀ a, (s1.profiling.blocks a)._sliceBlockCount t2 = (s.profiling.blocks a)._sliceBlockCount t2
      ∧ (s1.profiling.blocks a)._cumulativeBlockCount t2
          = (s.profiling.blocks a)._cumulativeBlockCount t2

/-- Scenario D: the scenario state with both thread 0 and thread 1 interesting. -/
def scenarioD : ISIMPOINT :=
  { scenarioInit with interesting_thread_lut_ := fun _ => true }

/-- Scenario D as events: thread 0 executes regions 0 and 1, thread 1 executes region 2,
both reach `CountBlock_Then`. -/
def scenarioDEvents : List (THREADID × Callback) :=
  [(0, .CountBlock_If 0), (1, .CountBlock_If 2), (0, .CountBlock_If 1), (1, .CountBlock_If 2),
   (0, .CountBlock_If 0), (0, .CountBlock_Then 0), (1, .CountBlock_If 2),
   (1, .CountBlock_Then 2)]

/-! ## First instruction pointer (isimpoint_inst.H:138-154, 295-303; isimpoint_profiles.H:350-363) -/

/-- The capture probe that `ISIMPOINT::Trace` inserts at the head of a block: the `Then`
routine runs only when the `If` routine returns nonzero. -/
def ISIMPOINT.captureFirstIP (ip : ADDRINT) (tid : THREADID) (imgID : Nat) (s : ISIMPOINT) :
    ISIMPOINT :=
  if ISIMPOINT.GetFirstIP_If tid s ≠ 0 then ISIMPOINT.GetFirstIP_Then ip tid imgID s else s

/-- A sequence of capture probes of thread `tid`, each with its instruction pointer and
module id. -/
def ISIMPOINT.captureAll (tid : THREADID) : List (ADDRINT × Nat) → ISIMPOINT → ISIMPOINT
  | [], s => s
  | c :: rest, s => ISIMPOINT.captureAll tid rest (ISIMPOINT.captureFirstIP c.1 tid c.2 s)

/-- The routine `PROFILING::DoInsertGetFirstIpInstrumentation`: the loop over the thread
ids below `_nthreads`. -/
def PROFILING.DoInsertGetFirstIpInstrumentation (p : PROFILING) : Bool :=
  (List.range p._nthreads).foldl
    (fun do_instrument i =>
      if p.active i then do_instrument || decide ((p.slice i).first_eip = 0)
      else do_instrument)
    false

/-- The condition under which `ISIMPOINT::Trace` inserts the capture probe. -/
def ISIMPOINT.insertsFirstIpProbe (k : Knobs) (s : ISIMPOINT) : Bool :=
  k.KnobEmitFirstSlice && s.profiling.DoInsertGetFirstIpInstrumentation

/-! ## Activation (isimpoint_inst.H:393-431) -/

/-- The instrumentation functions that `AddInstrumentation` registers with Pin. -/
inductive PinRegistration
  | ThreadStart
  | ThreadFini
  | Trace
  | Image
  deriving DecidableEq, Repr

/-- The engine around the analysis state: the `ISIMPOINT` members, the length of the array
behind `_vectorPending` (`none` for `nullptr`), the functions registered with Pin, and
whether `pinplay_engine_` has been fetched. -/
structure ENGINE where
  isimpoint : ISIMPOINT
  vectorPendingLength : Option Nat
  registered : List PinRegistration
  pinplay_engine_ : Bool

/-- The routine `ISIMPOINT::GetCommand`. -/
def ISIMPOINT.GetCommand (argv : List String) (s : ISIMPOINT) : ISIMPOINT :=
  { s with commandLine := argv.foldl (fun acc a => (acc ++ " ") ++ a) s.commandLine }

/-- The routine `ISIMPOINT::AddInstrumentation`. -/
def ENGINE.AddInstrumentation (e : ENGINE) : ENGINE :=
  { e with registered := e.registered ++ [.ThreadStart, .ThreadFini, .Trace, .Image] }

/-- The routine `ISIMPOINT::activate`. `profilingInit` stands for the initialisation routine
of `PROFILING`, whose body is outside src/, and `pid` for the value of `getpid()`. The new
array has `profiling._nthreads` entries, all `FALSE`; flags beyond it are not part of the
array. -/
def ENGINE.activate (k : Knobs) (profilingInit : PROFILING → PROFILING) (pid : Nat)
    (argv : List String) (e : ENGINE) : ENGINE :=
  if !k.KnobBbv && !k.KnobLdv then e
  else
    let s1 : ISIMPOINT := { e.isimpoint with profiling := profilingInit e.isimpoint.profiling }
    let s2 := ISIMPOINT.GetCommand argv s1
    let s3 : ISIMPOINT := if k.KnobPid then { s2 with Pid := pid } else s2
    let n := s3.profiling._nthreads
    let pending : THREADID → Bool := fun i => if i < n then false else s3._vectorPending i
    let e1 : ENGINE :=
      { e with isimpoint := { s3 with _vectorPending := pending }, vectorPendingLength := some n }
    { ENGINE.AddInstrumentation e1 with pinplay_engine_ := true }

/-! ## Vocabulary for boundaries -/

/-- The static instruction counts of a sequence of blocks as the state holds them. -/
def ISIMPOINT.staticSizes (s : ISIMPOINT) (bs : List BlockPtr) : List Int :=
  bs.map (fun b => (s.profiling.blocks b).StaticInstructionCount)

/-- The number of instructions accounted by the first `i` blocks of a sequence of static
instruction counts. -/
def instructionsAfter (sizes : List Int) (i : Nat) : Int := (sizes.take i).sum

/-! ## The block most recently executed by a thread -/

/-- The block that thread `tid` executed last: `last` before the events, replaced by the
block of every counting callback of `tid` in turn. -/
def lastExecuted (tid : THREADID) (last : Option BlockPtr)
    (events : List (THREADID × Callback)) : Option BlockPtr :=
  events.foldl
    (fun last e => if e.1 = tid ∧ e.2.executes?.isSome then e.2.executes? else last) last

/-! ## Interleavings of counting and reset -/

/-- The instructions that the slice state of a thread accounts for: the cumulative count of
the finished slices plus the part of the current slice already executed. -/
def SLICE_INFO.accounted (sl : SLICE_INFO) : Int :=
  sl.CumulativeInstructionCount + (sl.CurrentSliceSize - sl.SliceTimer)

/-- A call of `CountBlock_If` for a block or of `ResetSliceTimer`. -/
inductive SliceCall
  | count (block : BlockPtr)
  | reset
  deriving DecidableEq

/-- One call of `CountBlock_If` or `ResetSliceTimer` for thread `tid`. -/
def ISIMPOINT.sliceCall (k : Knobs) (tid : THREADID) : SliceCall → ISIMPOINT → ISIMPOINT
  | .count b, s => (ISIMPOINT.CountBlock_If b tid s).2
  | .reset, s => ISIMPOINT.ResetSliceTimer k tid s

/-- An interleaving of `CountBlock_If` and `ResetSliceTimer` calls for thread `tid`. -/
def ISIMPOINT.sliceCalls (k : Knobs) (tid : THREADID) : List SliceCall → ISIMPOINT → ISIMPOINT
  | [], s => s
  | c :: rest, s => ISIMPOINT.sliceCalls k tid rest (ISIMPOINT.sliceCall k tid c s)

/-- Whether the `INT64` arithmetic of one call is exact: the new timer of `CountBlock_If`,
the slice length and the new cumulative count of `ResetSliceTimer` are representable. -/
def ISIMPOINT.sliceCallExact (tid : THREADID) : SliceCall → ISIMPOINT → Bool
  | .count b, s =>
    decide (InINT64 ((s.profiling.slice tid).SliceTimer
      - (s.profiling.blocks b).StaticInstructionCount))
  | .reset, s =>
    decide (InINT64 ((s.profiling.slice tid).CurrentSliceSize - (s.profiling.slice tid).SliceTimer))
    && decide (InINT64 ((s.profiling.slice tid).CumulativeInstructionCount
        + ((s.profiling.slice tid).CurrentSliceSize - (s.profiling.slice tid).SliceTimer)))

/-- Whether the `INT64` arithmetic of every call of an interleaving is exact. -/
def ISIMPOINT.sliceCallsExact (k : Knobs) (tid : THREADID) : List SliceCall → ISIMPOINT → Bool
  | [], _ => true
  | c :: rest, s =>
    ISIMPOINT.sliceCallExact tid c s
      && ISIMPOINT.sliceCallsExact k tid rest (ISIMPOINT.sliceCall k tid c s)

/-- The total static instruction count of the blocks that an interleaving executes. -/
def ISIMPOINT.executedInstructions (s : ISIMPOINT) : List SliceCall → Int
  | [] => 0
  | .count b :: rest =>
    (s.profiling.blocks b).StaticInstructionCount + ISIMPOINT.executedInstructions s rest
  | .reset :: rest => ISIMPOINT.executedInstructions s rest

/-! ## Instructions of the current slice -/

/-- The sum over all allocated blocks of the current-slice count of thread `tid` times the
static instruction count of the block. -/
def PROFILING.sliceInstructionTotal (tid : THREADID) (p : PROFILING) : Int :=
  ((List.range p.nblocks).map
    (fun a => (p.blocks a)._sliceBlockCount tid * (p.blocks a).StaticInstructionCount)).sum

/-- Scenario A before the boundary block: thread 0 has executed the three regions twice and
regions 0 and 1 a third time; its timer is 0. -/
def scenarioA8 : ISIMPOINT :=
  (ISIMPOINT.countBlocks 0 [0, 1, 2, 0, 1, 2, 0, 1] scenarioInit).2

/-! ## The loop tracker (sde-external-9.21.1, sde-example/example/loop-tracker.H:86-99, 480-515)

The counters are `INT64` members of `Counter`; the arrays of a `LoopInfo` are indexed by
thread id. The debug output of the routines is not part of the state. -/

/-- The struct `LoopInfo`. -/
structure LoopInfo where
  lineNumber : Int
  fileName : String
  entryAddr : ADDRINT
  insideLoop : THREADID → Bool
  entryCounter : THREADID → Int
  tempEntryCounter : THREADID → Int
  startCounter : THREADID → Int
  endCounter : THREADID → Int

/-- The initialisation of a `LoopInfo` in `processDcfg` (loop-tracker.H:387-402): the flags
are `FALSE`, the entry, start and end counters are zero; `tempEntryCounter` is allocated but
not initialised, `uninitialised` stands for what it holds. -/
def LoopInfo.new (lineNumber : Int) (fileName : String) (entryAddr : ADDRINT)
    (uninitialised : THREADID → Int) : LoopInfo :=
  { lineNumber := lineNumber, fileName := fileName, entryAddr := entryAddr,
    insideLoop := fun _ => false, entryCounter := fun _ => 0,
    tempEntryCounter := uninitialised, startCounter := fun _ => 0, endCounter := fun _ => 0 }

/-- The analysis routine `LOOP_TRACKER::enterLoop`. -/
def LOOP_TRACKER.enterLoop (li : LoopInfo) (tid : THREADID) : LoopInfo :=
  let entry := toINT64 (li.entryCounter tid + 1)
  let li1 := { li with entryCounter := Function.update li.entryCounter tid entry }
  if !li1.insideLoop tid then
    { li1 with
      tempEntryCounter := Function.update li1.tempEntryCounter tid (li1.entryCounter tid)
      insideLoop := Function.update li1.insideLoop tid true }
  else li1

/-- The expression that `enterLoopExitSink` prints as "last visit iterations" and compares
with the largest count so far: `entryCounter[tid] - tempEntryCounter[tid]`. -/
def LoopInfo.lastVisitIterations (li : LoopInfo) (tid : THREADID) : Int :=
  toINT64 (li.entryCounter tid - li.tempEntryCounter tid)

/-- The analysis routine `LOOP_TRACKER::enterLoopExitSink`. -/
def LOOP_TRACKER.enterLoopExitSink (li : LoopInfo) (tid : THREADID) : LoopInfo :=
  if li.insideLoop tid then
    let li1 := { li with insideLoop := Function.update li.insideLoop tid false }
    if toINT64 (li1.endCounter tid - li1.startCounter tid) < li1.lastVisitIterations tid then
      { li1 with
        startCounter := Function.update li1.startCounter tid (li1.tempEntryCounter tid)
        endCounter := Function.update li1.endCounter tid (li1.entryCounter tid) }
    else li1
  else li

/-- A call of one of the two analysis routines of a loop. -/
inductive LoopCall
  | enterLoop
  | enterLoopExitSink
  deriving DecidableEq

/-- One call for thread `tid`. -/
def LOOP_TRACKER.call (tid : THREADID) : LoopCall → LoopInfo → LoopInfo
  | .enterLoop, li => LOOP_TRACKER.enterLoop li tid
  | .enterLoopExitSink, li => LOOP_TRACKER.enterLoopExitSink li tid

/-- A sequence of calls, each for the thread it is paired with. -/
def LOOP_TRACKER.calls : List (THREADID × LoopCall) → LoopInfo → LoopInfo
  | [], li => li
  | e :: rest, li => LOOP_TRACKER.calls rest (LOOP_TRACKER.call e.1 e.2 li)

/-- What `enterLoopExitSink` reports for thread `tid` along a sequence of calls: the value of
"last visit iterations" at each of its calls that finds the thread inside the loop, that is
at each completed entry. -/
def LOOP_TRACKER.reported (tid : THREADID) : List (THREADID × LoopCall) → LoopInfo → List Int
  | [], _ => []
  | e :: rest, li =>
    if e.1 = tid ∧ e.2 = .enterLoopExitSink ∧ li.insideLoop tid = true then
      li.lastVisitIterations tid :: LOOP_TRACKER.reported tid rest (LOOP_TRACKER.call e.1 e.2 li)
    else LOOP_TRACKER.reported tid rest (LOOP_TRACKER.call e.1 e.2 li)

/-- The completed entries of thread `tid` read off the calls alone: for each, the number of
`enterLoop` calls of the thread after the one that entered the loop from outside and before
the exit. `inside` and `current` describe the entry in progress. -/
def entryIterationsFrom (tid : THREADID) :
    List (THREADID × LoopCall) → Bool → Nat → List Nat
  | [], _, _ => []
  | e :: rest, inside, current =>
    if e.1 = tid then
      match e.2 with
      | .enterLoop =>
        if inside then entryIterationsFrom tid rest true (current + 1)
        else entryIterationsFrom tid rest true 0
      | .enterLoopExitSink =>
        if inside then current :: entryIterationsFrom tid rest false 0
        else entryIterationsFrom tid rest false current
    else entryIterationsFrom tid rest inside current

/-- The number of `enterLoop` calls of thread `tid` in a sequence of calls. -/
def enterLoopCalls (tid : THREADID) (events : List (THREADID × LoopCall)) : Nat :=
  (events.filter (fun e => decide (e.1 = tid) && decide (e.2 = .enterLoop))).length

/-- The largest element of a list of counts, `0` for the empty list. -/
def largestCount (l : List Int) : Int := l.foldl max 0

/-- Calls of two threads on one loop: thread 0 enters and leaves after three further
iterations, enters again and leaves after one, and is inside a third time; thread 1 enters
and leaves at once. -/
def scenarioLoopCalls : List (THREADID × LoopCall) :=
  [(0, .enterLoop), (0, .enterLoop), (1, .enterLoop), (0, .enterLoop), (0, .enterLoop),
   (0, .enterLoopExitSink), (1, .enterLoopExitSink), (0, .enterLoopExitSink),
   (0, .enterLoop), (0, .enterLoop), (0, .enterLoopExitSink), (0, .enterLoop)]

/-! ## The probes of a block, one by one (isimpoint_inst.H:305-330) -/

/-- The probe at the head instruction of a block: the delayed-emission check and its `Then`
routine, inserted only with `KnobEmitVectors && KnobDelayVectorEmission`. -/
def ISIMPOINT.headProbe (k : Knobs) (block : BlockPtr) (tid : THREADID) (s : ISIMPOINT) :
    Except String ISIMPOINT :=
  if k.KnobEmitVectors && k.KnobDelayVectorEmission then
    if ISIMPOINT.CheckDelayedVectorEmission tid s ≠ 0 then
      ISIMPOINT.DelayedVectorEmission k block tid s
    else .ok s
  else .ok s

/-- The counting `If` routine at the tail instruction of a block: with
`KnobEmitPrevBlockCounts` the tracking variant, else `CountBlock_If`. -/
def ISIMPOINT.countProbe (k : Knobs) (block : BlockPtr) (tid : THREADID) (s : ISIMPOINT) :
    Nat × ISIMPOINT :=
  if k.KnobEmitPrevBlockCounts then ISIMPOINT.CountBlockAndTrackPrevious_If k block tid s
  else ISIMPOINT.CountBlock_If block tid s

/-- The probe pair at the tail instruction of a block: the counting `If` routine and, when
it returns nonzero, `CountBlock_Then`. -/
def ISIMPOINT.tailProbe (k : Knobs) (block : BlockPtr) (tid : THREADID) (s : ISIMPOINT) :
    ISIMPOINT :=
  if (ISIMPOINT.countProbe k block tid s).1 ≠ 0 then
    ISIMPOINT.CountBlock_Then k block tid (ISIMPOINT.countProbe k block tid s).2
  else (ISIMPOINT.countProbe k block tid s).2

/-! ## Boundaries as seen from outside -/

/-- The part of the slice state that decides where boundaries fall: timer, slice size,
cumulative count and the queue of slice lengths. -/
structure Schedule where
  SliceTimer : Int
  CurrentSliceSize : Int
  CumulativeInstructionCount : Int
  length_queue : List Nat
  deriving DecidableEq

/-- The schedule part of `slice[tid]`. -/
def ISIMPOINT.schedule (s : ISIMPOINT) (tid : THREADID) : Schedule :=
  { SliceTimer := (s.profiling.slice tid).SliceTimer,
    CurrentSliceSize := (s.profiling.slice tid).CurrentSliceSize,
    CumulativeInstructionCount := (s.profiling.slice tid).CumulativeInstructionCount,
    length_queue := (s.profiling.slice tid).length_queue }

/-- What is seen of one block execution: the cumulative count after a reset at the head
probe (if one was taken), the value the counting probe returned, the schedule right after
the counting probe, and the cumulative count after a reset in `CountBlock_Then` (if one was
taken). -/
structure ProbeObservation where
  headReset : Option Int
  signal : Nat
  atCount : Schedule
  tailReset : Option Int
  deriving DecidableEq

/-- A reset between two states shows as a new entry of the emission trace (every reset of
the probes is followed by `EmitSliceEnd`); the value seen is the cumulative count of the
thread after it. -/
def ISIMPOINT.resetSeen (tid : THREADID) (before after : ISIMPOINT) : Option Int :=
  if after.profiling.emitted.length = before.profiling.emitted.length then none
  else some (after.profiling.slice tid).CumulativeInstructionCount

/-- One block execution by thread `tid` with what is seen of it. -/
def ISIMPOINT.observeBlock (k : Knobs) (block : BlockPtr) (tid : THREADID) (s : ISIMPOINT) :
    Except String (ProbeObservation × ISIMPOINT) :=
  match ISIMPOINT.headProbe k block tid s with
  | .error e => .error e
  | .ok s1 =>
    let c := ISIMPOINT.countProbe k block tid s1
    let s2 := ISIMPOINT.tailProbe k block tid s1
    .ok (⟨ISIMPOINT.resetSeen tid s s1, c.1, c.2.schedule tid, ISIMPOINT.resetSeen tid c.2 s2⟩,
      s2)

/-- A sequence of block executions by thread `tid` with what is seen of each. -/
def ISIMPOINT.observeBlocks (k : Knobs) (tid : THREADID) :
    List BlockPtr → ISIMPOINT → Except String (List ProbeObservation × ISIMPOINT)
  | [], s => .ok ([], s)
  | b :: rest, s =>
    match ISIMPOINT.observeBlock k b tid s with
    | .error e => .error e
    | .ok r =>
      match ISIMPOINT.observeBlocks k tid rest r.2 with
      | .error e => .error e
      | .ok rs => .ok (r.1 :: rs.1, rs.2)

/-- The values returned by the counting probe, block by block. -/
def signalsOf (obs : List ProbeObservation) : List Nat := obs.map (fun o => o.signal)

/-- The schedule right after each counting probe. -/
def schedulesOf (obs : List ProbeObservation) : List Schedule := obs.map (fun o => o.atCount)

/-- The cumulative counts after the resets, in the order in which the resets are taken. -/
def resetsOf : List ProbeObservation → List Int
  | [] => []
  | o :: rest => o.headReset.toList ++ (o.tailReset.toList ++ resetsOf rest)

/-- The instruction indices at which boundaries are declared: the number of instructions
executed up to and including each block at which the counting probe returned nonzero. -/
def boundaryIndices (sizes : List Int) (signals : List Nat) : List Int :=
  ((List.range signals.length).filter (fun i => decide (signals.getD i 0 ≠ 0))).map
    (fun i => instructionsAfter sizes (i + 1))

/-! ## Boundaries computed from the static sizes and the schedule alone -/

/-- The effect of `ResetSliceTimer` on a schedule; `fixed` is `KnobSliceSize`. -/
def Schedule.reset (fixed : Int) (σ : Schedule) : Schedule :=
  let cum := toINT64 (σ.CumulativeInstructionCount
    + toINT64 (σ.CurrentSliceSize - σ.SliceTimer))
  match σ.length_queue with
  | front :: rest => ⟨toINT64 (front : Int), toINT64 (front : Int), cum, rest⟩
  | [] => ⟨fixed, fixed, cum, []⟩

/-- The effect of a counting probe of a block of `n` static instructions on a schedule, and
the value the probe returns. -/
def Schedule.count (n : Int) (σ : Schedule) : Nat × Schedule :=
  let timer := toINT64 (σ.SliceTimer - n)
  (if timer < 0 then 1 else 0, { σ with SliceTimer := timer })

/-- What is seen of a run, computed from the static sizes of the executed blocks, the
schedule, the fixed slice size and the emission mode (`delay`) alone; `pending` tells whether
an emission is pending. -/
def Schedule.observe (delay : Bool) (fixed : Int) :
    List Int → Schedule → Bool → List ProbeObservation
  | [], _, _ => []
  | n :: rest, σ, pending =>
    let atHead := if delay && pending then σ.reset fixed else σ
    let headReset :=
      if delay && pending then some atHead.CumulativeInstructionCount else none
    let c := atHead.count n
    if c.1 ≠ 0 then
      if delay then ⟨headReset, c.1, c.2, none⟩ :: Schedule.observe delay fixed rest c.2 true
      else
        ⟨headReset, c.1, c.2, some (c.2.reset fixed).CumulativeInstructionCount⟩
          :: Schedule.observe delay fixed rest (c.2.reset fixed) false
    else ⟨headReset, c.1, c.2, none⟩ :: Schedule.observe delay fixed rest c.2 false

/-- Four cycles of the three regions of the scenarios. -/
def scenarioCycles : List BlockPtr := [0, 1, 2, 0, 1, 2, 0, 1, 2, 0, 1, 2]

/-- The regions of the scenarios at other heap addresses (5, 6 and 7) and with other keys,
ids and module ids. -/
def scenarioMovedBlocks : BlockPtr → BLOCK
  | 5 => BLOCK.new ⟨8192, 8228, 40⟩ 10 7 2
  | 6 => BLOCK.new ⟨8232, 8308, 80⟩ 20 8 2
  | 7 => BLOCK.new ⟨8312, 8328, 20⟩ 5 9 2
  | _ => BLOCK.new ⟨0, 0, 0⟩ 0 0 0

/-- Scenario D with the regions moved: both threads interesting, blocks at 5, 6 and 7. -/
def scenarioMoved : ISIMPOINT :=
  let p : PROFILING := { scenarioD.profiling with blocks := scenarioMovedBlocks, nblocks := 8 }
  { scenarioD with profiling := p }

/-- Four cycles of the three moved regions. -/
def scenarioMovedCycles : List BlockPtr := [5, 6, 7, 5, 6, 7, 5, 6, 7, 5, 6, 7]

/-! ## The probe protocol for several threads -/

/-- What happens to a thread under the probes that `Trace` inserts: it reaches the head
instruction of a block (the delayed-emission probe), it reaches the tail instruction of a
block (the counting probe and, when that returns nonzero, `CountBlock_Then`), or another
class asks for its pending vector through `EmitVectorForFriend`. One execution of a block is
a `head` followed by a `tail`. -/
inductive ProbeEvent
  | head (b : BlockPtr)
  | tail (b : BlockPtr)
  | friend (marker : ADDRINT) (imageid : Nat) (markerCountOffset : Nat)

/-- One event of the probe protocol for thread `tid`. -/
def ISIMPOINT.probeEvent (k : Knobs) (tid : THREADID) : ProbeEvent → ISIMPOINT →
    Except String ISIMPOINT
  | .head b, s => ISIMPOINT.headProbe k b tid s
  | .tail b, s => .ok (ISIMPOINT.tailProbe k b tid s)
  | .friend m i o, s => ISIMPOINT.EmitVectorForFriend k m i tid o s

/-- A sequence of events of the probe protocol, each for the thread it is paired with,
stopping at the first abort. -/
def ISIMPOINT.probeEvents (k : Knobs) :
    List (THREADID × ProbeEvent) → ISIMPOINT → Except String ISIMPOINT
  | [], s => .ok s
  | e :: rest, s =>
    match ISIMPOINT.probeEvent k e.1 e.2 s with
    | .error err => .error err
    | .ok s1 => ISIMPOINT.probeEvents k rest s1

/-- Whether the timer subtraction of the counting probe of one event is exact in `INT64`. -/
def ISIMPOINT.probeEventExact (tid : THREADID) : ProbeEvent → ISIMPOINT → Bool
  | .tail b, s =>
    decide (InINT64 ((s.profiling.slice tid).SliceTimer
      - (s.profiling.blocks b).StaticInstructionCount))
  | _, _ => true

/-- Whether the timer subtraction of every counting probe of a run is exact in `INT64`. -/
def ISIMPOINT.probeEventsExact (k : Knobs) :
    List (THREADID × ProbeEvent) → ISIMPOINT → Bool
  | [], _ => true
  | e :: rest, s =>
    ISIMPOINT.probeEventExact e.1 e.2 s
      && (match ISIMPOINT.probeEvent k e.1 e.2 s with
          | .error _ => true
          | .ok s1 => ISIMPOINT.probeEventsExact k rest s1)

/-- The invariant of the probe protocol: a set pending flag implies a negative timer, the
flags stay clear when vectors are emitted immediately, and no block has a negative static
instruction count. -/
def PendingInv (k : Knobs) (s : ISIMPOINT) : Prop :=
  (∀ t, s._vectorPending t = true → (s.profiling.slice t).SliceTimer < 0)
  ∧ (k.KnobEmitVectors = true → k.KnobDelayVectorEmission = false →
      ∀ t, s._vectorPending t = false)
  ∧ ∀ a, 0 ≤ (s.profiling.blocks a).StaticInstructionCount

/-- The events of a sequence of block executions: the head and the tail of each block. -/
def blockEvents (blocks : List (THREADID × BlockPtr)) : List (THREADID × ProbeEvent) :=
  blocks.flatMap (fun e => [(e.1, .head e.2), (e.1, .tail e.2)])

/-- A run of two threads under the probes: thread 0 runs three cycles of the regions and two
more blocks, thread 1 runs one block in between. -/
def scenarioFriendEvents : List (THREADID × ProbeEvent) :=
  blockEvents [(0, 0), (0, 1), (0, 2), (0, 0), (1, 2), (0, 1), (0, 2), (0, 0), (0, 1), (0, 2),
    (0, 0), (0, 1)]

/-! # Theorems -/

/-! ## Arithmetic of `toINT64` -/

theorem toINT64_of_InINT64 (x : Int) (h : InINT64 x) : toINT64 x = x := by
  unfold InINT64 at h
  unfold toINT64
  omega

theorem toINT64_InINT64 (x : Int) : InINT64 (toINT64 x) := by
  unfold InINT64 toINT64
  omega

/-! ## Slice reset and block counting -/

/-- C1: for an interesting thread with `CumulativeInstructionCount = C`,
`CurrentSliceSize = S`, `SliceTimer = T`, `ResetSliceTimer` stores the `INT64` value of
`C + (S - T)` (exactly `C + (S - T)` when the difference and the sum are representable);
with a non-empty queue of front `q` it sets `SliceTimer = CurrentSliceSize = (INT64)q` and
pops exactly that element; with an empty queue it sets both to `KnobSliceSize` and the
queue stays empty. -/
theorem C1_ResetSliceTimer_contract (k : Knobs) (tid : THREADID) (s : ISIMPOINT)
    (hint : s.InterestingThreadLut tid = true) :
    (((ISIMPOINT.ResetSliceTimer k tid s).profiling.slice tid).CumulativeInstructionCount
        = toINT64 ((s.profiling.slice tid).CumulativeInstructionCount
            + toINT64 ((s.profiling.slice tid).CurrentSliceSize - (s.profiling.slice tid).SliceTimer)))
    ∧ (InINT64 ((s.profiling.slice tid).CurrentSliceSize - (s.profiling.slice tid).SliceTimer) →
        InINT64 ((s.profiling.slice tid).CumulativeInstructionCount
          + ((s.profiling.slice tid).CurrentSliceSize - (s.profiling.slice tid).SliceTimer)) →
        ((ISIMPOINT.ResetSliceTimer k tid s).profiling.slice tid).CumulativeInstructionCount
          = (s.profiling.slice tid).CumulativeInstructionCount
            + ((s.profiling.slice tid).CurrentSliceSize - (s.profiling.slice tid).SliceTimer))
    ∧ (∀ q rest, (s.profiling.slice tid).length_queue = q :: rest →
        ((ISIMPOINT.ResetSliceTimer k tid s).profiling.slice tid).SliceTimer = toINT64 (q : Int)
        ∧ ((ISIMPOINT.ResetSliceTimer k tid s).profiling.slice tid).CurrentSliceSize
            = toINT64 (q : Int)
        ∧ ((ISIMPOINT.ResetSliceTimer k tid s).profiling.slice tid).length_queue = rest)
    ∧ ((s.profiling.slice tid).length_queue = [] →
        ((ISIMPOINT.ResetSliceTimer k tid s).profiling.slice tid).SliceTimer = k.KnobSliceSize
        ∧ ((ISIMPOINT.ResetSliceTimer k tid s).profiling.slice tid).CurrentSliceSize
            = k.KnobSliceSize
        ∧ ((ISIMPOINT.ResetSliceTimer k tid s).profiling.slice tid).length_queue = []) := by
  have hcum : ((ISIMPOINT.ResetSliceTimer k tid s).profiling.slice tid).CumulativeInstructionCount
        = toINT64 ((s.profiling.slice tid).CumulativeInstructionCount
            + toINT64 ((s.profiling.slice tid).CurrentSliceSize - (s.profiling.slice tid).SliceTimer)) := by
    unfold ISIMPOINT.ResetSliceTimer
    simp only [hint, Bool.not_true, Bool.false_eq_true, if_false]
    cases hq : (s.profiling.slice tid).length_queue <;>
      simp [PROFILING.setSlice]
  refine ⟨hcum, ?_, ?_, ?_⟩
  · intro h1 h2
    rw [hcum, toINT64_of_InINT64 _ h1, toINT64_of_InINT64 _ h2]
  · intro q rest hq
    unfold ISIMPOINT.ResetSliceTimer
    simp [hint, hq, PROFILING.setSlice]
  · intro hq
    unfold ISIMPOINT.ResetSliceTimer
    simp [hint, hq, PROFILING.setSlice]

/-- Witness of C1: in scenario C, with slice size 50, timer -5 and the lengths 30, 20
queued, the reset accounts 55 instructions, installs 30 and leaves 20 queued. -/
theorem C1_ResetSliceTimer_contract_witness :
    scenarioQueued.InterestingThreadLut 0 = true
    ∧ ((ISIMPOINT.ResetSliceTimer (scenarioKnobs false) 0 scenarioQueued).profiling.slice
        0).CumulativeInstructionCount = 55
    ∧ ((ISIMPOINT.ResetSliceTimer (scenarioKnobs false) 0 scenarioQueued).profiling.slice
        0).SliceTimer = 30
    ∧ ((ISIMPOINT.ResetSliceTimer (scenarioKnobs false) 0 scenarioQueued).profiling.slice
        0).length_queue = [20] := by
  obtain ⟨h1, _, h3, _⟩ :=
    C1_ResetSliceTimer_contract (scenarioKnobs false) 0 scenarioQueued rfl
  obtain ⟨h4, _, h5⟩ := h3 30 [20] rfl
  refine ⟨rfl, ?_, ?_, h5⟩
  · rw [h1]; decide
  · rw [h4]; decide

/-- C2: `CountBlock_If(b, tid)` adds one to the current-slice count of `b` for `tid`,
subtracts `b.StaticInstructionCount()` from `slice[tid].SliceTimer` (both in `INT64`, exact
when representable), sets `slice[tid].last_block` to `b`, and returns nonzero exactly when
the new timer is negative. -/
theorem C2_CountBlock_If_contract (b : BlockPtr) (tid : THREADID) (s : ISIMPOINT) :
    (((ISIMPOINT.CountBlock_If b tid s).2.profiling.blocks b)._sliceBlockCount tid
        = toINT64 ((s.profiling.blocks b)._sliceBlockCount tid + 1))
    ∧ (InINT64 ((s.profiling.blocks b)._sliceBlockCount tid + 1) →
        ((ISIMPOINT.CountBlock_If b tid s).2.profiling.blocks b)._sliceBlockCount tid
          = (s.profiling.blocks b)._sliceBlockCount tid + 1)
    ∧ (((ISIMPOINT.CountBlock_If b tid s).2.profiling.slice tid).SliceTimer
        = toINT64 ((s.profiling.slice tid).SliceTimer
            - (s.profiling.blocks b).StaticInstructionCount))
    ∧ (InINT64 ((s.profiling.slice tid).SliceTimer
          - (s.profiling.blocks b).StaticInstructionCount) →
        ((ISIMPOINT.CountBlock_If b tid s).2.profiling.slice tid).SliceTimer
          = (s.profiling.slice tid).SliceTimer - (s.profiling.blocks b).StaticInstructionCount)
    ∧ ((ISIMPOINT.CountBlock_If b tid s).2.profiling.slice tid).last_block = some b
    ∧ ((ISIMPOINT.CountBlock_If b tid s).1 ≠ 0 ↔
        ((ISIMPOINT.CountBlock_If b tid s).2.profiling.slice tid).SliceTimer < 0) := by
  have hcnt : ((ISIMPOINT.CountBlock_If b tid s).2.profiling.blocks b)._sliceBlockCount tid
        = toINT64 ((s.profiling.blocks b)._sliceBlockCount tid + 1) := by
    simp [ISIMPOINT.CountBlock_If, PROFILING.setSlice, PROFILING.modifyBlock, BLOCK.Execute]
  have htim : ((ISIMPOINT.CountBlock_If b tid s).2.profiling.slice tid).SliceTimer
        = toINT64 ((s.profiling.slice tid).SliceTimer
            - (s.profiling.blocks b).StaticInstructionCount) := by
    simp [ISIMPOINT.CountBlock_If, PROFILING.setSlice, PROFILING.modifyBlock, BLOCK.Execute,
      BLOCK.StaticInstructionCount]
  refine ⟨hcnt, ?_, htim, ?_, ?_, ?_⟩
  · intro h; rw [hcnt, toINT64_of_InINT64 _ h]
  · intro h; rw [htim, toINT64_of_InINT64 _ h]
  · simp [ISIMPOINT.CountBlock_If, PROFILING.setSlice]
  · rw [htim]
    simp only [ISIMPOINT.CountBlock_If, PROFILING.setSlice, PROFILING.modifyBlock,
      BLOCK.Execute, BLOCK.StaticInstructionCount, Function.update_same]
    split_ifs with h <;> simp [h]

/-! ## Boundary handling -/

/-- C4: with emit-vectors enabled and delayed emission disabled, for an interesting thread
`CountBlock_Then(b, tid)` is the reset followed by one `EmitSliceEnd`: the trace grows by
exactly one call, with marker `b.Key().End()`, module id `b.ImgId()` and offset 0; the slice
state is the one `ResetSliceTimer` produces; the pending flag is not touched, so a flag that
was false (as `activate` leaves it) is false afterwards. -/
theorem C4_CountBlock_Then_immediate (k : Knobs) (b : BlockPtr) (tid : THREADID)
    (s : ISIMPOINT) (hev : k.KnobEmitVectors = true) (hdelay : k.KnobDelayVectorEmission = false)
    (hint : s.InterestingThreadLut tid = true) :
    ISIMPOINT.CountBlock_Then k b tid s
        = ISIMPOINT.EmitSliceEnd (s.profiling.blocks b).Key.End (s.profiling.blocks b).ImgId
            tid 0 (ISIMPOINT.ResetSliceTimer k tid s)
    ∧ (ISIMPOINT.CountBlock_Then k b tid s).profiling.emitted
        = s.profiling.emitted
            ++ [⟨tid, (s.profiling.blocks b).Key.End, (s.profiling.blocks b).ImgId, 0⟩]
    ∧ (ISIMPOINT.CountBlock_Then k b tid s).profiling.slice tid
        = (ISIMPOINT.ResetSliceTimer k tid s).profiling.slice tid
    ∧ (ISIMPOINT.CountBlock_Then k b tid s)._vectorPending = s._vectorPending
    ∧ (s._vectorPending tid = false →
        (ISIMPOINT.CountBlock_Then k b tid s)._vectorPending tid = false) := by
  have hblocks : (ISIMPOINT.ResetSliceTimer k tid s).profiling.blocks = s.profiling.blocks := by
    unfold ISIMPOINT.ResetSliceTimer
    simp only [hint, Bool.not_true, Bool.false_eq_true, if_false]
    cases (s.profiling.slice tid).length_queue <;> simp [PROFILING.setSlice]
  have hem : (ISIMPOINT.ResetSliceTimer k tid s).profiling.emitted = s.profiling.emitted := by
    unfold ISIMPOINT.ResetSliceTimer
    simp only [hint, Bool.not_true, Bool.false_eq_true, if_false]
    cases (s.profiling.slice tid).length_queue <;> simp [PROFILING.setSlice]
  have hpend : (ISIMPOINT.ResetSliceTimer k tid s)._vectorPending = s._vectorPending := by
    unfold ISIMPOINT.ResetSliceTimer
    simp only [hint, Bool.not_true, Bool.false_eq_true, if_false]
    cases (s.profiling.slice tid).length_queue <;> simp
  have hdef : ISIMPOINT.CountBlock_Then k b tid s
        = ISIMPOINT.EmitSliceEnd (s.profiling.blocks b).Key.End (s.profiling.blocks b).ImgId
            tid 0 (ISIMPOINT.ResetSliceTimer k tid s) := by
    unfold ISIMPOINT.CountBlock_Then
    simp [hint, hev, hdelay, hblocks]
  refine ⟨hdef, ?_, ?_, ?_, ?_⟩
  · rw [hdef]; simp [ISIMPOINT.EmitSliceEnd, PROFILING.EmitSliceEnd, hem]
  · rw [hdef]; simp [ISIMPOINT.EmitSliceEnd, PROFILING.EmitSliceEnd]
  · rw [hdef]; simp [ISIMPOINT.EmitSliceEnd, hpend]
  · intro h0; rw [hdef]; simp [ISIMPOINT.EmitSliceEnd, hpend, h0]

/-- C5: when emit-vectors is disabled or delayed emission is enabled, for an interesting
thread `CountBlock_Then` sets `_vectorPending[tid]`, adds no call to the trace of
`EmitSliceEnd`, and leaves the whole slice state of the thread (timer, slice size, cumulative
count, length queue) and every block unchanged. -/
theorem C5_CountBlock_Then_deferred (k : Knobs) (b : BlockPtr) (tid : THREADID)
    (s : ISIMPOINT) (hmode : k.KnobDelayVectorEmission = true ∨ k.KnobEmitVectors = false)
    (hint : s.InterestingThreadLut tid = true) :
    (ISIMPOINT.CountBlock_Then k b tid s)._vectorPending tid = true
    ∧ (ISIMPOINT.CountBlock_Then k b tid s).profiling.emitted = s.profiling.emitted
    ∧ ((ISIMPOINT.CountBlock_Then k b tid s).profiling.slice tid).SliceTimer
        = (s.profiling.slice tid).SliceTimer
    ∧ ((ISIMPOINT.CountBlock_Then k b tid s).profiling.slice tid).CurrentSliceSize
        = (s.profiling.slice tid).CurrentSliceSize
    ∧ ((ISIMPOINT.CountBlock_Then k b tid s).profiling.slice tid).CumulativeInstructionCount
        = (s.profiling.slice tid).CumulativeInstructionCount
    ∧ ((ISIMPOINT.CountBlock_Then k b tid s).profiling.slice tid).length_queue
        = (s.profiling.slice tid).length_queue
    ∧ (ISIMPOINT.CountBlock_Then k b tid s).profiling = s.profiling := by
  have hdef : ISIMPOINT.CountBlock_Then k b tid s
      = { s with _vectorPending := Function.update s._vectorPending tid true } := by
    unfold ISIMPOINT.CountBlock_Then
    rcases hmode with h | h
    · cases hev : k.KnobEmitVectors <;> simp [hint, h, hev]
    · simp [hint, h]
  rw [hdef]
  simp

/-- C6: for an interesting thread whose pending flag is set, `DelayedVectorEmission(n, tid)`
returns normally, clears the flag, leaves the slice state that `ResetSliceTimer` produces,
and adds exactly one call to the trace, with marker `n.Key().Start()`, module id `n.ImgId()`
and offset 1, one more than the offset of the call that `CountBlock_Then` makes in immediate
mode. -/
theorem C6_DelayedVectorEmission_contract (k : Knobs) (n : BlockPtr) (tid : THREADID)
    (s : ISIMPOINT) (hint : s.InterestingThreadLut tid = true)
    (hpend : s._vectorPending tid = true) :
    ∃ s1, ISIMPOINT.DelayedVectorEmission k n tid s = .ok s1
      ∧ s1._vectorPending tid = false
      ∧ s1.profiling.slice tid = (ISIMPOINT.ResetSliceTimer k tid s).profiling.slice tid
      ∧ s1.profiling.emitted
          = s.profiling.emitted
              ++ [⟨tid, (s.profiling.blocks n).Key.Start, (s.profiling.blocks n).ImgId, 1⟩]
      ∧ ∀ ki : Knobs, ki.KnobEmitVectors = true → ki.KnobDelayVectorEmission = false →
          ∀ b : BlockPtr, ∃ c d : SliceEndCall,
            (ISIMPOINT.CountBlock_Then ki b tid s).profiling.emitted = s.profiling.emitted ++ [c]
            ∧ s1.profiling.emitted = s.profiling.emitted ++ [d]
            ∧ d.markerCountOffset = c.markerCountOffset + 1 := by
  have hreset : ∀ (k1 : Knobs) (s0 : ISIMPOINT), s0.InterestingThreadLut tid = true →
      (ISIMPOINT.ResetSliceTimer k1 tid s0).profiling.emitted = s0.profiling.emitted
      ∧ (ISIMPOINT.ResetSliceTimer k1 tid s0).profiling.blocks = s0.profiling.blocks
      ∧ (ISIMPOINT.ResetSliceTimer k1 tid s0)._vectorPending = s0._vectorPending := by
    intro k1 s0 h0
    unfold ISIMPOINT.ResetSliceTimer
    simp only [h0, Bool.not_true, Bool.false_eq_true, if_false]
    cases (s0.profiling.slice tid).length_queue <;> simp [PROFILING.setSlice]
  have hslice : ∀ (f : THREADID → Bool),
      (ISIMPOINT.ResetSliceTimer k tid { s with _vectorPending := f }).profiling.slice tid
        = (ISIMPOINT.ResetSliceTimer k tid s).profiling.slice tid := by
    intro f
    unfold ISIMPOINT.ResetSliceTimer
    have hint1 : s.interesting_thread_lut_ tid = true := hint
    simp only [ISIMPOINT.InterestingThreadLut, hint1, Bool.not_true, Bool.false_eq_true,
      if_false]
    cases (s.profiling.slice tid).length_queue <;> simp [PROFILING.setSlice]
  have hint1 : ISIMPOINT.InterestingThreadLut
      { s with _vectorPending := Function.update s._vectorPending tid false } tid = true := hint
  obtain ⟨he, _, hp⟩ := hreset k _ hint1
  refine ⟨ISIMPOINT.EmitSliceEnd (s.profiling.blocks n).Key.Start (s.profiling.blocks n).ImgId
    tid 1 (ISIMPOINT.ResetSliceTimer k tid
      { s with _vectorPending := Function.update s._vectorPending tid false }),
    ?_, ?_, ?_, ?_, ?_⟩
  · unfold ISIMPOINT.DelayedVectorEmission ISIMPOINT.EmitVectorForFriend
    simp only [hint, hpend, Bool.not_true, Bool.false_eq_true, if_false]
  · simp [ISIMPOINT.EmitSliceEnd, hp]
  · simp [ISIMPOINT.EmitSliceEnd, PROFILING.EmitSliceEnd, hslice]
  · simp [ISIMPOINT.EmitSliceEnd, PROFILING.EmitSliceEnd, he]
  · intro ki hev hdelay b
    refine ⟨⟨tid, (s.profiling.blocks b).Key.End, (s.profiling.blocks b).ImgId, 0⟩,
      ⟨tid, (s.profiling.blocks n).Key.Start, (s.profiling.blocks n).ImgId, 1⟩, ?_, ?_, rfl⟩
    · obtain ⟨he2, hb2, _⟩ := hreset ki s hint
      unfold ISIMPOINT.CountBlock_Then
      simp [hint, hev, hdelay, ISIMPOINT.EmitSliceEnd, PROFILING.EmitSliceEnd, he2, hb2]
    · simp [ISIMPOINT.EmitSliceEnd, PROFILING.EmitSliceEnd, he]

/-- Witness of C4: in scenario C (timer -5, lengths 30 and 20 queued, immediate mode) the
boundary at region 2 emits once with the end address 4232 of region 2, module 1 and offset
0, and installs the slice size 30. -/
theorem C4_CountBlock_Then_immediate_witness :
    (ISIMPOINT.CountBlock_Then (scenarioKnobs false) 2 0 scenarioQueued).profiling.emitted
        = [⟨0, 4232, 1, 0⟩]
    ∧ ((ISIMPOINT.CountBlock_Then (scenarioKnobs false) 2 0 scenarioQueued).profiling.slice
        0).SliceTimer = 30
    ∧ (ISIMPOINT.CountBlock_Then (scenarioKnobs false) 2 0 scenarioQueued)._vectorPending 0
        = false := by
  obtain ⟨_, h2, h3, _, h5⟩ :=
    C4_CountBlock_Then_immediate (scenarioKnobs false) 2 0 scenarioQueued rfl rfl rfl
  refine ⟨h2, ?_, h5 rfl⟩
  rw [h3]; decide

/-- Witness of C5: in scenario C with deferred emission the boundary at region 2 only sets
the pending flag; nothing is emitted and the timer stays at -5. -/
theorem C5_CountBlock_Then_deferred_witness :
    (ISIMPOINT.CountBlock_Then (scenarioKnobs true) 2 0 scenarioQueued)._vectorPending 0 = true
    ∧ (ISIMPOINT.CountBlock_Then (scenarioKnobs true) 2 0 scenarioQueued).profiling.emitted = []
    ∧ ((ISIMPOINT.CountBlock_Then (scenarioKnobs true) 2 0 scenarioQueued).profiling.slice
        0).SliceTimer = -5 := by
  obtain ⟨h1, h2, h3, _⟩ :=
    C5_CountBlock_Then_deferred (scenarioKnobs true) 2 0 scenarioQueued (Or.inl rfl) rfl
  exact ⟨h1, h2, h3⟩

/-- Witness of C6 (scenario B): after three cycles of the regions of 10, 20 and 5
instructions with slice size 100 and deferred emission, the flag is pending and nothing has
been emitted; when region 0 begins the fourth cycle, `DelayedVectorEmission` emits once,
with the start address 4096 of region 0 as marker and offset 1, and the timer is back at
100. -/
theorem C6_DelayedVectorEmission_contract_witness :
    ISIMPOINT.executeBlocks (scenarioKnobs true) 0 [0, 1, 2, 0, 1, 2, 0, 1, 2] scenarioInit
        = .ok scenarioB9
    ∧ scenarioB9._vectorPending 0 = true
    ∧ scenarioB9.profiling.emitted = []
    ∧ ∃ s1, ISIMPOINT.DelayedVectorEmission (scenarioKnobs true) 0 0 scenarioB9 = .ok s1
        ∧ s1._vectorPending 0 = false
        ∧ s1.profiling.emitted = [⟨0, 4096, 1, 1⟩]
        ∧ (s1.profiling.slice 0).SliceTimer = 100 := by
  refine ⟨rfl, rfl, rfl, ?_⟩
  obtain ⟨s1, h1, h2, h3, h4, _⟩ :=
    C6_DelayedVectorEmission_contract (scenarioKnobs true) 0 0 scenarioB9 rfl rfl
  refine ⟨s1, h1, h2, ?_, ?_⟩
  · rw [h4]; rfl
  · rw [h3]; rfl

/-! ## Thread gating -/

theorem GatedFrame.refl (tid : THREADID) (s : ISIMPOINT) : GatedFrame tid s s :=
  ⟨rfl, rfl, rfl, rfl, rfl, rfl, rfl, rfl, rfl⟩

theorem GatedFrame.trans {tid : THREADID} {s s1 s2 : ISIMPOINT}
    (h1 : GatedFrame tid s s1) (h2 : GatedFrame tid s1 s2) : GatedFrame tid s s2 := by
  obtain ⟨a1, a2, a3, a4, a5, a6, a7, a8, a9⟩ := h1
  obtain ⟨b1, b2, b3, b4, b5, b6, b7, b8, b9⟩ := h2
  exact ⟨b1.trans a1, b2.trans a2, b3.trans a3, b4.trans a4, b5.trans a5, b6.trans a6,
    b7.trans a7, b8.trans a8, b9.trans a9⟩

theorem CountBlock_If_frame (b : BlockPtr) (tid : THREADID) (s : ISIMPOINT) :
    GatedFrame tid s (ISIMPOINT.CountBlock_If b tid s).2 := by
  simp [GatedFrame, ISIMPOINT.CountBlock_If, PROFILING.setSlice, PROFILING.modifyBlock]

theorem CountBlockAndTrackPrevious_If_frame (k : Knobs) (b : BlockPtr) (tid : THREADID)
    (s : ISIMPOINT) : GatedFrame tid s (ISIMPOINT.CountBlockAndTrackPrevious_If k b tid s).2 := by
  simp [GatedFrame, ISIMPOINT.CountBlockAndTrackPrevious_If, PROFILING.setSlice,
    PROFILING.modifyBlock]

theorem GetFirstIP_Then_gated (ip : ADDRINT) (tid : THREADID) (imgID : Nat) (s : ISIMPOINT)
    (h : s.InterestingThreadLut tid = false) : ISIMPOINT.GetFirstIP_Then ip tid imgID s = s := by
  simp [ISIMPOINT.GetFirstIP_Then, h]

theorem CountRepIterations_gated (tid : THREADID) (f : ADDRINT) (s : ISIMPOINT)
    (h : s.InterestingThreadLut tid = false) : ISIMPOINT.CountRepIterations tid f s = s := by
  simp [ISIMPOINT.CountRepIterations, h]

theorem ResetSliceTimer_gated (k : Knobs) (tid : THREADID) (s : ISIMPOINT)
    (h : s.InterestingThreadLut tid = false) : ISIMPOINT.ResetSliceTimer k tid s = s := by
  simp [ISIMPOINT.ResetSliceTimer, h]

theorem EmitVectorForFriend_gated (k : Knobs) (m : ADDRINT) (i : Nat) (tid : THREADID) (o : Nat)
    (s : ISIMPOINT) (h : s.InterestingThreadLut tid = false) :
    ISIMPOINT.EmitVectorForFriend k m i tid o s = .ok s := by
  simp [ISIMPOINT.EmitVectorForFriend, h]

theorem DelayedVectorEmission_gated (k : Knobs) (b : BlockPtr) (tid : THREADID)
    (s : ISIMPOINT) (h : s.InterestingThreadLut tid = false) :
    ISIMPOINT.DelayedVectorEmission k b tid s = .ok s := by
  simp [ISIMPOINT.DelayedVectorEmission, h]

theorem CountBlock_Then_gated (k : Knobs) (b : BlockPtr) (tid : THREADID)
    (s : ISIMPOINT) (h : s.InterestingThreadLut tid = false) :
    ISIMPOINT.CountBlock_Then k b tid s = s := by
  simp [ISIMPOINT.CountBlock_Then, h]

theorem ThreadFini_gated (fini : THREADID → ISIMPOINT → ISIMPOINT) (tid : THREADID)
    (s : ISIMPOINT) (h : s.InterestingThreadLut tid = false) :
    ISIMPOINT.ThreadFini fini tid s = s := by
  simp [ISIMPOINT.ThreadFini, h]

theorem Callback.run_gated (k : Knobs) (fini : THREADID → ISIMPOINT → ISIMPOINT)
    (tid : THREADID) (cb : Callback) (s : ISIMPOINT)
    (h : s.InterestingThreadLut tid = false) :
    ∃ s1, Callback.run k fini tid cb s = .ok s1 ∧ GatedFrame tid s s1 := by
  cases cb with
  | GetFirstIP_If => exact ⟨s, rfl, GatedFrame.refl tid s⟩
  | GetFirstIP_Then ip imgID =>
    exact ⟨s, by simp [Callback.run, GetFirstIP_Then_gated ip tid imgID s h], GatedFrame.refl tid s⟩
  | CountRepIterations f =>
    exact ⟨s, by simp [Callback.run, CountRepIterations_gated tid f s h], GatedFrame.refl tid s⟩
  | CountBlock_If b => exact ⟨_, rfl, CountBlock_If_frame b tid s⟩
  | CountBlockAndTrackPrevious_If b =>
    exact ⟨_, rfl, CountBlockAndTrackPrevious_If_frame k b tid s⟩
  | ResetSliceTimer =>
    exact ⟨s, by simp [Callback.run, ResetSliceTimer_gated k tid s h], GatedFrame.refl tid s⟩
  | CheckDelayedVectorEmission => exact ⟨s, rfl, GatedFrame.refl tid s⟩
  | EmitVectorForFriend m i o =>
    exact ⟨s, by simp [Callback.run, EmitVectorForFriend_gated k m i tid o s h],
      GatedFrame.refl tid s⟩
  | DelayedVectorEmission b =>
    exact ⟨s, by simp [Callback.run, DelayedVectorEmission_gated k b tid s h],
      GatedFrame.refl tid s⟩
  | CountBlock_Then b =>
    exact ⟨s, by simp [Callback.run, CountBlock_Then_gated k b tid s h], GatedFrame.refl tid s⟩
  | ThreadFini =>
    exact ⟨s, by simp [Callback.run, ThreadFini_gated fini tid s h], GatedFrame.refl tid s⟩

theorem Callback.runAll_gated (k : Knobs) (fini : THREADID → ISIMPOINT → ISIMPOINT)
    (tid : THREADID) (cbs : List Callback) :
    ∀ s : ISIMPOINT, s.InterestingThreadLut tid = false →
      ∃ s1, Callback.runAll k fini tid cbs s = .ok s1 ∧ GatedFrame tid s s1 := by
  induction cbs with
  | nil => intro s _; exact ⟨s, rfl, GatedFrame.refl tid s⟩
  | cons cb rest ih =>
    intro s h
    obtain ⟨s1, hrun, hf⟩ := Callback.run_gated k fini tid cb s h
    have h1 : s1.InterestingThreadLut tid = false := by
      have := hf.2.2.1
      simp only [ISIMPOINT.InterestingThreadLut] at h ⊢
      rw [this]; exact h
    obtain ⟨s2, hrun2, hf2⟩ := ih s1 h1
    refine ⟨s2, ?_, hf.trans hf2⟩
    simp [Callback.runAll, hrun, hrun2]

/-- C7: for a thread whose cached interesting flag is false, every sequence of callbacks
invoked for it runs to completion without a single call of `EmitSliceEnd` (the trace is
unchanged), without a reset of the slice timer (slice size, cumulative count and length
queue are unchanged) and without a change of any pending flag; `CountBlock_Then`,
`DelayedVectorEmission` and `EmitVectorForFriend` each return the state as it was. -/
theorem C7_thread_gating (k : Knobs) (fini : THREADID → ISIMPOINT → ISIMPOINT)
    (tid : THREADID) (s : ISIMPOINT) (hni : s.InterestingThreadLut tid = false) :
    (∀ cbs : List Callback, ∃ s1, Callback.runAll k fini tid cbs s = .ok s1
        ∧ s1.profiling.emitted = s.profiling.emitted
        ∧ s1._vectorPending = s._vectorPending
        ∧ s1.InterestingThreadLut tid = false
        ∧ (s1.profiling.slice tid).CurrentSliceSize = (s.profiling.slice tid).CurrentSliceSize
        ∧ (s1.profiling.slice tid).CumulativeInstructionCount
            = (s.profiling.slice tid).CumulativeInstructionCount
        ∧ (s1.profiling.slice tid).length_queue = (s.profiling.slice tid).length_queue)
    ∧ (∀ b, ISIMPOINT.CountBlock_Then k b tid s = s)
    ∧ (∀ b, ISIMPOINT.DelayedVectorEmission k b tid s = .ok s)
    ∧ (∀ m i o, ISIMPOINT.EmitVectorForFriend k m i tid o s = .ok s) := by
  refine ⟨?_, fun b => CountBlock_Then_gated k b tid s hni,
    fun b => DelayedVectorEmission_gated k b tid s hni,
    fun m i o => EmitVectorForFriend_gated k m i tid o s hni⟩
  intro cbs
  obtain ⟨s1, hrun, h1, h2, h3, h4, h5, h6, _⟩ := Callback.runAll_gated k fini tid cbs s hni
  refine ⟨s1, hrun, h1, h2, ?_, h4, h5, h6⟩
  simp only [ISIMPOINT.InterestingThreadLut] at hni ⊢
  rw [h3]; exact hni

/-- Witness of C7: thread 1 of the scenario state is not interesting; a tail probe that
reports a boundary, the head probe of deferred emission and the thread-finish callback
leave the trace empty and the pending flag of thread 1 clear. -/
theorem C7_thread_gating_witness :
    scenarioInit.InterestingThreadLut 1 = false
    ∧ ∃ s1, Callback.runAll (scenarioKnobs true) (fun _ s => s) 1
          [.CountBlock_If 0, .CountBlock_Then 0, .DelayedVectorEmission 1, .ThreadFini]
          scenarioInit = .ok s1
        ∧ s1.profiling.emitted = []
        ∧ s1._vectorPending 1 = false := by
  refine ⟨rfl, ?_⟩
  obtain ⟨s1, h1, h2, h3, _⟩ :=
    (C7_thread_gating (scenarioKnobs true) (fun _ s => s) 1 scenarioInit rfl).1
      [.CountBlock_If 0, .CountBlock_Then 0, .DelayedVectorEmission 1, .ThreadFini]
  exact ⟨s1, h1, h2, by rw [h3]; rfl⟩

/-- Counterexample to C8: thread 1 of the scenario state is not interesting, yet
`CountBlock_If(block 0, 1)` moves its timer from 100 to 90, sets its `last_block` and raises
the count of block 0 for thread 1 from 0 to 1. -/
theorem C8_CountBlock_If_not_gated :
    scenarioInit.InterestingThreadLut 1 = false
    ∧ (scenarioInit.profiling.slice 1).SliceTimer = 100
    ∧ ((ISIMPOINT.CountBlock_If 0 1 scenarioInit).2.profiling.slice 1).SliceTimer = 90
    ∧ (scenarioInit.profiling.slice 1).last_block = none
    ∧ ((ISIMPOINT.CountBlock_If 0 1 scenarioInit).2.profiling.slice 1).last_block = some 0
    ∧ (scenarioInit.profiling.blocks 0)._sliceBlockCount 1 = 0
    ∧ ((ISIMPOINT.CountBlock_If 0 1 scenarioInit).2.profiling.blocks 0)._sliceBlockCount 1 = 1
    ∧ (ISIMPOINT.CountBlock_If 0 1 scenarioInit).2.profiling.slice 1
        ≠ scenarioInit.profiling.slice 1 := by
  refine ⟨rfl, rfl, by decide, rfl, rfl, rfl, by decide, by decide⟩

/-- C8 as amended: for a thread whose cached interesting flag is false, `CountBlock_Then`,
`DelayedVectorEmission`, `CountRepIterations` and `GetFirstIP_Then` return the state as it
was. `CountBlock_If` and `CountBlockAndTrackPrevious_If` carry no check of the flag: they
leave the pending flags, `RepIterations`, `first_eip` and the trace unchanged, but still
subtract the static instruction count from `SliceTimer` and set `last_block`, and
`CountBlock_If` still raises the current-slice count of the block. -/
theorem C8_gated_callbacks_noop (k : Knobs) (tid : THREADID) (s : ISIMPOINT)
    (hni : s.InterestingThreadLut tid = false) :
    (∀ b, ISIMPOINT.CountBlock_Then k b tid s = s)
    ∧ (∀ b, ISIMPOINT.DelayedVectorEmission k b tid s = .ok s)
    ∧ (∀ f, ISIMPOINT.CountRepIterations tid f s = s)
    ∧ (∀ ip imgID, ISIMPOINT.GetFirstIP_Then ip tid imgID s = s)
    ∧ (∀ b, (ISIMPOINT.CountBlock_If b tid s).2._vectorPending = s._vectorPending
        ∧ (ISIMPOINT.CountBlock_If b tid s).2.profiling.emitted = s.profiling.emitted
        ∧ ((ISIMPOINT.CountBlock_If b tid s).2.profiling.slice tid).RepIterations
            = (s.profiling.slice tid).RepIterations
        ∧ ((ISIMPOINT.CountBlock_If b tid s).2.profiling.slice tid).first_eip
            = (s.profiling.slice tid).first_eip
        ∧ ((ISIMPOINT.CountBlock_If b tid s).2.profiling.slice tid).SliceTimer
            = toINT64 ((s.profiling.slice tid).SliceTimer
                - (s.profiling.blocks b).StaticInstructionCount)
        ∧ ((ISIMPOINT.CountBlock_If b tid s).2.profiling.slice tid).last_block = some b
        ∧ ((ISIMPOINT.CountBlock_If b tid s).2.profiling.blocks b)._sliceBlockCount tid
            = toINT64 ((s.profiling.blocks b)._sliceBlockCount tid + 1))
    ∧ (∀ b, (ISIMPOINT.CountBlockAndTrackPrevious_If k b tid s).2._vectorPending
            = s._vectorPending
        ∧ (ISIMPOINT.CountBlockAndTrackPrevious_If k b tid s).2.profiling.emitted
            = s.profiling.emitted
        ∧ ((ISIMPOINT.CountBlockAndTrackPrevious_If k b tid s).2.profiling.slice
            tid).RepIterations = (s.profiling.slice tid).RepIterations
        ∧ ((ISIMPOINT.CountBlockAndTrackPrevious_If k b tid s).2.profiling.slice
            tid).first_eip = (s.profiling.slice tid).first_eip
        ∧ ((ISIMPOINT.CountBlockAndTrackPrevious_If k b tid s).2.profiling.slice
            tid).SliceTimer
            = toINT64 ((s.profiling.slice tid).SliceTimer
                - (s.profiling.blocks b).StaticInstructionCount)
        ∧ ((ISIMPOINT.CountBlockAndTrackPrevious_If k b tid s).2.profiling.slice
            tid).last_block = some b) := by
  refine ⟨fun b => CountBlock_Then_gated k b tid s hni,
    fun b => DelayedVectorEmission_gated k b tid s hni,
    fun f => CountRepIterations_gated tid f s hni,
    fun ip imgID => GetFirstIP_Then_gated ip tid imgID s hni, ?_, ?_⟩
  · intro b
    simp [ISIMPOINT.CountBlock_If, PROFILING.setSlice, PROFILING.modifyBlock, BLOCK.Execute,
      BLOCK.StaticInstructionCount]
  · intro b
    have hstat : ∀ p : Option BLOCK,
        (BLOCK.ExecutePrev k tid p (s.profiling.blocks b))._staticInstructionCount
          = (s.profiling.blocks b)._staticInstructionCount := by
      intro p
      unfold BLOCK.ExecutePrev BLOCK.Execute
      cases p <;> cases k.KnobEmitPrevBlockCounts <;> simp
    simp [ISIMPOINT.CountBlockAndTrackPrevious_If, PROFILING.setSlice, PROFILING.modifyBlock,
      BLOCK.StaticInstructionCount, hstat]

/-- Witness of C8 as amended: for thread 1 of the scenario state, which is not interesting,
`CountBlock_Then` changes nothing while `CountBlock_If` moves the timer to 90. -/
theorem C8_gated_callbacks_noop_witness :
    scenarioInit.InterestingThreadLut 1 = false
    ∧ ISIMPOINT.CountBlock_Then (scenarioKnobs false) 0 1 scenarioInit = scenarioInit
    ∧ ((ISIMPOINT.CountBlock_If 0 1 scenarioInit).2.profiling.slice 1).SliceTimer = 90 := by
  obtain ⟨h1, _, _, _, h5, _⟩ := C8_gated_callbacks_noop (scenarioKnobs false) 1 scenarioInit rfl
  refine ⟨rfl, h1 0, ?_⟩
  rw [(h5 0).2.2.2.2.1]; decide

/-! ## Thread capacity -/

/-- Counterexample to C9: thread id 5 is beyond the capacity 1 of the scenario state, the
replay engine answers that the thread is not interesting, and `ThreadStart` returns
normally instead of aborting. -/
theorem C9_ThreadStart_no_abort_when_not_interesting :
    scenarioInit.profiling._nthreads ≤ 5
    ∧ (∃ s1, ISIMPOINT.ThreadStart (fun _ => false) 5 scenarioInit = .ok s1)
    ∧ ISIMPOINT.ThreadStart (fun _ => false) 5 scenarioInit
        ≠ .error "Use knob -bbthreads to increase number of threads" := by
  refine ⟨by decide, ⟨_, rfl⟩, ?_⟩
  intro h
  have h2 : ∃ s1, ISIMPOINT.ThreadStart (fun _ => false) 5 scenarioInit = .ok s1 := ⟨_, rfl⟩
  obtain ⟨s1, h3⟩ := h2
  rw [h3] at h
  cases h

/-- C9 as amended: for a thread id at or beyond `_nthreads`, `ThreadStart` aborts with the
capacity assertion when the replay engine answers that the thread is interesting; when the
engine answers that it is not, `ThreadStart` caches the answer and returns without the
capacity check, leaving the profiling state untouched. -/
theorem C9_ThreadStart_capacity (engine : THREADID → Bool) (tid : THREADID) (s : ISIMPOINT)
    (hcap : s.profiling._nthreads ≤ tid) :
    (engine tid = true →
      ISIMPOINT.ThreadStart engine tid s
        = .error "Use knob -bbthreads to increase number of threads")
    ∧ (engine tid = false →
      ∃ s1, ISIMPOINT.ThreadStart engine tid s = .ok s1
        ∧ s1.InterestingThreadLut tid = false
        ∧ s1.profiling = s.profiling) := by
  constructor
  · intro h
    have hn : ¬ tid < s.profiling._nthreads := Nat.not_lt.mpr hcap
    simp [ISIMPOINT.ThreadStart, h, hn]
  · intro h
    refine ⟨{ s with interesting_thread_lut_ := Function.update s.interesting_thread_lut_ tid false },
      ?_, ?_, rfl⟩
    · simp [ISIMPOINT.ThreadStart, h]
    · simp [ISIMPOINT.InterestingThreadLut]

/-- Witness of C9 as amended: thread id 5 against capacity 1, reported interesting, aborts
with the capacity assertion. -/
theorem C9_ThreadStart_capacity_witness :
    scenarioInit.profiling._nthreads ≤ 5
    ∧ ISIMPOINT.ThreadStart (fun _ => true) 5 scenarioInit
        = .error "Use knob -bbthreads to increase number of threads" := by
  have h := C9_ThreadStart_capacity (fun _ => true) 5 scenarioInit (by decide)
  exact ⟨by decide, h.1 rfl⟩

/-! ## Block identity -/

theorem nat_eq_of_not_lt_both (a b : Nat) (h1 : ¬ a < b) (h2 : ¬ b < a) : a = b := by
  omega

theorem BLOCK_KEY.equiv_iff (k1 k2 : BLOCK_KEY) : k1.equiv k2 = true ↔ k1 = k2 := by
  obtain ⟨s1, e1, z1⟩ := k1
  obtain ⟨s2, e2, z2⟩ := k2
  simp only [BLOCK_KEY.equiv, BLOCK_KEY.lt, BLOCK_KEY.mk.injEq, Bool.and_eq_true,
    Bool.not_eq_true', ne_eq, ite_not]
  constructor
  · rintro ⟨h1, h2⟩
    by_cases hs : s1 = s2
    · subst hs
      by_cases he : e1 = e2
      · subst he
        simp only [if_true, decide_eq_false_iff_not] at h1 h2
        exact ⟨rfl, rfl, nat_eq_of_not_lt_both _ _ h1 h2⟩
      · have he2 : ¬ e2 = e1 := fun h => he h.symm
        simp only [if_true, he, he2, if_false, decide_eq_false_iff_not] at h1 h2
        exact absurd (nat_eq_of_not_lt_both _ _ h1 h2) he
    · have hs2 : ¬ s2 = s1 := fun h => hs h.symm
      simp only [hs, hs2, if_false, decide_eq_false_iff_not] at h1 h2
      exact absurd (nat_eq_of_not_lt_both _ _ h1 h2) hs
  · rintro ⟨rfl, rfl, rfl⟩
    simp

theorem BLOCK_MAP.find_mem (key : BLOCK_KEY) (l : List (BLOCK_KEY × BlockPtr)) (b : BlockPtr)
    (h : BLOCK_MAP.find key l = some b) : (key, b) ∈ l := by
  induction l with
  | nil => simp [BLOCK_MAP.find] at h
  | cons e rest ih =>
    obtain ⟨k1, b1⟩ := e
    by_cases hk : k1.equiv key = true
    · simp only [BLOCK_MAP.find, hk, if_true, Option.some.injEq] at h
      have := (BLOCK_KEY.equiv_iff k1 key).mp hk
      subst this; subst h
      exact List.mem_cons_self _ _
    · simp only [BLOCK_MAP.find, hk, if_false] at h
      exact List.mem_cons_of_mem _ (ih h)

theorem BLOCK_MAP.find_append (key : BLOCK_KEY) (l l1 : List (BLOCK_KEY × BlockPtr))
    (b : BlockPtr) (h : BLOCK_MAP.find key l = some b) :
    BLOCK_MAP.find key (l ++ l1) = some b := by
  induction l with
  | nil => simp [BLOCK_MAP.find] at h
  | cons e rest ih =>
    obtain ⟨k1, b1⟩ := e
    by_cases hk : k1.equiv key = true
    · simpa [BLOCK_MAP.find, hk] using h
    · simp only [BLOCK_MAP.find, hk, if_false] at h
      simpa [BLOCK_MAP.find, hk] using ih h

theorem BLOCK_MAP.find_append_new (key : BLOCK_KEY) (l : List (BLOCK_KEY × BlockPtr))
    (b : BlockPtr) (h : BLOCK_MAP.find key l = none) :
    BLOCK_MAP.find key (l ++ [(key, b)]) = some b := by
  induction l with
  | nil =>
    have : key.equiv key = true := (BLOCK_KEY.equiv_iff key key).mpr rfl
    simp [BLOCK_MAP.find, this]
  | cons e rest ih =>
    obtain ⟨k1, b1⟩ := e
    by_cases hk : k1.equiv key = true
    · simp [BLOCK_MAP.find, hk] at h
    · simp only [BLOCK_MAP.find, hk, if_false] at h
      simpa [BLOCK_MAP.find, hk] using ih h

theorem RegistryInv.key_unique {l : List (BLOCK_KEY × BlockPtr)}
    (hnd : (l.map Prod.snd).Nodup) {k1 k2 : BLOCK_KEY} {b : BlockPtr}
    (h1 : (k1, b) ∈ l) (h2 : (k2, b) ∈ l) : k1 = k2 := by
  induction l with
  | nil => simp at h1
  | cons e rest ih =>
    simp only [List.map_cons, List.nodup_cons, List.mem_map, not_exists, not_and] at hnd
    rcases List.mem_cons.mp h1 with h1 | h1 <;> rcases List.mem_cons.mp h2 with h2 | h2
    · rw [← h1] at h2
      exact (Prod.mk.inj h2).1.symm
    · exact absurd (by rw [← h1]) (hnd.1 (k2, b) h2)
    · exact absurd (by rw [← h2]) (hnd.1 (k1, b) h1)
    · exact ih hnd.2 h1 h2

/-- What one successful `LookupBlock` does, for a `BBL` whose tail is not below its head. -/
theorem PROFILING.LookupBlock_spec (bbl : BBL) (emit : Bool) (p : PROFILING)
    (hv : bbl.headAddress ≤ bbl.tailAddress) :
    (∃ b, BLOCK_MAP.find bbl.key p.bbv_blocks = some b
        ∧ PROFILING.LookupBlock bbl emit p = .ok (b, p))
    ∨ (BLOCK_MAP.find bbl.key p.bbv_blocks = none
        ∧ ∃ p1, PROFILING.LookupBlock bbl emit p = .ok (p.nblocks, p1)
          ∧ p1.bbv_blocks = p.bbv_blocks ++ [(bbl.key, p.nblocks)]
          ∧ p1.nblocks = p.nblocks + 1) := by
  cases hf : BLOCK_MAP.find bbl.key p.bbv_blocks with
  | some b =>
    left
    refine ⟨b, rfl, ?_⟩
    have hf1 : BLOCK_MAP.find ⟨bbl.headAddress, bbl.tailAddress, bbl.size⟩ p.bbv_blocks
        = some b := hf
    simp [PROFILING.LookupBlock, BLOCK_KEY.make, hv, hf1]
  | none =>
    right
    refine ⟨rfl, ?_⟩
    have hf1 : BLOCK_MAP.find ⟨bbl.headAddress, bbl.tailAddress, bbl.size⟩ p.bbv_blocks
        = none := hf
    simp [PROFILING.LookupBlock, BLOCK_KEY.make, hv, hf1, BBL.key]

/-- One lookup: it returns, the returned pointer is registered under the key afterwards,
the registry only grows at its end, and the invariant is kept. -/
theorem PROFILING.LookupBlock_step (bbl : BBL) (emit : Bool) (p : PROFILING)
    (hv : bbl.headAddress ≤ bbl.tailAddress) (hinv : RegistryInv p) :
    ∃ b p1, PROFILING.LookupBlock bbl emit p = .ok (b, p1)
      ∧ BLOCK_MAP.find bbl.key p1.bbv_blocks = some b
      ∧ (∃ ext, p1.bbv_blocks = p.bbv_blocks ++ ext)
      ∧ RegistryInv p1 := by
  rcases PROFILING.LookupBlock_spec bbl emit p hv with ⟨b, hf, hr⟩ | ⟨hf, p1, hr, hbb, hnb⟩
  · exact ⟨b, p, hr, hf, ⟨[], by simp⟩, hinv⟩
  · refine ⟨p.nblocks, p1, hr, ?_, ⟨_, hbb⟩, ?_⟩
    · rw [hbb]; exact BLOCK_MAP.find_append_new _ _ _ hf
    · obtain ⟨hlt, hnd⟩ := hinv
      constructor
      · intro e he
        rw [hbb] at he
        rcases List.mem_append.mp he with he | he
        · rw [hnb]; exact Nat.lt_succ_of_lt (hlt e he)
        · simp only [List.mem_singleton] at he
          rw [he, hnb]; exact Nat.lt_succ_self _
      · rw [hbb, List.map_append, List.nodup_append]
        refine ⟨hnd, by simp, ?_⟩
        intro a ha hb
        simp only [List.map_cons, List.map_nil, List.mem_singleton] at hb
        obtain ⟨e, he, rfl⟩ := List.mem_map.mp ha
        exact absurd hb (Nat.ne_of_lt (hlt e he))

theorem PROFILING.lookupAll_step (emit : Bool) (bbls : List BBL) :
    ∀ p : PROFILING, (∀ bbl ∈ bbls, bbl.headAddress ≤ bbl.tailAddress) → RegistryInv p →
      ∃ bs p1, PROFILING.lookupAll emit bbls p = .ok (bs, p1)
        ∧ (∃ ext, p1.bbv_blocks = p.bbv_blocks ++ ext)
        ∧ RegistryInv p1 := by
  induction bbls with
  | nil => intro p _ hinv; exact ⟨[], p, rfl, ⟨[], by simp⟩, hinv⟩
  | cons bbl rest ih =>
    intro p hv hinv
    obtain ⟨b, p1, hr, _, ⟨ext1, he1⟩, hinv1⟩ :=
      PROFILING.LookupBlock_step bbl emit p (hv bbl (List.mem_cons_self _ _)) hinv
    obtain ⟨bs, p2, hr2, ⟨ext2, he2⟩, hinv2⟩ :=
      ih p1 (fun x hx => hv x (List.mem_cons_of_mem _ hx)) hinv1
    refine ⟨b :: bs, p2, ?_, ⟨ext1 ++ ext2, ?_⟩, hinv2⟩
    · simp [PROFILING.lookupAll, hr, hr2]
    · rw [he2, he1, List.append_assoc]

/-- C10: in every sequence of `LookupBlock` calls that starts from the empty registry and
whose blocks have their tail at or after their head, every call returns; of any two calls,
the later one returns the same `BLOCK*` as the earlier when the two keys agree in start, end
and size, and then leaves the whole profiling state (registry, heap, id counter) as it
found it; it returns a different `BLOCK*` when the keys differ in any of the three. -/
theorem C10_LookupBlock_identity (emit : Bool) (p0 : PROFILING) (h0 : p0.bbv_blocks = [])
    (pre mid : List BBL) (bbl1 bbl2 : BBL)
    (hv : ∀ bbl ∈ pre ++ bbl1 :: (mid ++ [bbl2]), bbl.headAddress ≤ bbl.tailAddress) :
    ∃ bs1 p1 b1 p2 bs2 p3 b2 p4,
      PROFILING.lookupAll emit pre p0 = .ok (bs1, p1)
      ∧ PROFILING.LookupBlock bbl1 emit p1 = .ok (b1, p2)
      ∧ PROFILING.lookupAll emit mid p2 = .ok (bs2, p3)
      ∧ PROFILING.LookupBlock bbl2 emit p3 = .ok (b2, p4)
      ∧ ((bbl1.headAddress = bbl2.headAddress ∧ bbl1.tailAddress = bbl2.tailAddress
            ∧ bbl1.size = bbl2.size) → b2 = b1 ∧ p4 = p3)
      ∧ (¬ (bbl1.headAddress = bbl2.headAddress ∧ bbl1.tailAddress = bbl2.tailAddress
            ∧ bbl1.size = bbl2.size) → b2 ≠ b1) := by
  have hinv0 : RegistryInv p0 := by
    unfold RegistryInv
    rw [h0]
    exact ⟨by simp, by simp⟩
  have hvpre : ∀ bbl ∈ pre, bbl.headAddress ≤ bbl.tailAddress :=
    fun x hx => hv x (List.mem_append_left _ hx)
  have hv1 : bbl1.headAddress ≤ bbl1.tailAddress :=
    hv bbl1 (List.mem_append_right _ (List.mem_cons_self _ _))
  have hvmid : ∀ bbl ∈ mid, bbl.headAddress ≤ bbl.tailAddress :=
    fun x hx => hv x (List.mem_append_right _
      (List.mem_cons_of_mem _ (List.mem_append_left _ hx)))
  have hv2 : bbl2.headAddress ≤ bbl2.tailAddress :=
    hv bbl2 (List.mem_append_right _
      (List.mem_cons_of_mem _ (List.mem_append_right _ (List.mem_singleton_self _))))
  obtain ⟨bs1, p1, hr1, _, hinv1⟩ := PROFILING.lookupAll_step emit pre p0 hvpre hinv0
  obtain ⟨b1, p2, hr2, hf2, _, hinv2⟩ := PROFILING.LookupBlock_step bbl1 emit p1 hv1 hinv1
  obtain ⟨bs2, p3, hr3, ⟨ext3, he3⟩, hinv3⟩ := PROFILING.lookupAll_step emit mid p2 hvmid hinv2
  have hf3 : BLOCK_MAP.find bbl1.key p3.bbv_blocks = some b1 := by
    rw [he3]; exact BLOCK_MAP.find_append _ _ _ _ hf2
  obtain ⟨b2, p4, hr4, hf4, ⟨ext4, he4⟩, hinv4⟩ :=
    PROFILING.LookupBlock_step bbl2 emit p3 hv2 hinv3
  refine ⟨bs1, p1, b1, p2, bs2, p3, b2, p4, hr1, hr2, hr3, hr4, ?_, ?_⟩
  · rintro ⟨ha, hb, hc⟩
    have hkey : bbl2.key = bbl1.key := by simp [BBL.key, ha, hb, hc]
    rcases PROFILING.LookupBlock_spec bbl2 emit p3 hv2 with ⟨b, hf, hr⟩ | ⟨hf, _⟩
    · rw [hr] at hr4
      rw [hkey, hf3] at hf
      have h5 := Prod.mk.inj (Except.ok.inj hr4)
      exact ⟨by rw [← h5.1]; exact (Option.some.inj hf).symm, h5.2.symm⟩
    · rw [hkey, hf3] at hf
      cases hf
  · intro hne hb
    subst hb
    have hf5 : BLOCK_MAP.find bbl1.key p4.bbv_blocks = some b2 := by
      rw [he4]; exact BLOCK_MAP.find_append _ _ _ _ hf3
    have hk := RegistryInv.key_unique hinv4.2 (BLOCK_MAP.find_mem _ _ _ hf5)
      (BLOCK_MAP.find_mem _ _ _ hf4)
    apply hne
    simp only [BBL.key, BLOCK_KEY.mk.injEq] at hk
    exact hk

/-- Witness of C10: from the empty registry the lookups of regions 0, 1, 0 return the
pointers 0, 1, 0 and advance the id counter twice; the second lookup of region 0 returns
the pointer of the first and leaves the state as it found it. -/
theorem C10_LookupBlock_identity_witness :
    (PROFILING.lookupAll false [bblA, bblB, bblA] emptyRegistry).map Prod.fst = .ok [0, 1, 0]
    ∧ (PROFILING.lookupAll false [bblA, bblB, bblA] emptyRegistry).map
        (fun r => r.2._currentId 0) = .ok 2
    ∧ ∃ b1 p2 bs2 p3, PROFILING.LookupBlock bblA false emptyRegistry = .ok (b1, p2)
        ∧ PROFILING.lookupAll false [bblB] p2 = .ok (bs2, p3)
        ∧ PROFILING.LookupBlock bblA false p3 = .ok (b1, p3) := by
  refine ⟨rfl, rfl, ?_⟩
  obtain ⟨bs1, p1, b1, p2, bs2, p3, b2, p4, h1, h2, h3, h4, hsame, _⟩ :=
    C10_LookupBlock_identity false emptyRegistry rfl [] [bblB] bblA bblA (by decide)
  have e1 : emptyRegistry = p1 := (Prod.mk.inj (Except.ok.inj h1)).2
  subst e1
  obtain ⟨hb, hp⟩ := hsame ⟨rfl, rfl, rfl⟩
  subst hb hp
  exact ⟨b2, p2, bs2, p4, h2, h3, h4⟩

/-! ## The length file -/

theorem IFSTREAM.extract_line (l : List Char) :
    ∀ (room : Nat) (rest : List Char), Char.ofNat 10 ∉ l → l.length ≤ room →
      IFSTREAM.extract room (l ++ (Char.ofNat 10 :: rest)) = (l, rest, .delim) := by
  induction l with
  | nil => intro room rest _ _; cases room <;> simp [IFSTREAM.extract]
  | cons c cs ih =>
    intro room rest hnl hlen
    have hc : c ≠ Char.ofNat 10 := fun h => hnl (by rw [h]; exact List.mem_cons_self _ _)
    have hcs : Char.ofNat 10 ∉ cs := fun h => hnl (List.mem_cons_of_mem _ h)
    cases room with
    | zero => simp at hlen
    | succ room1 =>
      have hlen1 : cs.length ≤ room1 := by simpa using hlen
      simp [IFSTREAM.extract, hc, ih room1 rest hcs hlen1]

theorem IFSTREAM.extract_last (l : List Char) :
    ∀ (room : Nat), Char.ofNat 10 ∉ l → l.length ≤ room →
      IFSTREAM.extract room l = (l, [], .eof) := by
  induction l with
  | nil => intro room _ _; cases room <;> simp [IFSTREAM.extract]
  | cons c cs ih =>
    intro room hnl hlen
    have hc : c ≠ Char.ofNat 10 := fun h => hnl (by rw [h]; exact List.mem_cons_self _ _)
    have hcs : Char.ofNat 10 ∉ cs := fun h => hnl (List.mem_cons_of_mem _ h)
    cases room with
    | zero => simp at hlen
    | succ room1 =>
      have hlen1 : cs.length ≤ room1 := by simpa using hlen
      simp [IFSTREAM.extract, hc, ih room1 hcs hlen1]

theorem cstr_no_newline (l : List Char) (h : Char.ofNat 10 ∉ l) :
    (cstr l).takeWhile (fun c => c ≠ Char.ofNat 10) = cstr l := by
  rw [List.takeWhile_eq_self_iff]
  intro c hc
  have hmem : c ∈ l := (List.takeWhile_sublist _).subset hc
  simp only [ne_eq, decide_not, Bool.not_eq_true', decide_eq_false_iff_not]
  intro hcn
  exact h (hcn ▸ hmem)

theorem SLICE_INFO.ReadLengthLoop_line (U : String → Nat) (fuel : Nat) (l rest : List Char)
    (n : Nat) (sl : SLICE_INFO) (hnl : Char.ofNat 10 ∉ l) (hlen : l.length < SLICE_INFO.BUFSIZE) :
    SLICE_INFO.ReadLengthLoop U (fuel + 1)
        { rest := l ++ (Char.ofNat 10 :: rest), eofbit := false, failbit := false } n sl
      = SLICE_INFO.ReadLengthLoop U fuel { rest := rest, eofbit := false, failbit := false }
          (if isRecord l then (n + 1) % UINT32_MOD else n)
          (applyRecords n (records U [l]) sl) := by
  have hroom : l.length ≤ SLICE_INFO.BUFSIZE - 1 := by
    unfold SLICE_INFO.BUFSIZE at hlen ⊢; omega
  have hget : IFSTREAM.getline SLICE_INFO.BUFSIZE
      { rest := l ++ (Char.ofNat 10 :: rest), eofbit := false, failbit := false }
      = (l, { rest := rest, eofbit := false, failbit := false }) := by
    simp [IFSTREAM.getline, IFSTREAM.extract_line l _ rest hnl hroom]
  rw [SLICE_INFO.ReadLengthLoop]
  simp only [Bool.false_eq_true, if_false, hget, cstr_no_newline l hnl]
  by_cases h0 : (cstr l).length = 0
  · have hrec : isRecord l = false := by simp [isRecord, h0]
    simp [h0, hrec, records, applyRecords]
  · by_cases hc : (cstr l).head? = some (Char.ofNat 35)
    · have hrec : isRecord l = false := by simp [isRecord, hc]
      simp only [h0, hc, if_false, if_true, hrec, records, List.filter_cons, List.filter_nil,
        List.map_nil, applyRecords, Bool.false_eq_true]
    · have hrec : isRecord l = true := by simp [isRecord, h0, hc]
      have hne : (cstr l).isEmpty = false := by
        cases hcl : cstr l with
        | nil => simp [hcl] at h0
        | cons a b => rfl
      by_cases hn : n = 0
      · simp [h0, hc, hrec, hne, hn, records, applyRecords, recordValue]
      · simp [h0, hc, hrec, hne, hn, records, applyRecords, recordValue]

theorem SLICE_INFO.ReadLengthLoop_last (U : String → Nat) (fuel : Nat) (l : List Char)
    (n : Nat) (sl : SLICE_INFO) (hnl : Char.ofNat 10 ∉ l) (hlen : l.length < SLICE_INFO.BUFSIZE) :
    SLICE_INFO.ReadLengthLoop U (fuel + 2) { rest := l, eofbit := false, failbit := false } n sl
      = some (.ok (applyRecords n (records U [l]) sl)) := by
  have hroom : l.length ≤ SLICE_INFO.BUFSIZE - 1 := by
    unfold SLICE_INFO.BUFSIZE at hlen ⊢; omega
  have hget : IFSTREAM.getline SLICE_INFO.BUFSIZE
      { rest := l, eofbit := false, failbit := false }
      = (l, { rest := [], eofbit := true, failbit := l.isEmpty }) := by
    simp [IFSTREAM.getline, IFSTREAM.extract_last l _ hnl hroom]
  have hstop : ∀ (m : Nat) (sl1 : SLICE_INFO),
      SLICE_INFO.ReadLengthLoop U (fuel + 1)
        { rest := [], eofbit := true, failbit := l.isEmpty } m sl1 = some (.ok sl1) := by
    intro m sl1
    rw [SLICE_INFO.ReadLengthLoop]
    simp
  rw [SLICE_INFO.ReadLengthLoop]
  simp only [Bool.false_eq_true, if_false, hget, cstr_no_newline l hnl]
  by_cases h0 : (cstr l).length = 0
  · have hrec : isRecord l = false := by simp [isRecord, h0]
    simp [h0, hrec, records, applyRecords, hstop]
  · by_cases hc : (cstr l).head? = some (Char.ofNat 35)
    · have hrec : isRecord l = false := by simp [isRecord, hc]
      simp only [h0, hc, if_false, if_true, hrec, records, List.filter_cons, List.filter_nil,
        List.map_nil, applyRecords, Bool.false_eq_true, hstop]
    · have hrec : isRecord l = true := by simp [isRecord, h0, hc]
      have hne : (cstr l).isEmpty = false := by
        cases hcl : cstr l with
        | nil => simp [hcl] at h0
        | cons a b => rfl
      by_cases hn : n = 0
      · simp [h0, hc, hrec, hne, hn, records, applyRecords, recordValue, hstop]
      · simp [h0, hc, hrec, hne, hn, records, applyRecords, recordValue, hstop]

theorem records_cons (U : String → Nat) (l : List Char) (rest : List (List Char)) :
    records U (l :: rest) = records U [l] ++ records U rest := by
  unfold records
  by_cases h : isRecord l = true <;> simp [List.filter_cons, h]

theorem applyRecords_line (U : String → Nat) (l : List Char) (ls : List (List Char)) (n : Nat)
    (sl : SLICE_INFO) :
    applyRecords (if isRecord l then (n + 1) % UINT32_MOD else n) (records U ls)
        (applyRecords n (records U [l]) sl)
      = applyRecords n (records U (l :: ls)) sl := by
  rw [records_cons U l ls]
  by_cases hr : isRecord l = true
  · have h1r : records U [l] = [recordValue U l] := by simp [records, hr]
    rw [h1r]
    by_cases hn : n = 0
    · simp only [hr, hn, if_true, applyRecords, List.cons_append, List.nil_append]
      rfl
    · simp only [hr, hn, if_true, if_false, applyRecords, List.cons_append, List.nil_append]
      rfl
  · have h1r : records U [l] = [] := by simp [records, hr]
    simp only [h1r, hr, applyRecords, List.nil_append, if_false, Bool.false_eq_true]

theorem SLICE_INFO.ReadLengthLoop_file (U : String → Nat) (ls : List (List Char)) :
    ∀ (fuel n : Nat) (sl : SLICE_INFO) (last : List Char),
      (∀ l ∈ ls ++ [last], Char.ofNat 10 ∉ l ∧ l.length < SLICE_INFO.BUFSIZE) →
      ls.length + 2 ≤ fuel →
      SLICE_INFO.ReadLengthLoop U fuel
          { rest := joinLines ls ++ last, eofbit := false, failbit := false } n sl
        = some (.ok (applyRecords n (records U (ls ++ [last])) sl)) := by
  induction ls with
  | nil =>
    intro fuel n sl last hl hf
    obtain ⟨f2, rfl⟩ : ∃ f2, fuel = f2 + 2 := ⟨fuel - 2, by simp at hf; omega⟩
    obtain ⟨h1, h2⟩ := hl last (by simp)
    simpa [joinLines] using SLICE_INFO.ReadLengthLoop_last U f2 last n sl h1 h2
  | cons l rest ih =>
    intro fuel n sl last hl hf
    obtain ⟨f1, rfl⟩ : ∃ f1, fuel = f1 + 1 := ⟨fuel - 1, by simp at hf; omega⟩
    obtain ⟨h1, h2⟩ := hl l (by simp)
    have hl1 : ∀ x ∈ rest ++ [last], Char.ofNat 10 ∉ x ∧ x.length < SLICE_INFO.BUFSIZE :=
      fun x hx => hl x (by simp at hx ⊢; tauto)
    have hf1 : rest.length + 2 ≤ f1 := by simp at hf; omega
    have hjoin : joinLines (l :: rest) ++ last
        = l ++ (Char.ofNat 10 :: (joinLines rest ++ last)) := by
      simp [joinLines]
    rw [hjoin, SLICE_INFO.ReadLengthLoop_line U f1 l _ n sl h1 h2,
      ih f1 _ _ last hl1 hf1, applyRecords_line, List.cons_append]

theorem applyRecords_queue (vs : List Nat) :
    ∀ (n : Nat) (sl : SLICE_INFO), n ≠ 0 → n + vs.length ≤ UINT32_MOD →
      applyRecords n vs sl = { sl with length_queue := sl.length_queue ++ vs } := by
  induction vs with
  | nil => intro n sl _ _; cases sl; simp [applyRecords]
  | cons v vs ih =>
    intro n sl hn hlen
    rw [applyRecords, if_neg hn]
    cases vs with
    | nil => simp [applyRecords]
    | cons w ws =>
      have hlt : n + 1 < UINT32_MOD := by
        simp only [List.length_cons] at hlen
        omega
      rw [Nat.mod_eq_of_lt hlt]
      rw [ih (n + 1) _ (Nat.succ_ne_zero n) (by simp only [List.length_cons] at hlen ⊢; omega)]
      simp

theorem applyRecords_first (v : Nat) (vs : List Nat) (sl : SLICE_INFO)
    (hlen : vs.length < UINT32_MOD) :
    applyRecords 0 (v :: vs) sl
      = { sl with CurrentSliceSize := toINT64 (v : Int), SliceTimer := toINT64 (v : Int),
                  length_queue := sl.length_queue ++ vs } := by
  have h1 : (0 + 1) % UINT32_MOD = 1 := by decide
  rw [applyRecords, if_pos rfl, h1, applyRecords_queue vs 1 _ (by decide) (by omega)]

/-! ## Reset sequences -/

theorem ResetSliceTimer_queue_cons (k : Knobs) (tid : THREADID) (s : ISIMPOINT)
    (hint : s.InterestingThreadLut tid = true) (q : Nat) (rest : List Nat)
    (hq : (s.profiling.slice tid).length_queue = q :: rest) :
    ((ISIMPOINT.ResetSliceTimer k tid s).profiling.slice tid).SliceTimer = toINT64 (q : Int)
    ∧ ((ISIMPOINT.ResetSliceTimer k tid s).profiling.slice tid).CurrentSliceSize
        = toINT64 (q : Int)
    ∧ ((ISIMPOINT.ResetSliceTimer k tid s).profiling.slice tid).length_queue = rest := by
  unfold ISIMPOINT.ResetSliceTimer
  simp [hint, hq, PROFILING.setSlice]

theorem ResetSliceTimer_queue_nil (k : Knobs) (tid : THREADID) (s : ISIMPOINT)
    (hint : s.InterestingThreadLut tid = true)
    (hq : (s.profiling.slice tid).length_queue = []) :
    ((ISIMPOINT.ResetSliceTimer k tid s).profiling.slice tid).SliceTimer = k.KnobSliceSize
    ∧ ((ISIMPOINT.ResetSliceTimer k tid s).profiling.slice tid).CurrentSliceSize
        = k.KnobSliceSize
    ∧ ((ISIMPOINT.ResetSliceTimer k tid s).profiling.slice tid).length_queue = [] := by
  unfold ISIMPOINT.ResetSliceTimer
  simp [hint, hq, PROFILING.setSlice]

theorem ResetSliceTimer_lut (k : Knobs) (tid : THREADID) (s : ISIMPOINT) :
    (ISIMPOINT.ResetSliceTimer k tid s).interesting_thread_lut_ = s.interesting_thread_lut_ := by
  unfold ISIMPOINT.ResetSliceTimer
  by_cases h : s.InterestingThreadLut tid = true
  · simp only [h, Bool.not_true, Bool.false_eq_true, if_false]
    cases (s.profiling.slice tid).length_queue <;> rfl
  · simp [h]

/-- Any number of resets interleaved with activity that keeps the flag and the queue of the
thread: the queue is consumed from the front, one element per reset, and each reset installs
the element it pops, or the fixed size once the queue is empty. -/
theorem resetsInterleaved_fifo (k : Knobs) (tid : THREADID)
    (between : Nat → ISIMPOINT → ISIMPOINT)
    (hb : ∀ j s0, s0.InterestingThreadLut tid = true →
      (between j s0).InterestingThreadLut tid = true
      ∧ ((between j s0).profiling.slice tid).length_queue
          = (s0.profiling.slice tid).length_queue)
    (s : ISIMPOINT) (hint : s.InterestingThreadLut tid = true) :
    ∀ j, (resetsInterleaved k tid between j s).InterestingThreadLut tid = true
      ∧ ((resetsInterleaved k tid between j s).profiling.slice tid).length_queue
          = (s.profiling.slice tid).length_queue.drop j
      ∧ (∀ r, (s.profiling.slice tid).length_queue[j]? = some r →
          ((resetsInterleaved k tid between (j + 1) s).profiling.slice tid).CurrentSliceSize
              = toINT64 (r : Int)
          ∧ ((resetsInterleaved k tid between (j + 1) s).profiling.slice tid).SliceTimer
              = toINT64 (r : Int))
      ∧ ((s.profiling.slice tid).length_queue.length ≤ j →
          ((resetsInterleaved k tid between (j + 1) s).profiling.slice tid).CurrentSliceSize
              = k.KnobSliceSize
          ∧ ((resetsInterleaved k tid between (j + 1) s).profiling.slice tid).SliceTimer
              = k.KnobSliceSize) := by
  have hstep : ∀ j, ((resetsInterleaved k tid between j s).InterestingThreadLut tid = true
      ∧ ((resetsInterleaved k tid between j s).profiling.slice tid).length_queue
          = (s.profiling.slice tid).length_queue.drop j) := by
    intro j
    induction j with
    | zero => exact ⟨hint, by simp [resetsInterleaved]⟩
    | succ j ih =>
      obtain ⟨hl, hq⟩ := ih
      obtain ⟨hl1, hq1⟩ := hb j _ hl
      rw [hq] at hq1
      constructor
      · simp only [resetsInterleaved, ISIMPOINT.InterestingThreadLut, ResetSliceTimer_lut]
        exact hl1
      · cases hd : (s.profiling.slice tid).length_queue.drop j with
        | nil =>
          rw [hd] at hq1
          have := (ResetSliceTimer_queue_nil k tid _ hl1 hq1).2.2
          simp only [resetsInterleaved]
          rw [this, ← List.tail_drop, hd]
          rfl
        | cons q rest =>
          rw [hd] at hq1
          have := (ResetSliceTimer_queue_cons k tid _ hl1 q rest hq1).2.2
          simp only [resetsInterleaved]
          rw [this, ← List.tail_drop, hd]
          rfl
  intro j
  obtain ⟨hl, hq⟩ := hstep j
  obtain ⟨hl1, hq1⟩ := hb j _ hl
  rw [hq] at hq1
  refine ⟨hl, hq, ?_, ?_⟩
  · intro r hr
    rw [← List.head?_drop] at hr
    cases hd : (s.profiling.slice tid).length_queue.drop j with
    | nil => rw [hd] at hr; cases hr
    | cons q rest =>
      rw [hd] at hr hq1
      have hqr : q = r := Option.some.inj hr
      subst hqr
      obtain ⟨h1, h2, _⟩ := ResetSliceTimer_queue_cons k tid _ hl1 q rest hq1
      exact ⟨h2, h1⟩
  · intro hlen
    rw [List.drop_eq_nil_of_le hlen] at hq1
    obtain ⟨h1, h2, _⟩ := ResetSliceTimer_queue_nil k tid _ hl1 hq1
    exact ⟨h2, h1⟩

/-- C3: let a length file consist of lines shorter than the read buffer, and let its records
(the lines whose C string is neither empty nor starts with the comment character, in file
order) have the values `r0, r1, ..., rn`, fewer than `2^32` of them. Read into a slice state
with an empty queue, `ReadLengthFile` returns and leaves `CurrentSliceSize = SliceTimer =
(INT64)r0`. Whatever the thread does between the resets, as long as it keeps the flag and
the queue, reset number `j + 1` installs `CurrentSliceSize = SliceTimer = (INT64)r(j+1)` for
every `j < n`, in file order, and every later reset installs `KnobSliceSize`. -/
theorem C3_length_file_fifo (U : String → Nat) (k : Knobs) (tid : THREADID) (s : ISIMPOINT)
    (ls : List (List Char)) (last : List Char) (r0 : Nat) (rs : List Nat)
    (between : Nat → ISIMPOINT → ISIMPOINT)
    (hlines : ∀ l ∈ ls ++ [last], Char.ofNat 10 ∉ l ∧ l.length < SLICE_INFO.BUFSIZE)
    (hrec : records U (ls ++ [last]) = r0 :: rs)
    (hcount : rs.length < UINT32_MOD)
    (hint : s.InterestingThreadLut tid = true)
    (hq : (s.profiling.slice tid).length_queue = [])
    (hb : ∀ j s0, s0.InterestingThreadLut tid = true →
      (between j s0).InterestingThreadLut tid = true
      ∧ ((between j s0).profiling.slice tid).length_queue
          = (s0.profiling.slice tid).length_queue) :
    ∃ sl1 : SLICE_INFO,
      (∀ fuel, ls.length + 2 ≤ fuel →
        SLICE_INFO.ReadLengthFile U fuel (some (joinLines ls ++ last)) (s.profiling.slice tid)
          = some (.ok sl1))
      ∧ sl1.CurrentSliceSize = toINT64 (r0 : Int)
      ∧ sl1.SliceTimer = toINT64 (r0 : Int)
      ∧ (∀ (j r : Nat), rs[j]? = some r →
          ((resetsInterleaved k tid between (j + 1)
              (s.setSlice tid sl1)).profiling.slice
              tid).CurrentSliceSize = toINT64 (r : Int)
          ∧ ((resetsInterleaved k tid between (j + 1)
              (s.setSlice tid sl1)).profiling.slice
              tid).SliceTimer = toINT64 (r : Int))
      ∧ (∀ j, rs.length ≤ j →
          ((resetsInterleaved k tid between (j + 1)
              (s.setSlice tid sl1)).profiling.slice
              tid).CurrentSliceSize = k.KnobSliceSize
          ∧ ((resetsInterleaved k tid between (j + 1)
              (s.setSlice tid sl1)).profiling.slice
              tid).SliceTimer = k.KnobSliceSize) := by
  have hsl : applyRecords 0 (records U (ls ++ [last])) (s.profiling.slice tid)
      = { (s.profiling.slice tid) with
          CurrentSliceSize := toINT64 (r0 : Int), SliceTimer := toINT64 (r0 : Int),
          length_queue := rs } := by
    rw [hrec, applyRecords_first r0 rs _ hcount, hq]
    rfl
  have hint1 : ISIMPOINT.InterestingThreadLut (s.setSlice tid
      (applyRecords 0 (records U (ls ++ [last])) (s.profiling.slice tid))) tid = true := hint
  have hq1 : ((s.setSlice tid (applyRecords 0 (records U (ls ++ [last]))
      (s.profiling.slice tid))).profiling.slice tid).length_queue = rs := by
    simp [ISIMPOINT.setSlice, PROFILING.setSlice, hsl]
  refine ⟨applyRecords 0 (records U (ls ++ [last])) (s.profiling.slice tid), ?_, ?_, ?_, ?_, ?_⟩
  · intro fuel hf
    exact SLICE_INFO.ReadLengthLoop_file U ls fuel 0 _ last hlines hf
  · rw [hsl]
  · rw [hsl]
  · intro j r hr
    have h := (resetsInterleaved_fifo k tid between hb _ hint1 j).2.2.1 r (by rw [hq1]; exact hr)
    exact h
  · intro j hj
    have h := (resetsInterleaved_fifo k tid between hb _ hint1 j).2.2.2 (by rw [hq1]; exact hj)
    exact h

/-- Witness of C3 (scenario C): the file holds a comment, 50, a blank line, 30 and 20; the
fixed size is 100; the thread executes region 1 before every reset. The first slice has
size 50, the resets install 30, 20, and then 100 for slice 4 and after. -/
theorem C3_length_file_fifo_witness :
    records decimalValue (scenarioLengthLines ++ [[]]) = [50, 30, 20]
    ∧ ∃ sl1 : SLICE_INFO,
      SLICE_INFO.ReadLengthFile decimalValue 7 (some (joinLines scenarioLengthLines ++ []))
          (scenarioInit.profiling.slice 0) = some (.ok sl1)
      ∧ sl1.CurrentSliceSize = 50
      ∧ ((resetsInterleaved (scenarioKnobs false) 0
            (fun _ s0 => (ISIMPOINT.CountBlock_If 1 0 s0).2) 1
            (scenarioInit.setSlice 0 sl1)).profiling.slice 0).CurrentSliceSize = 30
      ∧ ((resetsInterleaved (scenarioKnobs false) 0
            (fun _ s0 => (ISIMPOINT.CountBlock_If 1 0 s0).2) 2
            (scenarioInit.setSlice 0 sl1)).profiling.slice 0).CurrentSliceSize = 20
      ∧ ((resetsInterleaved (scenarioKnobs false) 0
            (fun _ s0 => (ISIMPOINT.CountBlock_If 1 0 s0).2) 3
            (scenarioInit.setSlice 0 sl1)).profiling.slice 0).CurrentSliceSize = 100
      ∧ ((resetsInterleaved (scenarioKnobs false) 0
            (fun _ s0 => (ISIMPOINT.CountBlock_If 1 0 s0).2) 4
            (scenarioInit.setSlice 0 sl1)).profiling.slice 0).CurrentSliceSize = 100 := by
  have hrec : records decimalValue (scenarioLengthLines ++ [[]]) = [50, 30, 20] := by decide
  refine ⟨hrec, ?_⟩
  obtain ⟨sl1, h1, h2, _, h4, h5⟩ :=
    C3_length_file_fifo decimalValue (scenarioKnobs false) 0 scenarioInit scenarioLengthLines []
      50 [30, 20] (fun _ s0 => (ISIMPOINT.CountBlock_If 1 0 s0).2)
      (by decide) hrec (by decide) rfl rfl
      (fun j s0 h0 => by
        obtain ⟨_, _, c3, _, _, c6, _⟩ := CountBlock_If_frame 1 0 s0
        refine ⟨?_, c6⟩
        simp only [ISIMPOINT.InterestingThreadLut] at h0 ⊢
        rw [c3]; exact h0)
  refine ⟨sl1, h1 7 (by decide), ?_, ?_, ?_, ?_, ?_⟩
  · rw [h2]; decide
  · rw [(h4 0 30 rfl).1]; decide
  · rw [(h4 1 20 rfl).1]; decide
  · exact (h5 2 (by decide)).1
  · exact (h5 3 (by decide)).1

/-! ## Block ids -/

theorem toINT32_of_lt (c : Nat) (h : c < INT32_LIMIT) : toINT32 (c : Int) = (c : Int) := by
  unfold INT32_LIMIT at h
  unfold toINT32
  omega

/-- The state after a lookup that creates a block. -/
theorem PROFILING.LookupBlock_new (bbl : BBL) (emit : Bool) (p : PROFILING)
    (hv : bbl.headAddress ≤ bbl.tailAddress)
    (hf : BLOCK_MAP.find bbl.key p.bbv_blocks = none) :
    ∃ p1, PROFILING.LookupBlock bbl emit p = .ok (p.nblocks, p1)
      ∧ p1.bbv_blocks = p.bbv_blocks ++ [(bbl.key, p.nblocks)]
      ∧ p1.nblocks = p.nblocks + 1
      ∧ p1.blocks = Function.update p.blocks p.nblocks
          (BLOCK.new bbl.key (bbl.numIns : Int)
            (if !emit then toINT32 (p._currentId 0) else 0) bbl.imgId)
      ∧ p1._currentId = (if !emit
          then Function.update p._currentId 0 ((p._currentId 0 + 1) % UINT32_MOD)
          else p._currentId) := by
  have hf1 : BLOCK_MAP.find ⟨bbl.headAddress, bbl.tailAddress, bbl.size⟩ p.bbv_blocks
      = none := hf
  simp [PROFILING.LookupBlock, BLOCK_KEY.make, hv, hf1, BBL.key]

theorem PROFILING.registryIds_new (p p1 : PROFILING) (key : BLOCK_KEY) (blk : BLOCK)
    (hinv : RegistryInv p)
    (hbb : p1.bbv_blocks = p.bbv_blocks ++ [(key, p.nblocks)])
    (hbl : p1.blocks = Function.update p.blocks p.nblocks blk) :
    p1.registryIds = p.registryIds ++ [blk._id] := by
  unfold PROFILING.registryIds
  rw [hbb, hbl, List.map_append]
  congr 1
  · apply List.map_congr_left
    intro e he
    have hne : e.2 ≠ p.nblocks := Nat.ne_of_lt (hinv.1 e he)
    simp [Function.update, hne]
  · simp

theorem IdInv.step (bbl : BBL) (p : PROFILING) (hv : bbl.headAddress ≤ bbl.tailAddress)
    (hinv : IdInv p) (hc : p._currentId 0 < INT32_LIMIT) :
    ∃ b p1, PROFILING.LookupBlock bbl false p = .ok (b, p1)
      ∧ IdInv p1 ∧ p1._currentId 0 ≤ p._currentId 0 + 1 := by
  obtain ⟨hreg, hlt, hpw⟩ := hinv
  rcases PROFILING.LookupBlock_spec bbl false p hv with ⟨b, _, hr⟩ | ⟨hf, _⟩
  · exact ⟨b, p, hr, ⟨hreg, hlt, hpw⟩, Nat.le_succ _⟩
  · obtain ⟨p1, hr, hbb, hnb, hbl, hcur⟩ := PROFILING.LookupBlock_new bbl false p hv hf
    have hreg1 : RegistryInv p1 := by
      obtain ⟨b2, p2, hr2, _, _, hinv2⟩ := PROFILING.LookupBlock_step bbl false p hv hreg
      rw [hr] at hr2
      have := (Prod.mk.inj (Except.ok.inj hr2)).2
      rw [this]; exact hinv2
    have hmod : (p._currentId 0 + 1) % UINT32_MOD = p._currentId 0 + 1 := by
      apply Nat.mod_eq_of_lt
      unfold INT32_LIMIT at hc
      unfold UINT32_MOD
      omega
    have hcur0 : p1._currentId 0 = p._currentId 0 + 1 := by
      rw [hcur]; simp [hmod]
    have hids : p1.registryIds = p.registryIds ++ [(p._currentId 0 : Int)] := by
      rw [PROFILING.registryIds_new p p1 _ _ hreg hbb hbl]
      simp [BLOCK.new, toINT32_of_lt _ hc]
    refine ⟨p.nblocks, p1, hr, ⟨hreg1, ?_, ?_⟩, Nat.le_of_eq hcur0⟩
    · intro x hx
      rw [hids] at hx
      rw [hcur0]
      rcases List.mem_append.mp hx with hx | hx
      · have := hlt x hx
        push_cast
        omega
      · simp only [List.mem_singleton] at hx
        rw [hx]; push_cast; omega
    · rw [hids, List.pairwise_append]
      refine ⟨hpw, List.pairwise_singleton _ _, ?_⟩
      intro a ha b hb
      simp only [List.mem_singleton] at hb
      rw [hb]; exact hlt a ha

theorem IdInv.lookupAll (bbls : List BBL) :
    ∀ p : PROFILING, (∀ bbl ∈ bbls, bbl.headAddress ≤ bbl.tailAddress) → IdInv p →
      p._currentId 0 + bbls.length ≤ INT32_LIMIT →
      ∃ bs p1, PROFILING.lookupAll false bbls p = .ok (bs, p1) ∧ IdInv p1
        ∧ p1._currentId 0 ≤ p._currentId 0 + bbls.length := by
  induction bbls with
  | nil => intro p _ hinv _; exact ⟨[], p, rfl, hinv, Nat.le_refl _⟩
  | cons bbl rest ih =>
    intro p hv hinv hc
    simp only [List.length_cons] at hc
    obtain ⟨b, p1, hr, hinv1, hc1⟩ :=
      IdInv.step bbl p (hv bbl (List.mem_cons_self _ _)) hinv (by omega)
    obtain ⟨bs, p2, hr2, hinv2, hc2⟩ :=
      ih p1 (fun x hx => hv x (List.mem_cons_of_mem _ hx)) hinv1 (by omega)
    refine ⟨b :: bs, p2, ?_, hinv2, ?_⟩
    · simp [PROFILING.lookupAll, hr, hr2]
    · simp only [List.length_cons]; omega

theorem PROFILING.lookupAll_prev_ids (bbls : List BBL) :
    ∀ p : PROFILING, (∀ bbl ∈ bbls, bbl.headAddress ≤ bbl.tailAddress) → RegistryInv p →
      (∀ x ∈ p.registryIds, x = 0) →
      ∃ bs p1, PROFILING.lookupAll true bbls p = .ok (bs, p1) ∧ RegistryInv p1
        ∧ (∀ x ∈ p1.registryIds, x = 0) ∧ p1._currentId = p._currentId := by
  induction bbls with
  | nil => intro p _ hinv hz; exact ⟨[], p, rfl, hinv, hz, rfl⟩
  | cons bbl rest ih =>
    intro p hv hinv hz
    have hvb := hv bbl (List.mem_cons_self _ _)
    have hstep : ∃ b p1, PROFILING.LookupBlock bbl true p = .ok (b, p1) ∧ RegistryInv p1
        ∧ (∀ x ∈ p1.registryIds, x = 0) ∧ p1._currentId = p._currentId := by
      rcases PROFILING.LookupBlock_spec bbl true p hvb with ⟨b, _, hr⟩ | ⟨hf, _⟩
      · exact ⟨b, p, hr, hinv, hz, rfl⟩
      · obtain ⟨p1, hr, hbb, hnb, hbl, hcur⟩ := PROFILING.LookupBlock_new bbl true p hvb hf
        obtain ⟨b2, p2, hr2, _, _, hinv2⟩ := PROFILING.LookupBlock_step bbl true p hvb hinv
        rw [hr] at hr2
        have hp : p1 = p2 := (Prod.mk.inj (Except.ok.inj hr2)).2
        refine ⟨p.nblocks, p1, hr, hp ▸ hinv2, ?_, by simpa using hcur⟩
        intro x hx
        rw [PROFILING.registryIds_new p p1 _ _ hinv hbb hbl] at hx
        rcases List.mem_append.mp hx with hx | hx
        · exact hz x hx
        · simpa [BLOCK.new] using hx
    obtain ⟨b, p1, hr, hinv1, hz1, hc1⟩ := hstep
    obtain ⟨bs, p2, hr2, hinv2, hz2, hc2⟩ :=
      ih p1 (fun x hx => hv x (List.mem_cons_of_mem _ hx)) hinv1 hz1
    refine ⟨b :: bs, p2, ?_, hinv2, hz2, hc2.trans hc1⟩
    simp [PROFILING.lookupAll, hr, hr2]

/-- Counterexample to C11: with `emit_prev_block_counts` set, the lookups of regions 0 and 1
from the empty registry create two different blocks (pointers 0 and 1) that both carry the
id 0. -/
theorem C11_prev_mode_ids_collide :
    (PROFILING.lookupAll true [bblA, bblB] emptyRegistry).map Prod.fst = .ok [0, 1]
    ∧ (PROFILING.lookupAll true [bblA, bblB] emptyRegistry).map
        (fun r => r.2.registryIds) = .ok [0, 0] := by
  refine ⟨rfl, rfl⟩

/-- C11 as amended: in a sequence of `LookupBlock` calls from the empty registry, with
`emit_prev_block_counts` clear and the counter `_currentId[0]` staying within `INT32`, the
ids of the registered blocks increase strictly in creation order, so no two blocks share an
id. With `emit_prev_block_counts` set, `LookupBlock` gives every new block the id 0 and
leaves the counters untouched (ids are then assigned when blocks execute). -/
theorem C11_LookupBlock_ids (p0 : PROFILING) (h0 : p0.bbv_blocks = []) (bbls : List BBL)
    (hv : ∀ bbl ∈ bbls, bbl.headAddress ≤ bbl.tailAddress) :
    (p0._currentId 0 + bbls.length ≤ INT32_LIMIT →
      ∃ bs p1, PROFILING.lookupAll false bbls p0 = .ok (bs, p1)
        ∧ p1.registryIds.Pairwise (fun a b => a < b)
        ∧ p1.registryIds.Nodup)
    ∧ (∃ bs p1, PROFILING.lookupAll true bbls p0 = .ok (bs, p1)
        ∧ (∀ x ∈ p1.registryIds, x = 0)
        ∧ p1._currentId = p0._currentId) := by
  have hreg : RegistryInv p0 := by
    unfold RegistryInv
    rw [h0]
    exact ⟨by simp, by simp⟩
  have hids : p0.registryIds = [] := by simp [PROFILING.registryIds, h0]
  constructor
  · intro hc
    have hinv : IdInv p0 := by
      refine ⟨hreg, ?_, ?_⟩
      · rw [hids]; simp
      · rw [hids]; exact List.Pairwise.nil
    obtain ⟨bs, p1, hr, ⟨_, _, hpw⟩, _⟩ := IdInv.lookupAll bbls p0 hv hinv hc
    exact ⟨bs, p1, hr, hpw, hpw.imp (fun h => ne_of_lt h)⟩
  · obtain ⟨bs, p1, hr, _, hz, hc⟩ :=
      PROFILING.lookupAll_prev_ids bbls p0 hv hreg (by rw [hids]; simp)
    exact ⟨bs, p1, hr, hz, hc⟩

/-- Witness of C11 as amended: with `emit_prev_block_counts` clear, the lookups of regions
0, 1, 0 from the empty registry leave two blocks with the ids 0 and 1. -/
theorem C11_LookupBlock_ids_witness :
    (PROFILING.lookupAll false [bblA, bblB, bblA] emptyRegistry).map
        (fun r => r.2.registryIds) = .ok [0, 1]
    ∧ ∃ bs p1, PROFILING.lookupAll false [bblA, bblB, bblA] emptyRegistry = .ok (bs, p1)
        ∧ p1.registryIds.Nodup := by
  refine ⟨rfl, ?_⟩
  obtain ⟨bs, p1, h1, _, h3⟩ :=
    (C11_LookupBlock_ids emptyRegistry rfl [bblA, bblB, bblA] (by decide)).1 (by decide)
  exact ⟨bs, p1, h1, h3⟩

/-! ## Block counters -/

theorem toINT64_add_toINT64 (a b : Int) : toINT64 (a + toINT64 b) = toINT64 (a + b) := by
  unfold toINT64
  omega

theorem toINT64_toINT64_add (a b : Int) : toINT64 (toINT64 a + b) = toINT64 (a + b) := by
  unfold toINT64
  omega

/-- C12: `CumulativeBlockCount(tid)` is the `INT64` sum of the prior count and the
current-slice count of `tid` (their exact sum when representable); `Execute(tid)` leaves the
prior count alone and raises the current-slice count of `tid` and `CumulativeBlockCount(tid)`
each by one in `INT64` arithmetic, exactly by one when the result is representable. -/
theorem C12_Execute_CumulativeBlockCount (tid : THREADID) (b : BLOCK) :
    b.CumulativeBlockCount tid
        = toINT64 (b._cumulativeBlockCount tid + b._sliceBlockCount tid)
    ∧ (InINT64 (b._cumulativeBlockCount tid + b._sliceBlockCount tid) →
        b.CumulativeBlockCount tid = b._cumulativeBlockCount tid + b._sliceBlockCount tid)
    ∧ (b.Execute tid)._cumulativeBlockCount tid = b._cumulativeBlockCount tid
    ∧ (b.Execute tid)._sliceBlockCount tid = toINT64 (b._sliceBlockCount tid + 1)
    ∧ (InINT64 (b._sliceBlockCount tid + 1) →
        (b.Execute tid)._sliceBlockCount tid = b._sliceBlockCount tid + 1)
    ∧ (b.Execute tid).CumulativeBlockCount tid = toINT64 (b.CumulativeBlockCount tid + 1)
    ∧ (InINT64 (b.CumulativeBlockCount tid + 1) →
        (b.Execute tid).CumulativeBlockCount tid = b.CumulativeBlockCount tid + 1) := by
  have hslice : (b.Execute tid)._sliceBlockCount tid = toINT64 (b._sliceBlockCount tid + 1) := by
    simp [BLOCK.Execute]
  have hcum : (b.Execute tid).CumulativeBlockCount tid
      = toINT64 (b.CumulativeBlockCount tid + 1) := by
    simp only [BLOCK.CumulativeBlockCount, BLOCK.Execute, Function.update_same]
    rw [toINT64_add_toINT64, toINT64_toINT64_add, add_assoc]
  refine ⟨rfl, ?_, rfl, hslice, ?_, hcum, ?_⟩
  · intro h
    exact toINT64_of_InINT64 _ h
  · intro h
    rw [hslice, toINT64_of_InINT64 _ h]
  · intro h
    rw [hcum, toINT64_of_InINT64 _ h]

/-- Witness of C12: region 0 of the scenario state has no execution by thread 0; after one
`Execute(0)` its current-slice count and its `CumulativeBlockCount(0)` are both 1. -/
theorem C12_Execute_CumulativeBlockCount_witness :
    (scenarioBlocks 0).CumulativeBlockCount 0 = 0
    ∧ ((scenarioBlocks 0).Execute 0)._sliceBlockCount 0 = 1
    ∧ ((scenarioBlocks 0).Execute 0).CumulativeBlockCount 0 = 1 := by
  obtain ⟨h1, _, _, _, h5, _, h7⟩ := C12_Execute_CumulativeBlockCount 0 (scenarioBlocks 0)
  exact ⟨h1, h5 (by unfold InINT64; decide), h7 (by unfold InINT64; decide)⟩

/-! ## Accounting of block executions -/

theorem ResetSliceTimer_blocks (k : Knobs) (tid : THREADID) (s : ISIMPOINT) :
    (ISIMPOINT.ResetSliceTimer k tid s).profiling.blocks = s.profiling.blocks
    ∧ (ISIMPOINT.ResetSliceTimer k tid s).profiling.nblocks = s.profiling.nblocks
    ∧ (ISIMPOINT.ResetSliceTimer k tid s).profiling.bbv = s.profiling.bbv
    ∧ (ISIMPOINT.ResetSliceTimer k tid s).profiling.emitted = s.profiling.emitted
    ∧ (ISIMPOINT.ResetSliceTimer k tid s)._vectorPending = s._vectorPending := by
  unfold ISIMPOINT.ResetSliceTimer
  by_cases h : s.InterestingThreadLut tid = true
  · simp only [h, Bool.not_true, Bool.false_eq_true, if_false]
    cases (s.profiling.slice tid).length_queue <;> simp [PROFILING.setSlice]
  · simp [h]

theorem CountsSame.of_blocks (tid : THREADID) (s s1 : ISIMPOINT)
    (hb : s1.profiling.blocks = s.profiling.blocks)
    (hn : s1.profiling.nblocks = s.profiling.nblocks) : CountsSame tid s s1 := by
  refine ⟨hn, fun a => ?_⟩
  simp [ISIMPOINT.sliceCount, ISIMPOINT.priorCount, hb]

theorem EmitSliceEnd_counts (tid t : THREADID) (m : ADDRINT) (i o : Nat) (s s0 : ISIMPOINT)
    (hb : s0.profiling.blocks = s.profiling.blocks)
    (hn : s0.profiling.nblocks = s.profiling.nblocks) :
    CountsSame tid s (ISIMPOINT.EmitSliceEnd m i t o s0)
    ∨ CountsFolded tid s (ISIMPOINT.EmitSliceEnd m i t o s0) := by
  by_cases hbbv : s0.profiling.bbv = true
  · by_cases ht : t = tid
    · right
      subst ht
      refine ⟨by simp [ISIMPOINT.EmitSliceEnd, PROFILING.EmitSliceEnd, hn], fun a => ?_⟩
      simp [ISIMPOINT.EmitSliceEnd, PROFILING.EmitSliceEnd, hbbv, hb, ISIMPOINT.sliceCount,
        ISIMPOINT.priorCount, BLOCK.EmitSliceEnd]
    · left
      refine ⟨by simp [ISIMPOINT.EmitSliceEnd, PROFILING.EmitSliceEnd, hn], fun a => ?_⟩
      have hne : tid ≠ t := fun h => ht h.symm
      simp [ISIMPOINT.EmitSliceEnd, PROFILING.EmitSliceEnd, hbbv, hb, ISIMPOINT.sliceCount,
        ISIMPOINT.priorCount, BLOCK.EmitSliceEnd, Function.update, hne]
  · left
    refine ⟨by simp [ISIMPOINT.EmitSliceEnd, PROFILING.EmitSliceEnd, hn], fun a => ?_⟩
    simp [ISIMPOINT.EmitSliceEnd, PROFILING.EmitSliceEnd, hbbv, hb, ISIMPOINT.sliceCount,
      ISIMPOINT.priorCount]

theorem CountBlock_Then_counts (k : Knobs) (tid t : THREADID) (b : BlockPtr) (s : ISIMPOINT) :
    CountsSame tid s (ISIMPOINT.CountBlock_Then k b t s)
    ∨ CountsFolded tid s (ISIMPOINT.CountBlock_Then k b t s) := by
  unfold ISIMPOINT.CountBlock_Then
  by_cases h1 : s.InterestingThreadLut t = true
  · by_cases h2 : k.KnobEmitVectors = true
    · by_cases h3 : k.KnobDelayVectorEmission = true
      · left
        simp only [h1, h2, h3, Bool.not_true, Bool.false_eq_true, if_false, if_true]
        exact CountsSame.of_blocks tid s _ rfl rfl
      · simp only [h1, h2, h3, Bool.not_true, Bool.false_eq_true, if_false]
        obtain ⟨hb, hn, _⟩ := ResetSliceTimer_blocks k t s
        exact EmitSliceEnd_counts tid t _ _ _ s _ hb hn
    · left
      simp only [Bool.not_eq_true] at h2
      simp only [h1, h2, Bool.not_true, Bool.false_eq_true, if_false, Bool.not_false, if_true]
      exact CountsSame.of_blocks tid s _ rfl rfl
  · left
    simp only [Bool.not_eq_true] at h1
    simp only [h1, Bool.not_false, if_true]
    exact CountsSame.of_blocks tid s _ rfl rfl

theorem EmitVectorForFriend_counts (k : Knobs) (tid t : THREADID) (m : ADDRINT) (i o : Nat)
    (s s1 : ISIMPOINT) (hrun : ISIMPOINT.EmitVectorForFriend k m i t o s = .ok s1) :
    CountsSame tid s s1 ∨ CountsFolded tid s s1 := by
  unfold ISIMPOINT.EmitVectorForFriend at hrun
  by_cases h1 : s.InterestingThreadLut t = true
  · by_cases h2 : s._vectorPending t = true
    · simp only [h1, h2, Bool.not_true, Bool.false_eq_true, if_false] at hrun
      have hs1 := Except.ok.inj hrun
      rw [← hs1]
      obtain ⟨hb, hn, _⟩ := ResetSliceTimer_blocks k t
        { s with _vectorPending := Function.update s._vectorPending t false }
      exact EmitSliceEnd_counts tid t _ _ _ s _ hb hn
    · simp only [Bool.not_eq_true] at h2
      simp [h1, h2] at hrun
  · simp only [Bool.not_eq_true] at h1
    simp only [h1, Bool.not_false, if_true] at hrun
    have hs1 := Except.ok.inj hrun
    rw [← hs1]
    exact Or.inl (CountsSame.of_blocks tid s _ rfl rfl)

theorem DelayedVectorEmission_counts (k : Knobs) (tid t : THREADID) (b : BlockPtr)
    (s s1 : ISIMPOINT) (hrun : ISIMPOINT.DelayedVectorEmission k b t s = .ok s1) :
    CountsSame tid s s1 ∨ CountsFolded tid s s1 := by
  unfold ISIMPOINT.DelayedVectorEmission at hrun
  by_cases h1 : s.InterestingThreadLut t = true
  · simp only [h1, Bool.not_true, Bool.false_eq_true, if_false] at hrun
    exact EmitVectorForFriend_counts k tid t _ _ _ s s1 hrun
  · simp only [Bool.not_eq_true] at h1
    simp only [h1, Bool.not_false, if_true] at hrun
    have hs1 := Except.ok.inj hrun
    rw [← hs1]
    exact Or.inl (CountsSame.of_blocks tid s _ rfl rfl)

theorem BLOCK.ExecutePrev_counts (k : Knobs) (t : THREADID) (prev : Option BLOCK) (b : BLOCK) :
    (BLOCK.ExecutePrev k t prev b)._sliceBlockCount = (b.Execute t)._sliceBlockCount
    ∧ (BLOCK.ExecutePrev k t prev b)._cumulativeBlockCount = b._cumulativeBlockCount
    ∧ (BLOCK.ExecutePrev k t prev b)._staticInstructionCount = b._staticInstructionCount := by
  unfold BLOCK.ExecutePrev BLOCK.Execute
  cases prev <;> cases k.KnobEmitPrevBlockCounts <;> simp

theorem CountBlock_If_counts (tid t : THREADID) (b : BlockPtr) (s : ISIMPOINT) :
    (t = tid → CountsExecuted tid b s (ISIMPOINT.CountBlock_If b t s).2)
    ∧ (t ≠ tid → CountsSame tid s (ISIMPOINT.CountBlock_If b t s).2) := by
  constructor
  · intro ht
    subst ht
    refine ⟨rfl, ?_, ?_, ?_⟩
    · simp [ISIMPOINT.sliceCount, ISIMPOINT.CountBlock_If, PROFILING.setSlice,
        PROFILING.modifyBlock, BLOCK.Execute]
    · intro a ha
      simp [ISIMPOINT.sliceCount, ISIMPOINT.CountBlock_If, PROFILING.setSlice,
        PROFILING.modifyBlock, Function.update, ha]
    · intro a
      by_cases ha : a = b
      · simp [ISIMPOINT.priorCount, ISIMPOINT.CountBlock_If, PROFILING.setSlice,
          PROFILING.modifyBlock, BLOCK.Execute, ha]
      · simp [ISIMPOINT.priorCount, ISIMPOINT.CountBlock_If, PROFILING.setSlice,
          PROFILING.modifyBlock, Function.update, ha]
  · intro ht
    have hne : tid ≠ t := fun h => ht h.symm
    refine ⟨rfl, fun a => ?_⟩
    by_cases ha : a = b
    · simp [ISIMPOINT.sliceCount, ISIMPOINT.priorCount, ISIMPOINT.CountBlock_If,
        PROFILING.setSlice, PROFILING.modifyBlock, BLOCK.Execute, ha, Function.update, hne]
    · simp [ISIMPOINT.sliceCount, ISIMPOINT.priorCount, ISIMPOINT.CountBlock_If,
        PROFILING.setSlice, PROFILING.modifyBlock, Function.update, ha]

theorem CountBlockAndTrackPrevious_If_counts (k : Knobs) (tid t : THREADID) (b : BlockPtr)
    (s : ISIMPOINT) :
    (t = tid → CountsExecuted tid b s (ISIMPOINT.CountBlockAndTrackPrevious_If k b t s).2)
    ∧ (t ≠ tid → CountsSame tid s (ISIMPOINT.CountBlockAndTrackPrevious_If k b t s).2) := by
  have hblocks : (ISIMPOINT.CountBlockAndTrackPrevious_If k b t s).2.profiling.blocks
      = Function.update s.profiling.blocks b
          (BLOCK.ExecutePrev k t ((s.profiling.slice t).last_block.map s.profiling.blocks)
            (s.profiling.blocks b)) := by
    simp [ISIMPOINT.CountBlockAndTrackPrevious_If, PROFILING.setSlice, PROFILING.modifyBlock]
  obtain ⟨h1, h2, _⟩ := BLOCK.ExecutePrev_counts k t
    ((s.profiling.slice t).last_block.map s.profiling.blocks) (s.profiling.blocks b)
  constructor
  · intro ht
    subst ht
    refine ⟨rfl, ?_, ?_, ?_⟩
    · simp [ISIMPOINT.sliceCount, hblocks, h1, BLOCK.Execute]
    · intro a ha
      simp [ISIMPOINT.sliceCount, hblocks, Function.update, ha]
    · intro a
      by_cases ha : a = b
      · simp [ISIMPOINT.priorCount, hblocks, h2, ha]
      · simp [ISIMPOINT.priorCount, hblocks, Function.update, ha]
  · intro ht
    have hne : tid ≠ t := fun h => ht h.symm
    refine ⟨rfl, fun a => ?_⟩
    by_cases ha : a = b
    · simp [ISIMPOINT.sliceCount, ISIMPOINT.priorCount, hblocks, h1, h2, BLOCK.Execute, ha,
        Function.update, hne]
    · simp [ISIMPOINT.sliceCount, ISIMPOINT.priorCount, hblocks, Function.update, ha]

/-- What one callback other than the thread-finish callback does to the block counters of
thread `tid`. -/
theorem Callback.run_counts (k : Knobs) (fini : THREADID → ISIMPOINT → ISIMPOINT)
    (tid t : THREADID) (cb : Callback) (s s1 : ISIMPOINT)
    (hf : cb.isThreadFini = false) (hrun : Callback.run k fini t cb s = .ok s1) :
    (∀ b, cb.executes? = some b → t = tid → CountsExecuted tid b s s1)
    ∧ (cb.executes? = none ∨ t ≠ tid → CountsSame tid s s1 ∨ CountsFolded tid s s1) := by
  cases cb with
  | GetFirstIP_If =>
    have hs := Except.ok.inj hrun
    subst hs
    exact ⟨fun b hb => by simp [Callback.executes?] at hb,
      fun _ => Or.inl (CountsSame.of_blocks tid s _ rfl rfl)⟩
  | GetFirstIP_Then ip imgID =>
    have hs := Except.ok.inj hrun
    subst hs
    refine ⟨fun b hb => by simp [Callback.executes?] at hb, fun _ => Or.inl ?_⟩
    apply CountsSame.of_blocks
    · unfold ISIMPOINT.GetFirstIP_Then
      split_ifs <;> simp [PROFILING.setSlice]
    · unfold ISIMPOINT.GetFirstIP_Then
      split_ifs <;> simp [PROFILING.setSlice]
  | CountRepIterations f =>
    have hs := Except.ok.inj hrun
    subst hs
    refine ⟨fun b hb => by simp [Callback.executes?] at hb, fun _ => Or.inl ?_⟩
    apply CountsSame.of_blocks
    · unfold ISIMPOINT.CountRepIterations
      split_ifs <;> simp [PROFILING.setSlice]
    · unfold ISIMPOINT.CountRepIterations
      split_ifs <;> simp [PROFILING.setSlice]
  | CountBlock_If b0 =>
    have hs := Except.ok.inj hrun
    subst hs
    obtain ⟨h1, h2⟩ := CountBlock_If_counts tid t b0 s
    refine ⟨fun b hb ht => ?_, fun h => ?_⟩
    · simp only [Callback.executes?, Option.some.injEq] at hb
      subst hb
      exact h1 ht
    · rcases h with h | h
      · simp [Callback.executes?] at h
      · exact Or.inl (h2 h)
  | CountBlockAndTrackPrevious_If b0 =>
    have hs := Except.ok.inj hrun
    subst hs
    obtain ⟨h1, h2⟩ := CountBlockAndTrackPrevious_If_counts k tid t b0 s
    refine ⟨fun b hb ht => ?_, fun h => ?_⟩
    · simp only [Callback.executes?, Option.some.injEq] at hb
      subst hb
      exact h1 ht
    · rcases h with h | h
      · simp [Callback.executes?] at h
      · exact Or.inl (h2 h)
  | ResetSliceTimer =>
    have hs := Except.ok.inj hrun
    subst hs
    obtain ⟨hb, hn, _⟩ := ResetSliceTimer_blocks k t s
    exact ⟨fun b hb => by simp [Callback.executes?] at hb,
      fun _ => Or.inl (CountsSame.of_blocks tid s _ hb hn)⟩
  | CheckDelayedVectorEmission =>
    have hs := Except.ok.inj hrun
    subst hs
    exact ⟨fun b hb => by simp [Callback.executes?] at hb,
      fun _ => Or.inl (CountsSame.of_blocks tid s _ rfl rfl)⟩
  | EmitVectorForFriend m i o =>
    exact ⟨fun b hb => by simp [Callback.executes?] at hb,
      fun _ => EmitVectorForFriend_counts k tid t m i o s s1 hrun⟩
  | DelayedVectorEmission b0 =>
    exact ⟨fun b hb => by simp [Callback.executes?] at hb,
      fun _ => DelayedVectorEmission_counts k tid t b0 s s1 hrun⟩
  | CountBlock_Then b0 =>
    have hs := Except.ok.inj hrun
    subst hs
    exact ⟨fun b hb => by simp [Callback.executes?] at hb,
      fun _ => CountBlock_Then_counts k tid t b0 s⟩
  | ThreadFini => simp [Callback.isThreadFini] at hf

theorem rangeSum_eq_finsetSum (N : Nat) (f : Nat → Int) :
    ((List.range N).map f).sum = (Finset.range N).sum f := by
  induction N with
  | zero => simp
  | succ n ih => rw [List.sum_range_succ, Finset.sum_range_succ, ih]

theorem CountInv.le {tid : THREADID} {N : Nat} {n : Int} {s : ISIMPOINT}
    (h : CountInv tid N n s) (a : Nat) (ha : a < N) :
    s.priorCount tid a + s.sliceCount tid a ≤ n := by
  obtain ⟨_, hnn, hsum⟩ := h
  rw [← hsum]
  exact Finset.single_le_sum (f := fun a => s.priorCount tid a + s.sliceCount tid a)
    (fun i hi => by
      have := hnn i (Finset.mem_range.mp hi)
      show 0 ≤ s.priorCount tid i + s.sliceCount tid i
      omega)
    (Finset.mem_range.mpr ha)

theorem CountInv.same {tid : THREADID} {N : Nat} {n : Int} {s s1 : ISIMPOINT}
    (h : CountInv tid N n s) (hs : CountsSame tid s s1) : CountInv tid N n s1 := by
  obtain ⟨hN, hnn, hsum⟩ := h
  obtain ⟨hn1, hc⟩ := hs
  refine ⟨hn1.trans hN, fun a ha => ?_, ?_⟩
  · rw [(hc a).1, (hc a).2]; exact hnn a ha
  · rw [← hsum]
    exact Finset.sum_congr rfl (fun a _ => by rw [(hc a).1, (hc a).2])

theorem CountInv.folded {tid : THREADID} {N : Nat} {n : Int} {s s1 : ISIMPOINT}
    (h : CountInv tid N n s) (hn : n < 9223372036854775808) (hs : CountsFolded tid s s1) :
    CountInv tid N n s1 := by
  have hle := h.le
  obtain ⟨hN, hnn, hsum⟩ := h
  obtain ⟨hn1, hc⟩ := hs
  have hfold : ∀ a, a < N →
      s1.priorCount tid a = s.priorCount tid a + s.sliceCount tid a := by
    intro a ha
    rw [(hc a).2]
    apply toINT64_of_InINT64
    have h1 := hnn a ha
    have h2 := hle a ha
    unfold InINT64
    omega
  refine ⟨hn1.trans hN, fun a ha => ?_, ?_⟩
  · rw [(hc a).1, hfold a ha]
    have := hnn a ha
    omega
  · rw [← hsum]
    apply Finset.sum_congr rfl
    intro a ha
    rw [(hc a).1, hfold a (Finset.mem_range.mp ha)]
    omega

theorem CountInv.executed {tid : THREADID} {N : Nat} {n : Int} {s s1 : ISIMPOINT} {b : BlockPtr}
    (h : CountInv tid N n s) (hn : n + 1 < 9223372036854775808) (hb : b < N)
    (hs : CountsExecuted tid b s s1) : CountInv tid N (n + 1) s1 := by
  have hle := h.le b hb
  obtain ⟨hN, hnn, hsum⟩ := h
  obtain ⟨hn1, hcb, hco, hcp⟩ := hs
  have hexec : s1.sliceCount tid b = s.sliceCount tid b + 1 := by
    rw [hcb]
    apply toINT64_of_InINT64
    have h1 := hnn b hb
    unfold InINT64
    omega
  refine ⟨hn1.trans hN, fun a ha => ?_, ?_⟩
  · rw [hcp a]
    by_cases hab : a = b
    · rw [hab, hexec]
      have := hnn b hb
      omega
    · rw [hco a hab]; exact hnn a ha
  · have hmem : b ∈ Finset.range N := Finset.mem_range.mpr hb
    have hrest : ((Finset.range N).erase b).sum
          (fun a => s1.priorCount tid a + s1.sliceCount tid a)
        = ((Finset.range N).erase b).sum
          (fun a => s.priorCount tid a + s.sliceCount tid a) := by
      apply Finset.sum_congr rfl
      intro a ha
      have hab : a ≠ b := (Finset.mem_erase.mp ha).1
      rw [hcp a, hco a hab]
    have e1 := Finset.add_sum_erase (Finset.range N)
      (fun a => s1.priorCount tid a + s1.sliceCount tid a) hmem
    have e2 := Finset.add_sum_erase (Finset.range N)
      (fun a => s.priorCount tid a + s.sliceCount tid a) hmem
    rw [← e1, hrest, ← hsum, ← e2]
    simp only [hcp b, hexec]
    ring

theorem CountInv.total {tid : THREADID} {N : Nat} {n : Int} {s : ISIMPOINT}
    (h : CountInv tid N n s) (hn : n < 9223372036854775808) :
    s.profiling.totalCumulativeBlockCount tid = n := by
  have hle := h.le
  obtain ⟨hN, hnn, hsum⟩ := h
  unfold PROFILING.totalCumulativeBlockCount
  rw [rangeSum_eq_finsetSum, hN, ← hsum]
  apply Finset.sum_congr rfl
  intro a ha
  have ha1 := Finset.mem_range.mp ha
  have h1 := hnn a ha1
  have h2 := hle a ha1
  show toINT64 (s.priorCount tid a + s.sliceCount tid a) = _
  apply toINT64_of_InINT64
  unfold InINT64
  omega

theorem executionsOf_cons (tid : THREADID) (e : THREADID × Callback)
    (rest : List (THREADID × Callback)) :
    executionsOf tid (e :: rest)
      = (if e.1 = tid ∧ (e.2.executes?).isSome = true then 1 else 0) + executionsOf tid rest := by
  unfold executionsOf
  by_cases h : e.1 = tid ∧ (e.2.executes?).isSome = true
  · simp [List.filter_cons, h]
    omega
  · have h2 : (decide (e.1 = tid) && (e.2.executes?).isSome) = false := by
      simpa using h
    simp [List.filter_cons, h, h2]

theorem CountInv.runEvents (k : Knobs) (fini : THREADID → ISIMPOINT → ISIMPOINT)
    (tid : THREADID) (N : Nat) (events : List (THREADID × Callback)) :
    ∀ (s s1 : ISIMPOINT) (n : Int), CountInv tid N n s →
      (∀ e ∈ events, ∀ b, e.2.executes? = some b → b < N) →
      (∀ e ∈ events, e.2.isThreadFini = false) →
      n + (executionsOf tid events : Int) < 9223372036854775808 →
      Callback.runEvents k fini events s = .ok s1 →
      CountInv tid N (n + (executionsOf tid events : Int)) s1 := by
  induction events with
  | nil =>
    intro s s1 n hinv _ _ _ hrun
    have hs := Except.ok.inj hrun
    subst hs
    simpa [executionsOf] using hinv
  | cons e rest ih =>
    intro s s1 n hinv hvalid hfini hbound hrun
    rw [executionsOf_cons] at hbound ⊢
    have hnn : (0 : Int) ≤ (executionsOf tid rest : Int) := Int.ofNat_nonneg _
    cases hstep : Callback.run k fini e.1 e.2 s with
    | error err => simp [Callback.runEvents, hstep] at hrun
    | ok s2 =>
      simp only [Callback.runEvents, hstep] at hrun
      obtain ⟨hex, hother⟩ := Callback.run_counts k fini tid e.1 e.2 s s2
        (hfini e (List.mem_cons_self _ _)) hstep
      have hvalid1 : ∀ x ∈ rest, ∀ b, x.2.executes? = some b → b < N :=
        fun x hx => hvalid x (List.mem_cons_of_mem _ hx)
      have hfini1 : ∀ x ∈ rest, x.2.isThreadFini = false :=
        fun x hx => hfini x (List.mem_cons_of_mem _ hx)
      by_cases hcase : e.1 = tid ∧ (e.2.executes?).isSome = true
      · obtain ⟨ht, hsome⟩ := hcase
        obtain ⟨b, hb⟩ := Option.isSome_iff_exists.mp hsome
        have hinv2 : CountInv tid N (n + 1) s2 := by
          apply hinv.executed _ (hvalid e (List.mem_cons_self _ _) b hb) (hex b hb ht)
          simp only [ht, hsome, and_self, if_true] at hbound
          push_cast at hbound
          omega
        simp only [ht, hsome, and_self, if_true] at hbound ⊢
        push_cast at hbound ⊢
        have := ih s2 s1 (n + 1) hinv2 hvalid1 hfini1 (by omega) hrun
        rw [show n + (1 + (executionsOf tid rest : Int)) = n + 1 + (executionsOf tid rest : Int)
          by omega]
        exact this
      · have hcond : e.2.executes? = none ∨ e.1 ≠ tid := by
          by_cases ht : e.1 = tid
          · left
            cases hx : e.2.executes? with
            | none => rfl
            | some b => exact absurd ⟨ht, by simp [hx]⟩ hcase
          · exact Or.inr ht
        simp only [hcase, if_false] at hbound ⊢
        push_cast at hbound ⊢
        have hinv2 : CountInv tid N n s2 := by
          rcases hother hcond with h | h
          · exact hinv.same h
          · exact hinv.folded (by omega) h
        have := ih s2 s1 n hinv2 hvalid1 hfini1 (by omega) hrun
        rw [show n + (0 + (executionsOf tid rest : Int)) = n + (executionsOf tid rest : Int)
          by omega]
        exact this

/-- C13: start from a state in which no allocated block has a count for thread `tid`, and
run any sequence of callbacks of any threads (region executions, resets, immediate and
deferred emissions; the thread-finish callback apart) that executes allocated blocks only
and fewer than `2^63` of them for `tid`. Whenever the run gets through, the sum over all
allocated blocks of `CumulativeBlockCount(tid)` equals the number of region executions that
`tid` performed. -/
theorem C13_accounting_identity (k : Knobs) (fini : THREADID → ISIMPOINT → ISIMPOINT)
    (tid : THREADID) (s s1 : ISIMPOINT) (events : List (THREADID × Callback))
    (hzero : ∀ a, a < s.profiling.nblocks →
      (s.profiling.blocks a)._sliceBlockCount tid = 0
      ∧ (s.profiling.blocks a)._cumulativeBlockCount tid = 0)
    (hvalid : ∀ e ∈ events, ∀ b ∈ e.2.executes?, b < s.profiling.nblocks)
    (hfini : ∀ e ∈ events, e.2.isThreadFini = false)
    (hbound : (executionsOf tid events : Int) < 9223372036854775808)
    (hrun : Callback.runEvents k fini events s = .ok s1) :
    s1.profiling.totalCumulativeBlockCount tid = (executionsOf tid events : Int) := by
  have hinv : CountInv tid s.profiling.nblocks 0 s := by
    refine ⟨rfl, fun a ha => ?_, ?_⟩
    · obtain ⟨h1, h2⟩ := hzero a ha
      simp [ISIMPOINT.sliceCount, ISIMPOINT.priorCount, h1, h2]
    · apply Finset.sum_eq_zero
      intro a ha
      obtain ⟨h1, h2⟩ := hzero a (Finset.mem_range.mp ha)
      simp [ISIMPOINT.sliceCount, ISIMPOINT.priorCount, h1, h2]
  have hfin := CountInv.runEvents k fini tid s.profiling.nblocks events s s1 0 hinv
    (fun e he b hb => hvalid e he b hb) hfini (by omega) hrun
  have htot := hfin.total (by omega)
  rw [htot]
  omega

/-- Witness of C13 (scenario A, immediate emission): thread 0 executes eleven regions, with
the boundary emission and reset after the ninth and an execution by thread 1 in between;
the cumulative counts of thread 0 add up to eleven. -/
theorem C13_accounting_identity_witness :
    executionsOf 0 scenarioEvents = 11
    ∧ Callback.runEvents (scenarioKnobs false) (fun _ s => s) scenarioEvents scenarioInit
        = .ok (scenarioState
            (Callback.runEvents (scenarioKnobs false) (fun _ s => s) scenarioEvents
              scenarioInit))
    ∧ (scenarioState (Callback.runEvents (scenarioKnobs false) (fun _ s => s) scenarioEvents
        scenarioInit)).profiling.emitted = [⟨0, 4232, 1, 0⟩]
    ∧ (scenarioState (Callback.runEvents (scenarioKnobs false) (fun _ s => s) scenarioEvents
        scenarioInit)).profiling.totalCumulativeBlockCount 0 = 11 := by
  refine ⟨by decide, rfl, rfl, ?_⟩
  exact C13_accounting_identity (scenarioKnobs false) (fun _ s => s) 0 scenarioInit _
    scenarioEvents (by decide) (by decide) (by decide) (by decide) rfl

/-! ## Scenario A -/

/-- One `CountBlock_If` seen from thread `tid`: timer, returned value, slice size, static
counts and slice counts. -/
theorem CountBlock_If_step (b : BlockPtr) (tid : THREADID) (s : ISIMPOINT) :
    ((ISIMPOINT.CountBlock_If b tid s).2.profiling.slice tid).SliceTimer
        = toINT64 ((s.profiling.slice tid).SliceTimer
            - (s.profiling.blocks b).StaticInstructionCount)
    ∧ (ISIMPOINT.CountBlock_If b tid s).1
        = (if toINT64 ((s.profiling.slice tid).SliceTimer
            - (s.profiling.blocks b).StaticInstructionCount) < 0 then 1 else 0)
    ∧ ((ISIMPOINT.CountBlock_If b tid s).2.profiling.slice tid).CurrentSliceSize
        = (s.profiling.slice tid).CurrentSliceSize
    ∧ (∀ a, ((ISIMPOINT.CountBlock_If b tid s).2.profiling.blocks a).StaticInstructionCount
        = (s.profiling.blocks a).StaticInstructionCount)
    ∧ ((ISIMPOINT.CountBlock_If b tid s).2.profiling.blocks b)._sliceBlockCount tid
        = toINT64 ((s.profiling.blocks b)._sliceBlockCount tid + 1)
    ∧ (∀ a, a ≠ b → ((ISIMPOINT.CountBlock_If b tid s).2.profiling.blocks a)._sliceBlockCount tid
        = (s.profiling.blocks a)._sliceBlockCount tid) := by
  refine ⟨?_, ?_, ?_, ?_, ?_, ?_⟩
  · simp [ISIMPOINT.CountBlock_If, PROFILING.setSlice, PROFILING.modifyBlock, BLOCK.Execute,
      BLOCK.StaticInstructionCount]
  · simp [ISIMPOINT.CountBlock_If, PROFILING.setSlice, PROFILING.modifyBlock, BLOCK.Execute,
      BLOCK.StaticInstructionCount]
  · simp [ISIMPOINT.CountBlock_If, PROFILING.setSlice, PROFILING.modifyBlock]
  · intro a
    by_cases ha : a = b
    · simp [ISIMPOINT.CountBlock_If, PROFILING.setSlice, PROFILING.modifyBlock, BLOCK.Execute,
        BLOCK.StaticInstructionCount, ha]
    · simp [ISIMPOINT.CountBlock_If, PROFILING.setSlice, PROFILING.modifyBlock,
        Function.update, ha]
  · simp [ISIMPOINT.CountBlock_If, PROFILING.setSlice, PROFILING.modifyBlock, BLOCK.Execute]
  · intro a ha
    simp [ISIMPOINT.CountBlock_If, PROFILING.setSlice, PROFILING.modifyBlock,
      Function.update, ha]

theorem ScenarioA.step0 {tid : THREADID} {b0 b1 b2 : BlockPtr} {t c0 c1 c2 : Int}
    {s : ISIMPOINT} (h01 : b0 ≠ b1) (h02 : b0 ≠ b2) (t1 d0 : Int)
    (ht : toINT64 (t - 10) = t1) (hc : toINT64 (c0 + 1) = d0)
    (h : ScenarioA tid b0 b1 b2 t c0 c1 c2 s) :
    ScenarioA tid b0 b1 b2 t1 d0 c1 c2 (ISIMPOINT.CountBlock_If b0 tid s).2
    ∧ (ISIMPOINT.CountBlock_If b0 tid s).1 = (if t1 < 0 then 1 else 0) := by
  obtain ⟨s0, s1, s2, hT, hC, k0, k1, k2⟩ := h
  obtain ⟨e1, e2, e3, e4, e5, e6⟩ := CountBlock_If_step b0 tid s
  refine ⟨⟨?_, ?_, ?_, ?_, ?_, ?_, ?_, ?_⟩, ?_⟩
  · rw [e4, s0]
  · rw [e4, s1]
  · rw [e4, s2]
  · rw [e1, hT, s0, ht]
  · rw [e3, hC]
  · rw [e5, k0, hc]
  · rw [e6 b1 (Ne.symm h01), k1]
  · rw [e6 b2 (Ne.symm h02), k2]
  · rw [e2, hT, s0, ht]

theorem ScenarioA.step1 {tid : THREADID} {b0 b1 b2 : BlockPtr} {t c0 c1 c2 : Int}
    {s : ISIMPOINT} (h01 : b0 ≠ b1) (h12 : b1 ≠ b2) (t1 d1 : Int)
    (ht : toINT64 (t - 20) = t1) (hc : toINT64 (c1 + 1) = d1)
    (h : ScenarioA tid b0 b1 b2 t c0 c1 c2 s) :
    ScenarioA tid b0 b1 b2 t1 c0 d1 c2 (ISIMPOINT.CountBlock_If b1 tid s).2
    ∧ (ISIMPOINT.CountBlock_If b1 tid s).1 = (if t1 < 0 then 1 else 0) := by
  obtain ⟨s0, s1, s2, hT, hC, k0, k1, k2⟩ := h
  obtain ⟨e1, e2, e3, e4, e5, e6⟩ := CountBlock_If_step b1 tid s
  refine ⟨⟨?_, ?_, ?_, ?_, ?_, ?_, ?_, ?_⟩, ?_⟩
  · rw [e4, s0]
  · rw [e4, s1]
  · rw [e4, s2]
  · rw [e1, hT, s1, ht]
  · rw [e3, hC]
  · rw [e6 b0 h01, k0]
  · rw [e5, k1, hc]
  · rw [e6 b2 (Ne.symm h12), k2]
  · rw [e2, hT, s1, ht]

theorem ScenarioA.step2 {tid : THREADID} {b0 b1 b2 : BlockPtr} {t c0 c1 c2 : Int}
    {s : ISIMPOINT} (h02 : b0 ≠ b2) (h12 : b1 ≠ b2) (t1 d2 : Int)
    (ht : toINT64 (t - 5) = t1) (hc : toINT64 (c2 + 1) = d2)
    (h : ScenarioA tid b0 b1 b2 t c0 c1 c2 s) :
    ScenarioA tid b0 b1 b2 t1 c0 c1 d2 (ISIMPOINT.CountBlock_If b2 tid s).2
    ∧ (ISIMPOINT.CountBlock_If b2 tid s).1 = (if t1 < 0 then 1 else 0) := by
  obtain ⟨s0, s1, s2, hT, hC, k0, k1, k2⟩ := h
  obtain ⟨e1, e2, e3, e4, e5, e6⟩ := CountBlock_If_step b2 tid s
  refine ⟨⟨?_, ?_, ?_, ?_, ?_, ?_, ?_, ?_⟩, ?_⟩
  · rw [e4, s0]
  · rw [e4, s1]
  · rw [e4, s2]
  · rw [e1, hT, s2, ht]
  · rw [e3, hC]
  · rw [e6 b0 h02, k0]
  · rw [e6 b1 h12, k1]
  · rw [e5, k2, hc]
  · rw [e2, hT, s2, ht]

/-- C14 (scenario A): let the timer and the slice size of a thread be 100 and let three
distinct regions of 10, 20 and 5 instructions have no execution in the current slice. When
the thread executes them cyclically, `CountBlock_If` returns zero on each of the first eight
calls and nonzero on the ninth, at the end of the third cycle; at that point 105
instructions are accounted (the timer is -5) and each region has a current-slice count of
exactly 3. -/
theorem C14_scenario_A_boundary (tid : THREADID) (b0 b1 b2 : BlockPtr) (s : ISIMPOINT)
    (h01 : b0 ≠ b1) (h02 : b0 ≠ b2) (h12 : b1 ≠ b2)
    (hs0 : (s.profiling.blocks b0).StaticInstructionCount = 10)
    (hs1 : (s.profiling.blocks b1).StaticInstructionCount = 20)
    (hs2 : (s.profiling.blocks b2).StaticInstructionCount = 5)
    (hT : (s.profiling.slice tid).SliceTimer = 100)
    (hC : (s.profiling.slice tid).CurrentSliceSize = 100)
    (hc0 : (s.profiling.blocks b0)._sliceBlockCount tid = 0)
    (hc1 : (s.profiling.blocks b1)._sliceBlockCount tid = 0)
    (hc2 : (s.profiling.blocks b2)._sliceBlockCount tid = 0) :
    (ISIMPOINT.countBlocks tid [b0, b1, b2, b0, b1, b2, b0, b1] s).1 = [0, 0, 0, 0, 0, 0, 0, 0]
    ∧ (ISIMPOINT.countBlocks tid [b0, b1, b2, b0, b1, b2, b0, b1, b2] s).1
        = [0, 0, 0, 0, 0, 0, 0, 0, 1]
    ∧ ((ISIMPOINT.countBlocks tid [b0, b1, b2, b0, b1, b2, b0, b1, b2] s).2.profiling.slice
        tid).SliceTimer = -5
    ∧ ((ISIMPOINT.countBlocks tid [b0, b1, b2, b0, b1, b2, b0, b1, b2] s).2.profiling.slice
        tid).CurrentSliceSize
      - ((ISIMPOINT.countBlocks tid [b0, b1, b2, b0, b1, b2, b0, b1, b2] s).2.profiling.slice
        tid).SliceTimer = 105
    ∧ ((ISIMPOINT.countBlocks tid [b0, b1, b2, b0, b1, b2, b0, b1, b2] s).2.profiling.blocks
        b0)._sliceBlockCount tid = 3
    ∧ ((ISIMPOINT.countBlocks tid [b0, b1, b2, b0, b1, b2, b0, b1, b2] s).2.profiling.blocks
        b1)._sliceBlockCount tid = 3
    ∧ ((ISIMPOINT.countBlocks tid [b0, b1, b2, b0, b1, b2, b0, b1, b2] s).2.profiling.blocks
        b2)._sliceBlockCount tid = 3 := by
  have a0 : ScenarioA tid b0 b1 b2 100 0 0 0 s := ⟨hs0, hs1, hs2, hT, hC, hc0, hc1, hc2⟩
  obtain ⟨a1, r1⟩ := ScenarioA.step0 h01 h02 90 1 (by decide) (by decide) a0
  obtain ⟨a2, r2⟩ := ScenarioA.step1 h01 h12 70 1 (by decide) (by decide) a1
  obtain ⟨a3, r3⟩ := ScenarioA.step2 h02 h12 65 1 (by decide) (by decide) a2
  obtain ⟨a4, r4⟩ := ScenarioA.step0 h01 h02 55 2 (by decide) (by decide) a3
  obtain ⟨a5, r5⟩ := ScenarioA.step1 h01 h12 35 2 (by decide) (by decide) a4
  obtain ⟨a6, r6⟩ := ScenarioA.step2 h02 h12 30 2 (by decide) (by decide) a5
  obtain ⟨a7, r7⟩ := ScenarioA.step0 h01 h02 20 3 (by decide) (by decide) a6
  obtain ⟨a8, r8⟩ := ScenarioA.step1 h01 h12 0 3 (by decide) (by decide) a7
  obtain ⟨a9, r9⟩ := ScenarioA.step2 h02 h12 (-5) 3 (by decide) (by decide) a8
  obtain ⟨_, _, _, fT, fC, f0, f1, f2⟩ := a9
  refine ⟨?_, ?_, fT, ?_, f0, f1, f2⟩
  · simp only [ISIMPOINT.countBlocks, r1, r2, r3, r4, r5, r6, r7, r8]
    decide
  · simp only [ISIMPOINT.countBlocks, r1, r2, r3, r4, r5, r6, r7, r8, r9]
    decide
  · have fC1 := fC
    have fT1 := fT
    simp only [ISIMPOINT.countBlocks] at fC1 fT1 ⊢
    rw [fC1, fT1]
    decide

/-- Witness of C14: thread 0 of the scenario state with the regions at addresses 0, 1, 2. -/
theorem C14_scenario_A_boundary_witness :
    (ISIMPOINT.countBlocks 0 [0, 1, 2, 0, 1, 2, 0, 1, 2] scenarioInit).1
        = [0, 0, 0, 0, 0, 0, 0, 0, 1]
    ∧ ((ISIMPOINT.countBlocks 0 [0, 1, 2, 0, 1, 2, 0, 1, 2] scenarioInit).2.profiling.blocks
        1)._sliceBlockCount 0 = 3 := by
  obtain ⟨_, h2, _, _, _, h6, _⟩ :=
    C14_scenario_A_boundary 0 0 1 2 scenarioInit (by decide) (by decide) (by decide)
      rfl rfl rfl rfl rfl rfl rfl rfl
  exact ⟨h2, h6⟩

/-! ## Lines that do not fit the read buffer -/

theorem IFSTREAM.extract_no_newline (l : List Char) :
    ∀ room : Nat, Char.ofNat 10 ∉ (IFSTREAM.extract room l).1 := by
  induction l with
  | nil => intro room; simp [IFSTREAM.extract]
  | cons c cs ih =>
    intro room
    by_cases hc : c = Char.ofNat 10
    · subst hc
      cases room <;> simp [IFSTREAM.extract]
    · cases room with
      | zero => simp [IFSTREAM.extract, hc]
      | succ room1 =>
        have := ih room1
        simp only [IFSTREAM.extract, hc, if_false, List.mem_cons, not_or]
        exact ⟨fun h => hc h.symm, this⟩

theorem IFSTREAM.extract_full (l : List Char) :
    ∀ room : Nat, room < l.length → (∀ c ∈ l.take (room + 1), c ≠ Char.ofNat 10) →
      (IFSTREAM.extract room l).2.2 = .full := by
  induction l with
  | nil => intro room h _; simp at h
  | cons c cs ih =>
    intro room hlen hnl
    have hc : c ≠ Char.ofNat 10 := hnl c (by simp [List.take])
    cases room with
    | zero => simp [IFSTREAM.extract, hc]
    | succ room1 =>
      have hlen1 : room1 < cs.length := by simpa using hlen
      have hnl1 : ∀ x ∈ cs.take (room1 + 1), x ≠ Char.ofNat 10 := by
        intro x hx
        exact hnl x (by simp only [List.take_succ_cons, List.mem_cons]; exact Or.inr hx)
      simp [IFSTREAM.extract, hc, ih room1 hlen1 hnl1]

/-- A stream with `failbit` set and `eofbit` clear never lets the read loop end. -/
theorem SLICE_INFO.ReadLengthLoop_stuck (U : String → Nat) (fuel : Nat) :
    ∀ (rest : List Char) (n : Nat) (sl : SLICE_INFO),
      SLICE_INFO.ReadLengthLoop U fuel { rest := rest, eofbit := false, failbit := true } n sl
        = none := by
  induction fuel with
  | zero => intro rest n sl; rfl
  | succ f ih =>
    intro rest n sl
    rw [SLICE_INFO.ReadLengthLoop]
    simp [IFSTREAM.getline, cstr, ih]

/-- A content that starts with a line of `BUFSIZE` or more characters: the first `getline`
fills the buffer and sets `failbit`, and the loop never ends. -/
theorem SLICE_INFO.ReadLengthLoop_long_first (U : String → Nat) (long : List Char)
    (hlen : SLICE_INFO.BUFSIZE ≤ long.length)
    (hnl : ∀ c ∈ long.take SLICE_INFO.BUFSIZE, c ≠ Char.ofNat 10) :
    ∀ (fuel n : Nat) (sl : SLICE_INFO),
      SLICE_INFO.ReadLengthLoop U fuel { rest := long, eofbit := false, failbit := false } n sl
        = none := by
  intro fuel n sl
  cases fuel with
  | zero => rfl
  | succ f =>
    have hfull : (IFSTREAM.extract (SLICE_INFO.BUFSIZE - 1) long).2.2 = .full :=
      IFSTREAM.extract_full long _ (by unfold SLICE_INFO.BUFSIZE at hlen ⊢; omega)
        (by simpa [SLICE_INFO.BUFSIZE] using hnl)
    have hnon := IFSTREAM.extract_no_newline long (SLICE_INFO.BUFSIZE - 1)
    rcases hx : IFSTREAM.extract (SLICE_INFO.BUFSIZE - 1) long with ⟨stored, rest, stop⟩
    rw [hx] at hfull hnon
    simp only at hfull hnon
    subst hfull
    have hget : IFSTREAM.getline SLICE_INFO.BUFSIZE
        { rest := long, eofbit := false, failbit := false }
        = (stored, { rest := rest, eofbit := false, failbit := true }) := by
      simp [IFSTREAM.getline, hx]
    rw [SLICE_INFO.ReadLengthLoop]
    simp only [Bool.false_eq_true, if_false, hget, cstr_no_newline stored hnon,
      SLICE_INFO.ReadLengthLoop_stuck]
    by_cases h0 : (cstr stored).length = 0
    · simp [h0]
    · have hne : (cstr stored).isEmpty = false := by
        cases hcl : cstr stored with
        | nil => simp [hcl] at h0
        | cons a b => rfl
      simp [h0, hne]

/-- A long line after any number of lines that fit: the loop never ends. -/
theorem SLICE_INFO.ReadLengthLoop_long_line (U : String → Nat) (long : List Char)
    (hlen : SLICE_INFO.BUFSIZE ≤ long.length)
    (hnl : ∀ c ∈ long.take SLICE_INFO.BUFSIZE, c ≠ Char.ofNat 10) (ls : List (List Char)) :
    (∀ l ∈ ls, Char.ofNat 10 ∉ l ∧ l.length < SLICE_INFO.BUFSIZE) →
    ∀ (fuel n : Nat) (sl : SLICE_INFO),
      SLICE_INFO.ReadLengthLoop U fuel
        { rest := joinLines ls ++ long, eofbit := false, failbit := false } n sl = none := by
  induction ls with
  | nil =>
    intro _ fuel n sl
    simpa [joinLines] using SLICE_INFO.ReadLengthLoop_long_first U long hlen hnl fuel n sl
  | cons l rest ih =>
    intro hl fuel n sl
    cases fuel with
    | zero => rfl
    | succ f =>
      obtain ⟨h1, h2⟩ := hl l (List.mem_cons_self _ _)
      have hjoin : joinLines (l :: rest) ++ long
          = l ++ (Char.ofNat 10 :: (joinLines rest ++ long)) := by
        simp [joinLines]
      rw [hjoin, SLICE_INFO.ReadLengthLoop_line U f l _ n sl h1 h2]
      exact ih (fun x hx => hl x (List.mem_cons_of_mem _ hx)) f _ _

/-- For files whose lines fit the read buffer, the result of `ReadLengthFile` depends on the
records alone: two such files with the same record lines, whatever blank and comment lines
surround them, leave the same slice state. -/
theorem SLICE_INFO.ReadLengthFile_records_only (U : String → Nat) (sl : SLICE_INFO)
    (ls1 ls2 : List (List Char)) (last1 last2 : List Char)
    (h1 : ∀ l ∈ ls1 ++ [last1], Char.ofNat 10 ∉ l ∧ l.length < SLICE_INFO.BUFSIZE)
    (h2 : ∀ l ∈ ls2 ++ [last2], Char.ofNat 10 ∉ l ∧ l.length < SLICE_INFO.BUFSIZE)
    (hsame : (ls1 ++ [last1]).filter isRecord = (ls2 ++ [last2]).filter isRecord)
    (fuel1 fuel2 : Nat) (hf1 : ls1.length + 2 ≤ fuel1) (hf2 : ls2.length + 2 ≤ fuel2) :
    SLICE_INFO.ReadLengthFile U fuel1 (some (joinLines ls1 ++ last1)) sl
      = SLICE_INFO.ReadLengthFile U fuel2 (some (joinLines ls2 ++ last2)) sl
    ∧ ∃ sl1, SLICE_INFO.ReadLengthFile U fuel1 (some (joinLines ls1 ++ last1)) sl
        = some (.ok sl1) := by
  have e1 := SLICE_INFO.ReadLengthLoop_file U ls1 fuel1 0 sl last1 h1 hf1
  have e2 := SLICE_INFO.ReadLengthLoop_file U ls2 fuel2 0 sl last2 h2 hf2
  have hrec : records U (ls1 ++ [last1]) = records U (ls2 ++ [last2]) := by
    unfold records
    rw [hsame]
  refine ⟨?_, _, e1⟩
  show SLICE_INFO.ReadLengthLoop U fuel1 _ 0 sl = SLICE_INFO.ReadLengthLoop U fuel2 _ 0 sl
  rw [e1, e2, hrec]

/-- C15 at the failing input: for the length file whose first line is a comment of 100
characters followed by the records 50 and 30, `ReadLengthFile` never returns, whatever the
fuel and the slice state, although the same file with the comment line deleted yields
`SliceTimer = CurrentSliceSize = 50` with 30 queued. -/
theorem C15_long_comment_line_never_returns :
    (∀ (fuel : Nat) (sl : SLICE_INFO),
      SLICE_INFO.ReadLengthFile decimalValue fuel (some longCommentFile) sl = none)
    ∧ SLICE_INFO.ReadLengthFile decimalValue 4 (some shortLengthFile) {}
        = some (.ok { CurrentSliceSize := 50, SliceTimer := 50, length_queue := [30] }) := by
  refine ⟨fun fuel sl => ?_, rfl⟩
  have h := SLICE_INFO.ReadLengthLoop_long_line decimalValue longCommentFile (by decide)
    (by decide) [] (by simp) fuel 0 sl
  simpa [SLICE_INFO.ReadLengthFile, joinLines] using h

/-! ## Address masking -/

theorem maskAddress_eq_land (a : ADDRINT) : maskAddress a = a &&& 18446744073709551552 := by
  have h : (ADDRESS64_MASK % (UINT64_MOD : Int)).toNat = 18446744073709551552 := by decide
  unfold maskAddress
  rw [h]

theorem maskAddress_testBit (a : ADDRINT) (i : Nat) :
    (maskAddress a).testBit i = (decide (6 ≤ i ∧ i < 64) && a.testBit i) := by
  have hm : (18446744073709551552 : Nat) = (2 ^ 58 - 1) <<< 6 := by decide
  rw [maskAddress_eq_land, Nat.testBit_and, hm, Nat.testBit_shiftLeft,
    Nat.testBit_two_pow_sub_one]
  by_cases h6 : 6 ≤ i
  · by_cases h64 : i < 64
    · have : i - 6 < 58 := by omega
      simp [h6, h64, this]
    · have : ¬ i - 6 < 58 := by omega
      simp [h6, h64, this]
  · simp [h6]

theorem nat_sub_mod_eq_shift (a : Nat) : a - a % 64 = (a >>> 6) <<< 6 := by
  rw [Nat.shiftLeft_eq, Nat.shiftRight_eq_div_pow]
  have := Nat.div_add_mod a 64
  norm_num
  omega

theorem nat_same_line_iff (a b : Nat) : a - a % 64 = b - b % 64 ↔ a / 64 = b / 64 := by
  have h1 := Nat.div_add_mod a 64
  have h2 := Nat.div_add_mod b 64
  constructor
  · intro h; omega
  · intro h; omega

theorem maskAddress_eq_sub (a : ADDRINT) (h : a < UINT64_MOD) : maskAddress a = a - a % 64 := by
  apply Nat.eq_of_testBit_eq
  intro i
  have ha : a - a % 64 = (a >>> 6) <<< 6 := nat_sub_mod_eq_shift a
  rw [maskAddress_testBit, ha, Nat.testBit_shiftLeft, Nat.testBit_shiftRight]
  by_cases h6 : 6 ≤ i
  · have e : 6 + (i - 6) = i := by omega
    by_cases h64 : i < 64
    · simp [h6, h64, e]
    · have hlt : a < 2 ^ i := lt_of_lt_of_le h (by
        have h64le : 64 ≤ i := by omega
        calc UINT64_MOD = 2 ^ 64 := by decide
          _ ≤ 2 ^ i := Nat.pow_le_pow_right (by norm_num) h64le)
      simp [h6, h64, e, Nat.testBit_lt_two_pow hlt]
  · simp [h6]

/-- C16: for every 64-bit address `a`, with the locality profile selected,
`PROFILING::ExecuteMemory` hands `a - (a mod 64)` to the reuse-distance structure of the
thread: bit `i` of the result is bit `i` of `a` for `6 <= i < 64` and clear for `i < 6`. The
masking is idempotent, and two 64-bit addresses are mapped to the same value exactly when
they lie in the same 64-byte line. -/
theorem C16_address_mask (tid : THREADID) (a : ADDRINT) (p : PROFILING)
    (ha : a < UINT64_MOD) (hldv : p.ldv = true) :
    PROFILING.ExecuteMemory tid a p = .ok (tid, a - a % 64)
    ∧ (∀ i, (a - a % 64).testBit i = (decide (6 ≤ i) && a.testBit i))
    ∧ maskAddress (maskAddress a) = maskAddress a
    ∧ LDV_PROF.ExecuteMemory (maskAddress a) = maskAddress a
    ∧ (∀ b : ADDRINT, b < UINT64_MOD → (maskAddress a = maskAddress b ↔ a / 64 = b / 64)) := by
  have hidem : maskAddress (maskAddress a) = maskAddress a := by
    rw [maskAddress_eq_land, maskAddress_eq_land, Nat.land_assoc, Nat.and_self]
  refine ⟨?_, ?_, hidem, hidem, ?_⟩
  · simp only [PROFILING.ExecuteMemory, hldv, LDV_PROF.ExecuteMemory, Bool.not_true,
      Bool.false_eq_true, if_false]
    rw [hidem, maskAddress_eq_sub a ha]
  · intro i
    rw [← maskAddress_eq_sub a ha, maskAddress_testBit]
    by_cases h6 : 6 ≤ i
    · by_cases h64 : i < 64
      · simp [h6, h64]
      · have hlt : a < 2 ^ i := lt_of_lt_of_le ha (by
          have h64le : 64 ≤ i := by omega
          calc UINT64_MOD = 2 ^ 64 := by decide
            _ ≤ 2 ^ i := Nat.pow_le_pow_right (by norm_num) h64le)
        simp [h6, h64, Nat.testBit_lt_two_pow hlt]
    · simp [h6]
  · intro b hb
    rw [maskAddress_eq_sub a ha, maskAddress_eq_sub b hb]
    exact nat_same_line_iff a b

/-- Witness of C16: the address 4199 (line 65, offset 39) is handed over as 4160, and it
shares its line with 4160 itself. -/
theorem C16_address_mask_witness :
    PROFILING.ExecuteMemory 0 4199 { scenarioInit.profiling with ldv := true } = .ok (0, 4160)
    ∧ maskAddress 4199 = maskAddress 4160 := by
  obtain ⟨h1, _, _, _, h5⟩ :=
    C16_address_mask 0 4199 { scenarioInit.profiling with ldv := true } (by decide) rfl
  exact ⟨h1, (h5 4160 (by decide)).mpr (by decide)⟩

/-! ## Isolation of threads -/

theorem OtherThreadFrame.unchanged (t2 : THREADID) (s : ISIMPOINT) : OtherThreadFrame t2 s s :=
  ⟨rfl, rfl, fun _ => ⟨rfl, rfl⟩⟩

theorem OtherThreadFrame.compose {t2 : THREADID} {s s1 s2 : ISIMPOINT}
    (h1 : OtherThreadFrame t2 s s1) (h2 : OtherThreadFrame t2 s1 s2) :
    OtherThreadFrame t2 s s2 := by
  obtain ⟨a1, a2, a3⟩ := h1
  obtain ⟨b1, b2, b3⟩ := h2
  exact ⟨b1.trans a1, b2.trans a2,
    fun a => ⟨(b3 a).1.trans (a3 a).1, (b3 a).2.trans (a3 a).2⟩⟩

theorem BLOCK.Execute_other (t1 t2 : THREADID) (hne : t1 ≠ t2) (blk : BLOCK) :
    (blk.Execute t1)._sliceBlockCount t2 = blk._sliceBlockCount t2
    ∧ (blk.Execute t1)._cumulativeBlockCount t2 = blk._cumulativeBlockCount t2 := by
  have h : t2 ≠ t1 := fun h => hne h.symm
  simp [BLOCK.Execute, Function.update, h]

theorem CountBlock_If_other (t1 t2 : THREADID) (hne : t1 ≠ t2) (b : BlockPtr) (s : ISIMPOINT) :
    OtherThreadFrame t2 s (ISIMPOINT.CountBlock_If b t1 s).2 := by
  have h : t2 ≠ t1 := fun h => hne h.symm
  refine ⟨?_, rfl, fun a => ?_⟩
  · simp [ISIMPOINT.CountBlock_If, PROFILING.setSlice, PROFILING.modifyBlock,
      Function.update, h]
  · by_cases ha : a = b
    · simp [ISIMPOINT.CountBlock_If, PROFILING.setSlice, PROFILING.modifyBlock, BLOCK.Execute,
        Function.update, h, ha]
    · simp [ISIMPOINT.CountBlock_If, PROFILING.setSlice, PROFILING.modifyBlock,
        Function.update, ha]

theorem CountBlockAndTrackPrevious_If_other (k : Knobs) (t1 t2 : THREADID) (hne : t1 ≠ t2)
    (b : BlockPtr) (s : ISIMPOINT) :
    OtherThreadFrame t2 s (ISIMPOINT.CountBlockAndTrackPrevious_If k b t1 s).2 := by
  have h : t2 ≠ t1 := fun h => hne h.symm
  obtain ⟨h1, h2, _⟩ := BLOCK.ExecutePrev_counts k t1
    ((s.profiling.slice t1).last_block.map s.profiling.blocks) (s.profiling.blocks b)
  refine ⟨?_, rfl, fun a => ?_⟩
  · simp [ISIMPOINT.CountBlockAndTrackPrevious_If, PROFILING.setSlice, PROFILING.modifyBlock,
      Function.update, h]
  · by_cases ha : a = b
    · simp [ISIMPOINT.CountBlockAndTrackPrevious_If, PROFILING.setSlice,
        PROFILING.modifyBlock, h1, h2, BLOCK.Execute, Function.update, h, ha]
    · simp [ISIMPOINT.CountBlockAndTrackPrevious_If, PROFILING.setSlice,
        PROFILING.modifyBlock, Function.update, ha]

theorem ResetSliceTimer_other (k : Knobs) (t1 t2 : THREADID) (hne : t1 ≠ t2) (s : ISIMPOINT) :
    OtherThreadFrame t2 s (ISIMPOINT.ResetSliceTimer k t1 s) := by
  have h : t2 ≠ t1 := fun h => hne h.symm
  obtain ⟨hb, _, _, _, hp⟩ := ResetSliceTimer_blocks k t1 s
  refine ⟨?_, by rw [hp], fun a => by rw [hb]; exact ⟨rfl, rfl⟩⟩
  unfold ISIMPOINT.ResetSliceTimer
  by_cases hi : s.InterestingThreadLut t1 = true
  · simp only [hi, Bool.not_true, Bool.false_eq_true, if_false]
    cases (s.profiling.slice t1).length_queue <;> simp [PROFILING.setSlice, Function.update, h]
  · simp [hi]

theorem EmitSliceEnd_other (t1 t2 : THREADID) (hne : t1 ≠ t2) (m : ADDRINT) (i o : Nat)
    (s : ISIMPOINT) : OtherThreadFrame t2 s (ISIMPOINT.EmitSliceEnd m i t1 o s) := by
  have h : t2 ≠ t1 := fun h => hne h.symm
  refine ⟨rfl, rfl, fun a => ?_⟩
  by_cases hbbv : s.profiling.bbv = true
  · simp [ISIMPOINT.EmitSliceEnd, PROFILING.EmitSliceEnd, hbbv, BLOCK.EmitSliceEnd,
      Function.update, h]
  · simp [ISIMPOINT.EmitSliceEnd, PROFILING.EmitSliceEnd, hbbv]

theorem CountBlock_Then_other (k : Knobs) (t1 t2 : THREADID) (hne : t1 ≠ t2) (b : BlockPtr)
    (s : ISIMPOINT) : OtherThreadFrame t2 s (ISIMPOINT.CountBlock_Then k b t1 s) := by
  have h : t2 ≠ t1 := fun h => hne h.symm
  have hset : OtherThreadFrame t2 s
      { s with _vectorPending := Function.update s._vectorPending t1 true } :=
    ⟨rfl, by simp [Function.update, h], fun _ => ⟨rfl, rfl⟩⟩
  unfold ISIMPOINT.CountBlock_Then
  by_cases h1 : s.InterestingThreadLut t1 = true
  · by_cases h2 : k.KnobEmitVectors = true
    · by_cases h3 : k.KnobDelayVectorEmission = true
      · simp only [h1, h2, h3, Bool.not_true, Bool.false_eq_true, if_false, if_true]
        exact hset
      · simp only [h1, h2, h3, Bool.not_true, Bool.false_eq_true, if_false]
        exact (ResetSliceTimer_other k t1 t2 hne s).compose
          (EmitSliceEnd_other t1 t2 hne _ _ _ _)
    · simp only [Bool.not_eq_true] at h2
      simp only [h1, h2, Bool.not_true, Bool.false_eq_true, if_false, Bool.not_false, if_true]
      exact hset
  · simp only [Bool.not_eq_true] at h1
    simp only [h1, Bool.not_false, if_true]
    exact OtherThreadFrame.unchanged t2 s

theorem EmitVectorForFriend_other (k : Knobs) (t1 t2 : THREADID) (hne : t1 ≠ t2)
    (m : ADDRINT) (i o : Nat) (s s1 : ISIMPOINT)
    (hrun : ISIMPOINT.EmitVectorForFriend k m i t1 o s = .ok s1) :
    OtherThreadFrame t2 s s1 := by
  have h : t2 ≠ t1 := fun h => hne h.symm
  unfold ISIMPOINT.EmitVectorForFriend at hrun
  by_cases h1 : s.InterestingThreadLut t1 = true
  · by_cases h2 : s._vectorPending t1 = true
    · simp only [h1, h2, Bool.not_true, Bool.false_eq_true, if_false] at hrun
      have hs1 := Except.ok.inj hrun
      rw [← hs1]
      have hclear : OtherThreadFrame t2 s
          { s with _vectorPending := Function.update s._vectorPending t1 false } :=
        ⟨rfl, by simp [Function.update, h], fun _ => ⟨rfl, rfl⟩⟩
      exact hclear.compose ((ResetSliceTimer_other k t1 t2 hne _).compose
        (EmitSliceEnd_other t1 t2 hne _ _ _ _))
    · simp only [Bool.not_eq_true] at h2
      simp [h1, h2] at hrun
  · simp only [Bool.not_eq_true] at h1
    simp only [h1, Bool.not_false, if_true] at hrun
    have hs1 := Except.ok.inj hrun
    rw [← hs1]
    exact OtherThreadFrame.unchanged t2 s

theorem DelayedVectorEmission_other (k : Knobs) (t1 t2 : THREADID) (hne : t1 ≠ t2)
    (b : BlockPtr) (s s1 : ISIMPOINT)
    (hrun : ISIMPOINT.DelayedVectorEmission k b t1 s = .ok s1) :
    OtherThreadFrame t2 s s1 := by
  unfold ISIMPOINT.DelayedVectorEmission at hrun
  by_cases h1 : s.InterestingThreadLut t1 = true
  · simp only [h1, Bool.not_true, Bool.false_eq_true, if_false] at hrun
    exact EmitVectorForFriend_other k t1 t2 hne _ _ _ s s1 hrun
  · simp only [Bool.not_eq_true] at h1
    simp only [h1, Bool.not_false, if_true] at hrun
    have hs1 := Except.ok.inj hrun
    rw [← hs1]
    exact OtherThreadFrame.unchanged t2 s

theorem Callback.run_other (k : Knobs) (fini : THREADID → ISIMPOINT → ISIMPOINT)
    (t1 t2 : THREADID) (hne : t1 ≠ t2) (cb : Callback) (s s1 : ISIMPOINT)
    (hf : cb.isThreadFini = false) (hrun : Callback.run k fini t1 cb s = .ok s1) :
    OtherThreadFrame t2 s s1 := by
  have h : t2 ≠ t1 := fun h => hne h.symm
  cases cb with
  | GetFirstIP_If =>
    have hs := Except.ok.inj hrun
    subst hs
    exact OtherThreadFrame.unchanged t2 s
  | GetFirstIP_Then ip imgID =>
    have hs := Except.ok.inj hrun
    subst hs
    unfold ISIMPOINT.GetFirstIP_Then
    split_ifs
    · exact OtherThreadFrame.unchanged t2 s
    · exact ⟨by simp [PROFILING.setSlice, Function.update, h], rfl, fun _ => ⟨rfl, rfl⟩⟩
  | CountRepIterations f =>
    have hs := Except.ok.inj hrun
    subst hs
    unfold ISIMPOINT.CountRepIterations
    split_ifs
    · exact OtherThreadFrame.unchanged t2 s
    · exact ⟨by simp [PROFILING.setSlice, Function.update, h], rfl, fun _ => ⟨rfl, rfl⟩⟩
  | CountBlock_If b =>
    have hs := Except.ok.inj hrun
    subst hs
    exact CountBlock_If_other t1 t2 hne b s
  | CountBlockAndTrackPrevious_If b =>
    have hs := Except.ok.inj hrun
    subst hs
    exact CountBlockAndTrackPrevious_If_other k t1 t2 hne b s
  | ResetSliceTimer =>
    have hs := Except.ok.inj hrun
    subst hs
    exact ResetSliceTimer_other k t1 t2 hne s
  | CheckDelayedVectorEmission =>
    have hs := Except.ok.inj hrun
    subst hs
    exact OtherThreadFrame.unchanged t2 s
  | EmitVectorForFriend m i o => exact EmitVectorForFriend_other k t1 t2 hne m i o s s1 hrun
  | DelayedVectorEmission b => exact DelayedVectorEmission_other k t1 t2 hne b s s1 hrun
  | CountBlock_Then b =>
    have hs := Except.ok.inj hrun
    subst hs
    exact CountBlock_Then_other k t1 t2 hne b s
  | ThreadFini => simp [Callback.isThreadFini] at hf

theorem Callback.runEvents_other (k : Knobs) (fini : THREADID → ISIMPOINT → ISIMPOINT)
    (t2 : THREADID) (events : List (THREADID × Callback)) :
    ∀ s s1 : ISIMPOINT, (∀ e ∈ events, e.1 ≠ t2 ∧ e.2.isThreadFini = false) →
      Callback.runEvents k fini events s = .ok s1 → OtherThreadFrame t2 s s1 := by
  induction events with
  | nil =>
    intro s s1 _ hrun
    have hs := Except.ok.inj hrun
    subst hs
    exact OtherThreadFrame.unchanged t2 s
  | cons e rest ih =>
    intro s s1 hev hrun
    cases hstep : Callback.run k fini e.1 e.2 s with
    | error err => simp [Callback.runEvents, hstep] at hrun
    | ok s2 =>
      simp only [Callback.runEvents, hstep] at hrun
      obtain ⟨hne, hf⟩ := hev e (List.mem_cons_self _ _)
      exact (Callback.run_other k fini e.1 t2 hne e.2 s s2 hf hstep).compose
        (ih s2 s1 (fun x hx => hev x (List.mem_cons_of_mem _ hx)) hrun)

/-- C17: for distinct thread ids `t1` and `t2`, `BLOCK::Execute`, `CountBlock_If`,
`ResetSliceTimer`, `CountBlock_Then` and `DelayedVectorEmission` invoked for `t1` leave the
slice state of `t2`, the pending flag of `t2` and the current-slice and prior counts of
every block for `t2` unchanged; hence so does any run of callbacks (the thread-finish
callback apart) of threads other than `t2`, whatever regions they execute. -/
theorem C17_thread_isolation (k : Knobs) (t1 t2 : THREADID) (hne : t1 ≠ t2) (s : ISIMPOINT) :
    (∀ blk : BLOCK, (blk.Execute t1)._sliceBlockCount t2 = blk._sliceBlockCount t2
        ∧ (blk.Execute t1)._cumulativeBlockCount t2 = blk._cumulativeBlockCount t2)
    ∧ (∀ b, OtherThreadFrame t2 s (ISIMPOINT.CountBlock_If b t1 s).2)
    ∧ OtherThreadFrame t2 s (ISIMPOINT.ResetSliceTimer k t1 s)
    ∧ (∀ b, OtherThreadFrame t2 s (ISIMPOINT.CountBlock_Then k b t1 s))
    ∧ (∀ b s1, ISIMPOINT.DelayedVectorEmission k b t1 s = .ok s1 → OtherThreadFrame t2 s s1)
    ∧ (∀ (fini : THREADID → ISIMPOINT → ISIMPOINT) (events : List (THREADID × Callback))
        (s1 : ISIMPOINT), (∀ e ∈ events, e.1 ≠ t2 ∧ e.2.isThreadFini = false) →
        Callback.runEvents k fini events s = .ok s1 → OtherThreadFrame t2 s s1) :=
  ⟨fun blk => BLOCK.Execute_other t1 t2 hne blk,
    fun b => CountBlock_If_other t1 t2 hne b s,
    ResetSliceTimer_other k t1 t2 hne s,
    fun b => CountBlock_Then_other k t1 t2 hne b s,
    fun b s1 h => DelayedVectorEmission_other k t1 t2 hne b s s1 h,
    fun fini events s1 hev hrun => Callback.runEvents_other k fini t2 events s s1 hev hrun⟩

/-- Witness of C17 (scenario D): the events of thread 0 alone leave the slice state of
thread 1 and its counts at every region as they were; in the interleaved run with
immediate emission each thread emits once, the cumulative counts of thread 0 are 2, 1, 0 and
those of thread 1 are 0, 0, 3 at the regions 0, 1, 2. -/
theorem C17_thread_isolation_witness :
    (scenarioState (Callback.runEvents (scenarioKnobs false) (fun _ s => s)
        (scenarioDEvents.filter (fun e => decide (e.1 = 0))) scenarioD)).profiling.slice 1
      = scenarioD.profiling.slice 1
    ∧ ((scenarioState (Callback.runEvents (scenarioKnobs false) (fun _ s => s)
        (scenarioDEvents.filter (fun e => decide (e.1 = 0))) scenarioD)).profiling.blocks
        0)._sliceBlockCount 1 = 0
    ∧ (scenarioState (Callback.runEvents (scenarioKnobs false) (fun _ s => s) scenarioDEvents
        scenarioD)).profiling.emitted = [⟨0, 4132, 1, 0⟩, ⟨1, 4232, 1, 0⟩]
    ∧ (List.range 3).map (fun a => ((scenarioState (Callback.runEvents (scenarioKnobs false)
        (fun _ s => s) scenarioDEvents scenarioD)).profiling.blocks a).CumulativeBlockCount 0)
        = [2, 1, 0]
    ∧ (List.range 3).map (fun a => ((scenarioState (Callback.runEvents (scenarioKnobs false)
        (fun _ s => s) scenarioDEvents scenarioD)).profiling.blocks a).CumulativeBlockCount 1)
        = [0, 0, 3] := by
  obtain ⟨_, _, _, _, _, h6⟩ := C17_thread_isolation (scenarioKnobs false) 0 1 (by decide)
    scenarioD
  obtain ⟨h1, _, h3⟩ := h6 (fun _ s => s)
    (scenarioDEvents.filter (fun e => decide (e.1 = 0)))
    (scenarioState (Callback.runEvents (scenarioKnobs false) (fun _ s => s)
      (scenarioDEvents.filter (fun e => decide (e.1 = 0))) scenarioD))
    (by decide) rfl
  exact ⟨h1, (h3 0).1, rfl, by decide, by decide⟩

/-! ## First instruction pointer -/

theorem captureFirstIP_recorded (ip : ADDRINT) (tid : THREADID) (imgID : Nat) (s : ISIMPOINT)
    (h : (s.profiling.slice tid).first_eip ≠ 0) :
    ISIMPOINT.captureFirstIP ip tid imgID s = s := by
  simp [ISIMPOINT.captureFirstIP, ISIMPOINT.GetFirstIP_If, h]

theorem captureFirstIP_first (ip : ADDRINT) (tid : THREADID) (imgID : Nat) (s : ISIMPOINT)
    (hint : s.InterestingThreadLut tid = true) (h : (s.profiling.slice tid).first_eip = 0) :
    ((ISIMPOINT.captureFirstIP ip tid imgID s).profiling.slice tid).first_eip = ip
    ∧ ((ISIMPOINT.captureFirstIP ip tid imgID s).profiling.slice tid).first_eip_imgID = imgID
    ∧ (ISIMPOINT.captureFirstIP ip tid imgID s).InterestingThreadLut tid = true := by
  have hint1 : s.interesting_thread_lut_ tid = true := hint
  simp [ISIMPOINT.captureFirstIP, ISIMPOINT.GetFirstIP_If, h, ISIMPOINT.GetFirstIP_Then, hint1,
    PROFILING.setSlice, ISIMPOINT.InterestingThreadLut]

theorem captureAll_recorded (tid : THREADID) (cs : List (ADDRINT × Nat)) :
    ∀ s : ISIMPOINT, (s.profiling.slice tid).first_eip ≠ 0 →
      ISIMPOINT.captureAll tid cs s = s := by
  induction cs with
  | nil => intro s _; rfl
  | cons c rest ih =>
    intro s h
    rw [ISIMPOINT.captureAll, captureFirstIP_recorded c.1 tid c.2 s h]
    exact ih s h

theorem captureAll_zero (tid : THREADID) (cs : List (ADDRINT × Nat)) :
    ∀ s : ISIMPOINT, s.InterestingThreadLut tid = true →
      (s.profiling.slice tid).first_eip = 0 → (∀ c ∈ cs, c.1 = 0) →
      (ISIMPOINT.captureAll tid cs s).InterestingThreadLut tid = true
      ∧ ((ISIMPOINT.captureAll tid cs s).profiling.slice tid).first_eip = 0 := by
  induction cs with
  | nil => intro s hint h _; exact ⟨hint, h⟩
  | cons c rest ih =>
    intro s hint h hz
    obtain ⟨h1, _, h3⟩ := captureFirstIP_first c.1 tid c.2 s hint h
    rw [ISIMPOINT.captureAll]
    exact ih _ h3 (by rw [h1]; exact hz c (List.mem_cons_self _ _))
      (fun x hx => hz x (List.mem_cons_of_mem _ hx))

theorem captureAll_append (tid : THREADID) (cs ds : List (ADDRINT × Nat)) :
    ∀ s : ISIMPOINT, ISIMPOINT.captureAll tid (cs ++ ds) s
      = ISIMPOINT.captureAll tid ds (ISIMPOINT.captureAll tid cs s) := by
  induction cs with
  | nil => intro s; rfl
  | cons c rest ih =>
    intro s
    simp only [List.cons_append, ISIMPOINT.captureAll]
    exact ih _

/-- C18: for an interesting thread that has no first instruction pointer yet, in any
sequence of capture probes (each `GetFirstIP_Then` guarded by `GetFirstIP_If`) the first
capture with a nonzero instruction pointer sets `first_eip` and `first_eip_imgID`, and
every later capture leaves the whole state, hence both fields, unchanged. -/
theorem C18_first_ip_first_write_wins (tid : THREADID) (s : ISIMPOINT)
    (pre post : List (ADDRINT × Nat)) (ip : ADDRINT) (imgID : Nat)
    (hint : s.InterestingThreadLut tid = true)
    (h0 : (s.profiling.slice tid).first_eip = 0)
    (hpre : ∀ c ∈ pre, c.1 = 0) (hip : ip ≠ 0) :
    ((ISIMPOINT.captureAll tid (pre ++ [(ip, imgID)]) s).profiling.slice tid).first_eip = ip
    ∧ ((ISIMPOINT.captureAll tid (pre ++ [(ip, imgID)]) s).profiling.slice tid).first_eip_imgID
        = imgID
    ∧ ISIMPOINT.captureAll tid (pre ++ (ip, imgID) :: post) s
        = ISIMPOINT.captureAll tid (pre ++ [(ip, imgID)]) s
    ∧ (∀ (ip1 : ADDRINT) (imgID1 : Nat),
        ISIMPOINT.captureFirstIP ip1 tid imgID1
            (ISIMPOINT.captureAll tid (pre ++ [(ip, imgID)]) s)
          = ISIMPOINT.captureAll tid (pre ++ [(ip, imgID)]) s) := by
  obtain ⟨hint1, hz1⟩ := captureAll_zero tid pre s hint h0 hpre
  obtain ⟨h1, h2, _⟩ := captureFirstIP_first ip tid imgID _ hint1 hz1
  have hstate : ISIMPOINT.captureAll tid (pre ++ [(ip, imgID)]) s
      = ISIMPOINT.captureFirstIP ip tid imgID (ISIMPOINT.captureAll tid pre s) := by
    rw [captureAll_append]; rfl
  have hne : ((ISIMPOINT.captureAll tid (pre ++ [(ip, imgID)]) s).profiling.slice
      tid).first_eip ≠ 0 := by
    rw [hstate, h1]; exact hip
  refine ⟨by rw [hstate, h1], by rw [hstate, h2], ?_, ?_⟩
  · have : pre ++ (ip, imgID) :: post = (pre ++ [(ip, imgID)]) ++ post := by simp
    rw [this, captureAll_append, captureAll_recorded tid post _ hne]
  · intro ip1 imgID1
    exact captureFirstIP_recorded ip1 tid imgID1 _ hne

/-- Witness of C18: thread 0 of the scenario state captures 4096 in module 1; the later
captures of 4136 and 4216 change nothing. -/
theorem C18_first_ip_first_write_wins_witness :
    ((ISIMPOINT.captureAll 0 [(4096, 1), (4136, 2), (4216, 3)] scenarioInit).profiling.slice
        0).first_eip = 4096
    ∧ ((ISIMPOINT.captureAll 0 [(4096, 1), (4136, 2), (4216, 3)] scenarioInit).profiling.slice
        0).first_eip_imgID = 1 := by
  obtain ⟨h1, h2, h3, _⟩ := C18_first_ip_first_write_wins 0 scenarioInit [] [(4136, 2), (4216, 3)]
    4096 1 rfl rfl (by decide) (by decide)
  have h4 : ISIMPOINT.captureAll 0 [(4096, 1), (4136, 2), (4216, 3)] scenarioInit
      = ISIMPOINT.captureAll 0 ([] ++ [(4096, 1)]) scenarioInit := h3
  rw [h4]
  exact ⟨h1, h2⟩

theorem DoInsert_foldl (p : PROFILING) (n : Nat) :
    (List.range n).foldl
        (fun do_instrument i =>
          if p.active i then do_instrument || decide ((p.slice i).first_eip = 0)
          else do_instrument)
        false = true
      ↔ ∃ i, i < n ∧ p.active i = true ∧ (p.slice i).first_eip = 0 := by
  induction n with
  | zero => simp
  | succ n ih =>
    rw [List.range_succ, List.foldl_append]
    simp only [List.foldl_cons, List.foldl_nil]
    by_cases hact : p.active n = true
    · simp only [hact, if_true, Bool.or_eq_true, ih, decide_eq_true_eq]
      constructor
      · rintro (⟨i, hi, h1, h2⟩ | h)
        · exact ⟨i, Nat.lt_succ_of_lt hi, h1, h2⟩
        · exact ⟨n, Nat.lt_succ_self n, hact, h⟩
      · rintro ⟨i, hi, h1, h2⟩
        rcases Nat.lt_succ_iff_lt_or_eq.mp hi with hlt | heq
        · exact Or.inl ⟨i, hlt, h1, h2⟩
        · subst heq; exact Or.inr h2
    · simp only [hact, if_false, ih, Bool.false_eq_true]
      constructor
      · rintro ⟨i, hi, h1, h2⟩
        exact ⟨i, Nat.lt_succ_of_lt hi, h1, h2⟩
      · rintro ⟨i, hi, h1, h2⟩
        rcases Nat.lt_succ_iff_lt_or_eq.mp hi with hlt | heq
        · exact ⟨i, hlt, h1, h2⟩
        · subst heq; exact absurd h1 hact

/-- C19: `DoInsertGetFirstIpInstrumentation` returns true exactly when some thread id below
`_nthreads` is active and has `slice[i].first_eip == 0`; it returns false once every active
thread has recorded its first pointer, and when no thread is active; `Trace` inserts the
capture probe exactly when `KnobEmitFirstSlice` is set and the routine returns true. -/
theorem C19_DoInsertGetFirstIpInstrumentation (k : Knobs) (s : ISIMPOINT) :
    (s.profiling.DoInsertGetFirstIpInstrumentation = true
      ↔ ∃ i, i < s.profiling._nthreads ∧ s.profiling.active i = true
          ∧ (s.profiling.slice i).first_eip = 0)
    ∧ ((∀ i, i < s.profiling._nthreads → s.profiling.active i = true →
          (s.profiling.slice i).first_eip ≠ 0) →
        s.profiling.DoInsertGetFirstIpInstrumentation = false)
    ∧ ((∀ i, i < s.profiling._nthreads → s.profiling.active i = false) →
        s.profiling.DoInsertGetFirstIpInstrumentation = false)
    ∧ (ISIMPOINT.insertsFirstIpProbe k s = true
      ↔ k.KnobEmitFirstSlice = true
          ∧ ∃ i, i < s.profiling._nthreads ∧ s.profiling.active i = true
              ∧ (s.profiling.slice i).first_eip = 0) := by
  have hiff : s.profiling.DoInsertGetFirstIpInstrumentation = true
      ↔ ∃ i, i < s.profiling._nthreads ∧ s.profiling.active i = true
          ∧ (s.profiling.slice i).first_eip = 0 :=
    DoInsert_foldl s.profiling s.profiling._nthreads
  refine ⟨hiff, ?_, ?_, ?_⟩
  · intro h
    cases hd : s.profiling.DoInsertGetFirstIpInstrumentation with
    | false => rfl
    | true =>
      obtain ⟨i, hi, h1, h2⟩ := hiff.mp hd
      exact absurd h2 (h i hi h1)
  · intro h
    cases hd : s.profiling.DoInsertGetFirstIpInstrumentation with
    | false => rfl
    | true =>
      obtain ⟨i, hi, h1, _⟩ := hiff.mp hd
      rw [h i hi] at h1
      cases h1
  · simp only [ISIMPOINT.insertsFirstIpProbe, Bool.and_eq_true, hiff]

/-- Witness of C19: in the scenario state the active thread 0 has no first instruction
pointer, so the routine returns true; after thread 0 captured 4096 it returns false. -/
theorem C19_DoInsertGetFirstIpInstrumentation_witness :
    scenarioInit.profiling.DoInsertGetFirstIpInstrumentation = true
    ∧ (ISIMPOINT.captureAll 0 [(4096, 1)]
        scenarioInit).profiling.DoInsertGetFirstIpInstrumentation = false := by
  refine ⟨(C19_DoInsertGetFirstIpInstrumentation (scenarioKnobs false) scenarioInit).1.mpr
      ⟨0, by decide, rfl, rfl⟩,
    (C19_DoInsertGetFirstIpInstrumentation (scenarioKnobs false)
      (ISIMPOINT.captureAll 0 [(4096, 1)] scenarioInit)).2.1 ?_⟩
  intro i hi _
  have hi1 : i < 1 := hi
  have h0 : i = 0 := by omega
  subst h0
  decide

/-! ## Activation -/

/-- C20: with neither `KnobBbv` nor `KnobLdv` set, `activate` returns the engine as it was:
the profiling state is not initialised, no pending-flag array is allocated, the command
line is not recorded and nothing is registered with Pin. With at least one of them set,
after `activate` the profiling state is the initialised one, the pending-flag array has
`_nthreads` entries, the flag of every thread id below `_nthreads` is false, and the thread,
trace and image functions are registered. -/
theorem C20_activate (k : Knobs) (profilingInit : PROFILING → PROFILING) (pid : Nat)
    (argv : List String) (e : ENGINE) :
    (k.KnobBbv = false ∧ k.KnobLdv = false →
      ENGINE.activate k profilingInit pid argv e = e
      ∧ (ENGINE.activate k profilingInit pid argv e).isimpoint.profiling = e.isimpoint.profiling
      ∧ (ENGINE.activate k profilingInit pid argv e).vectorPendingLength = e.vectorPendingLength
      ∧ (ENGINE.activate k profilingInit pid argv e).isimpoint.commandLine
          = e.isimpoint.commandLine
      ∧ (ENGINE.activate k profilingInit pid argv e).registered = e.registered)
    ∧ (k.KnobBbv = true ∨ k.KnobLdv = true →
      (ENGINE.activate k profilingInit pid argv e).isimpoint.profiling
          = profilingInit e.isimpoint.profiling
      ∧ (ENGINE.activate k profilingInit pid argv e).vectorPendingLength
          = some (ENGINE.activate k profilingInit pid argv e).isimpoint.profiling._nthreads
      ∧ (∀ i, i < (ENGINE.activate k profilingInit pid argv e).isimpoint.profiling._nthreads →
          (ENGINE.activate k profilingInit pid argv e).isimpoint._vectorPending i = false)
      ∧ (ENGINE.activate k profilingInit pid argv e).registered
          = e.registered ++ [.ThreadStart, .ThreadFini, .Trace, .Image]) := by
  constructor
  · rintro ⟨h1, h2⟩
    have h : ENGINE.activate k profilingInit pid argv e = e := by
      simp [ENGINE.activate, h1, h2]
    rw [h]
    exact ⟨rfl, rfl, rfl, rfl, rfl⟩
  · intro h
    have hcond : (!k.KnobBbv && !k.KnobLdv) = false := by
      rcases h with h | h <;> simp [h]
    have hprof : (ENGINE.activate k profilingInit pid argv e).isimpoint.profiling
        = profilingInit e.isimpoint.profiling := by
      unfold ENGINE.activate
      simp only [hcond, Bool.false_eq_true, if_false, ENGINE.AddInstrumentation,
        ISIMPOINT.GetCommand]
      cases k.KnobPid <;> simp
    refine ⟨hprof, ?_, ?_, ?_⟩
    · unfold ENGINE.activate
      simp only [hcond, Bool.false_eq_true, if_false, ENGINE.AddInstrumentation,
        ISIMPOINT.GetCommand]
    · intro i hi
      rw [hprof] at hi
      unfold ENGINE.activate
      simp only [hcond, Bool.false_eq_true, if_false, ENGINE.AddInstrumentation,
        ISIMPOINT.GetCommand]
      cases k.KnobPid <;> simp [hi]
    · unfold ENGINE.activate
      simp only [hcond, Bool.false_eq_true, if_false, ENGINE.AddInstrumentation]


/-- Witness of C20: with both profiles off, `activate` returns the engine around the scenario
state as it was; with the frequency profile on, the pending flag of thread 0 is false, the
array has one entry and four functions are registered. -/
theorem C20_activate_witness :
    ENGINE.activate { scenarioKnobs false with KnobBbv := false } (fun p => p) 7 ["pin"]
        ⟨scenarioInit, none, [], false⟩ = ⟨scenarioInit, none, [], false⟩
    ∧ (ENGINE.activate (scenarioKnobs false) (fun p => p) 7 ["pin"]
        ⟨{ scenarioInit with _vectorPending := fun _ => true }, none, [], false⟩).isimpoint._vectorPending
          0 = false
    ∧ (ENGINE.activate (scenarioKnobs false) (fun p => p) 7 ["pin"]
        ⟨{ scenarioInit with _vectorPending := fun _ => true }, none, [], false⟩).vectorPendingLength
          = some 1 := by
  refine ⟨((C20_activate { scenarioKnobs false with KnobBbv := false } (fun p => p) 7 ["pin"]
      ⟨scenarioInit, none, [], false⟩).1 ⟨rfl, rfl⟩).1, ?_, ?_⟩
  · exact ((C20_activate (scenarioKnobs false) (fun p => p) 7 ["pin"]
      ⟨{ scenarioInit with _vectorPending := fun _ => true }, none, [], false⟩).2
        (Or.inl rfl)).2.2.1 0 (by decide)
  · exact ((C20_activate (scenarioKnobs false) (fun p => p) 7 ["pin"]
      ⟨{ scenarioInit with _vectorPending := fun _ => true }, none, [], false⟩).2
        (Or.inl rfl)).2.1

/-! ## The probes in terms of the schedule -/

theorem ResetSliceTimer_schedule (k : Knobs) (tid : THREADID) (s : ISIMPOINT)
    (hint : s.InterestingThreadLut tid = true) :
    (ISIMPOINT.ResetSliceTimer k tid s).schedule tid
      = (s.schedule tid).reset k.KnobSliceSize := by
  unfold ISIMPOINT.ResetSliceTimer ISIMPOINT.schedule Schedule.reset
  simp only [hint, Bool.not_true, Bool.false_eq_true, if_false]
  cases hq : (s.profiling.slice tid).length_queue <;> simp [PROFILING.setSlice]

theorem ExecutePrev_static (k : Knobs) (tid : THREADID) (prev : Option BLOCK) (b : BLOCK) :
    (BLOCK.ExecutePrev k tid prev b).StaticInstructionCount = b.StaticInstructionCount := by
  unfold BLOCK.ExecutePrev
  split_ifs
  · cases prev <;> rfl
  · rfl

theorem CountBlock_If_schedule (b : BlockPtr) (tid : THREADID) (s : ISIMPOINT) :
    (ISIMPOINT.CountBlock_If b tid s).1
        = ((s.schedule tid).count (s.profiling.blocks b).StaticInstructionCount).1
    ∧ (ISIMPOINT.CountBlock_If b tid s).2.schedule tid
        = ((s.schedule tid).count (s.profiling.blocks b).StaticInstructionCount).2 := by
  constructor
  · simp [ISIMPOINT.CountBlock_If, Schedule.count, ISIMPOINT.schedule, PROFILING.setSlice,
      PROFILING.modifyBlock, BLOCK.Execute, BLOCK.StaticInstructionCount]
  · simp [ISIMPOINT.CountBlock_If, Schedule.count, ISIMPOINT.schedule, PROFILING.setSlice,
      PROFILING.modifyBlock, BLOCK.Execute, BLOCK.StaticInstructionCount]

theorem CountBlockAndTrackPrevious_If_schedule (k : Knobs) (b : BlockPtr) (tid : THREADID)
    (s : ISIMPOINT) :
    (ISIMPOINT.CountBlockAndTrackPrevious_If k b tid s).1
        = ((s.schedule tid).count (s.profiling.blocks b).StaticInstructionCount).1
    ∧ (ISIMPOINT.CountBlockAndTrackPrevious_If k b tid s).2.schedule tid
        = ((s.schedule tid).count (s.profiling.blocks b).StaticInstructionCount).2
    ∧ (∀ a, ((ISIMPOINT.CountBlockAndTrackPrevious_If k b tid s).2.profiling.blocks
          a).StaticInstructionCount = (s.profiling.blocks a).StaticInstructionCount) := by
  have hst := ExecutePrev_static k tid
    ((s.profiling.slice tid).last_block.map s.profiling.blocks) (s.profiling.blocks b)
  refine ⟨?_, ?_, ?_⟩
  · simp [ISIMPOINT.CountBlockAndTrackPrevious_If, Schedule.count, ISIMPOINT.schedule,
      PROFILING.setSlice, PROFILING.modifyBlock, hst]
  · simp [ISIMPOINT.CountBlockAndTrackPrevious_If, Schedule.count, ISIMPOINT.schedule,
      PROFILING.setSlice, PROFILING.modifyBlock, hst]
  · intro a
    by_cases ha : a = b
    · subst ha
      simp [ISIMPOINT.CountBlockAndTrackPrevious_If, PROFILING.setSlice,
        PROFILING.modifyBlock, hst]
    · simp [ISIMPOINT.CountBlockAndTrackPrevious_If, PROFILING.setSlice,
        PROFILING.modifyBlock, Function.update, ha]

theorem countProbe_schedule (k : Knobs) (b : BlockPtr) (tid : THREADID) (s : ISIMPOINT) :
    (ISIMPOINT.countProbe k b tid s).1
        = ((s.schedule tid).count (s.profiling.blocks b).StaticInstructionCount).1
    ∧ (ISIMPOINT.countProbe k b tid s).2.schedule tid
        = ((s.schedule tid).count (s.profiling.blocks b).StaticInstructionCount).2
    ∧ (ISIMPOINT.countProbe k b tid s).2._vectorPending = s._vectorPending
    ∧ (ISIMPOINT.countProbe k b tid s).2.interesting_thread_lut_ = s.interesting_thread_lut_
    ∧ (ISIMPOINT.countProbe k b tid s).2.profiling.emitted = s.profiling.emitted
    ∧ (∀ a, ((ISIMPOINT.countProbe k b tid s).2.profiling.blocks a).StaticInstructionCount
        = (s.profiling.blocks a).StaticInstructionCount) := by
  unfold ISIMPOINT.countProbe
  split_ifs
  · obtain ⟨h1, h2, h3⟩ := CountBlockAndTrackPrevious_If_schedule k b tid s
    exact ⟨h1, h2, rfl, rfl, rfl, h3⟩
  · obtain ⟨h1, h2⟩ := CountBlock_If_schedule b tid s
    exact ⟨h1, h2, rfl, rfl, rfl, (CountBlock_If_step b tid s).2.2.2.1⟩

theorem EmitSliceEnd_static (m : ADDRINT) (i : Nat) (tid : THREADID) (o : Nat) (s : ISIMPOINT)
    (a : BlockPtr) :
    ((ISIMPOINT.EmitSliceEnd m i tid o s).profiling.blocks a).StaticInstructionCount
      = (s.profiling.blocks a).StaticInstructionCount := by
  by_cases hbbv : s.profiling.bbv = true
  · simp [ISIMPOINT.EmitSliceEnd, PROFILING.EmitSliceEnd, hbbv, BLOCK.EmitSliceEnd,
      BLOCK.StaticInstructionCount]
  · simp [ISIMPOINT.EmitSliceEnd, PROFILING.EmitSliceEnd, hbbv]

theorem EmitSliceEnd_emitted (m : ADDRINT) (i : Nat) (tid : THREADID) (o : Nat)
    (s : ISIMPOINT) :
    (ISIMPOINT.EmitSliceEnd m i tid o s).profiling.emitted.length
      = s.profiling.emitted.length + 1 := by
  simp [ISIMPOINT.EmitSliceEnd, PROFILING.EmitSliceEnd]

theorem ResetSliceTimer_static (k : Knobs) (tid : THREADID) (s : ISIMPOINT) (a : BlockPtr) :
    ((ISIMPOINT.ResetSliceTimer k tid s).profiling.blocks a).StaticInstructionCount
      = (s.profiling.blocks a).StaticInstructionCount := by
  rw [(ResetSliceTimer_blocks k tid s).1]

/-- The head probe of an interesting thread when vectors are emitted: with delayed emission
and a pending flag it clears the flag, resets and emits once; otherwise it does nothing. -/
theorem headProbe_spec (k : Knobs) (b : BlockPtr) (tid : THREADID) (s : ISIMPOINT)
    (hint : s.InterestingThreadLut tid = true) (hev : k.KnobEmitVectors = true) :
    (k.KnobDelayVectorEmission = true → s._vectorPending tid = true →
      ∃ s1, ISIMPOINT.headProbe k b tid s = .ok s1
        ∧ s1.schedule tid = (s.schedule tid).reset k.KnobSliceSize
        ∧ s1._vectorPending tid = false
        ∧ s1.profiling.emitted.length = s.profiling.emitted.length + 1
        ∧ s1.InterestingThreadLut tid = true
        ∧ ∀ a, (s1.profiling.blocks a).StaticInstructionCount
            = (s.profiling.blocks a).StaticInstructionCount)
    ∧ (¬ (k.KnobDelayVectorEmission = true ∧ s._vectorPending tid = true) →
        ISIMPOINT.headProbe k b tid s = .ok s) := by
  constructor
  · intro hd hp
    have hint0 : s.interesting_thread_lut_ tid = true := hint
    have hint1 : ISIMPOINT.InterestingThreadLut
        { s with _vectorPending := Function.update s._vectorPending tid false } tid = true :=
      hint
    refine ⟨ISIMPOINT.EmitSliceEnd (s.profiling.blocks b).Key.Start
      (s.profiling.blocks b).ImgId tid 1
      (ISIMPOINT.ResetSliceTimer k tid
        { s with _vectorPending := Function.update s._vectorPending tid false }), ?_, ?_, ?_,
      ?_, ?_, ?_⟩
    · simp [ISIMPOINT.headProbe, hev, hd, ISIMPOINT.CheckDelayedVectorEmission,
        ISIMPOINT.VectorPending, hp, ISIMPOINT.DelayedVectorEmission,
        ISIMPOINT.EmitVectorForFriend, ISIMPOINT.InterestingThreadLut, hint0]
    · exact ResetSliceTimer_schedule k tid _ hint1
    · show (ISIMPOINT.ResetSliceTimer k tid
        { s with _vectorPending := Function.update s._vectorPending tid false })._vectorPending
          tid = false
      rw [(ResetSliceTimer_blocks k tid _).2.2.2.2]
      simp
    · rw [EmitSliceEnd_emitted, (ResetSliceTimer_blocks k tid _).2.2.2.1]
    · show (ISIMPOINT.ResetSliceTimer k tid
        { s with _vectorPending := Function.update s._vectorPending tid false
          }).interesting_thread_lut_ tid = true
      rw [ResetSliceTimer_lut]
      exact hint0
    · intro a
      rw [EmitSliceEnd_static, ResetSliceTimer_static]
  · intro h
    unfold ISIMPOINT.headProbe
    by_cases hd : k.KnobDelayVectorEmission = true
    · have hp : s._vectorPending tid = false := by
        cases hpv : s._vectorPending tid with
        | false => rfl
        | true => exact absurd ⟨hd, hpv⟩ h
      simp [hev, hd, ISIMPOINT.CheckDelayedVectorEmission, ISIMPOINT.VectorPending, hp]
    · simp [hd]

/-- The routine `CountBlock_Then` for an interesting thread when vectors are emitted: with
delayed emission it sets the pending flag only; otherwise it resets and emits once. -/
theorem CountBlock_Then_spec (k : Knobs) (b : BlockPtr) (tid : THREADID) (s : ISIMPOINT)
    (hint : s.InterestingThreadLut tid = true) (hev : k.KnobEmitVectors = true) :
    (k.KnobDelayVectorEmission = true →
      ISIMPOINT.CountBlock_Then k b tid s
        = { s with _vectorPending := Function.update s._vectorPending tid true })
    ∧ (k.KnobDelayVectorEmission = false →
        (ISIMPOINT.CountBlock_Then k b tid s).schedule tid
            = (s.schedule tid).reset k.KnobSliceSize
        ∧ (ISIMPOINT.CountBlock_Then k b tid s)._vectorPending = s._vectorPending
        ∧ (ISIMPOINT.CountBlock_Then k b tid s).profiling.emitted.length
            = s.profiling.emitted.length + 1
        ∧ (ISIMPOINT.CountBlock_Then k b tid s).InterestingThreadLut tid = true
        ∧ ∀ a, ((ISIMPOINT.CountBlock_Then k b tid s).profiling.blocks a).StaticInstructionCount
            = (s.profiling.blocks a).StaticInstructionCount) := by
  have hint0 : s.interesting_thread_lut_ tid = true := hint
  constructor
  · intro hd
    simp [ISIMPOINT.CountBlock_Then, ISIMPOINT.InterestingThreadLut, hint0, hev, hd]
  · intro hd
    have hthen : ISIMPOINT.CountBlock_Then k b tid s
        = ISIMPOINT.EmitSliceEnd
            ((ISIMPOINT.ResetSliceTimer k tid s).profiling.blocks b).Key.End
            ((ISIMPOINT.ResetSliceTimer k tid s).profiling.blocks b).ImgId tid 0
            (ISIMPOINT.ResetSliceTimer k tid s) := by
      simp [ISIMPOINT.CountBlock_Then, ISIMPOINT.InterestingThreadLut, hint0, hev, hd]
    rw [hthen]
    refine ⟨ResetSliceTimer_schedule k tid s hint, ?_, ?_, ?_, ?_⟩
    · show (ISIMPOINT.ResetSliceTimer k tid s)._vectorPending = s._vectorPending
      exact (ResetSliceTimer_blocks k tid s).2.2.2.2
    · rw [EmitSliceEnd_emitted, (ResetSliceTimer_blocks k tid s).2.2.2.1]
    · show (ISIMPOINT.ResetSliceTimer k tid s).interesting_thread_lut_ tid = true
      rw [ResetSliceTimer_lut]
      exact hint0
    · intro a
      rw [EmitSliceEnd_static, ResetSliceTimer_static]

theorem observeBlock_of_head (k : Knobs) (b : BlockPtr) (tid : THREADID) (s s1 : ISIMPOINT)
    (h : ISIMPOINT.headProbe k b tid s = .ok s1) :
    ISIMPOINT.observeBlock k b tid s
      = .ok (⟨ISIMPOINT.resetSeen tid s s1, (ISIMPOINT.countProbe k b tid s1).1,
              (ISIMPOINT.countProbe k b tid s1).2.schedule tid,
              ISIMPOINT.resetSeen tid (ISIMPOINT.countProbe k b tid s1).2
                (ISIMPOINT.tailProbe k b tid s1)⟩,
            ISIMPOINT.tailProbe k b tid s1) := by
  simp [ISIMPOINT.observeBlock, h]

theorem resetSeen_same (tid : THREADID) (s s1 : ISIMPOINT)
    (h : s1.profiling.emitted.length = s.profiling.emitted.length) :
    ISIMPOINT.resetSeen tid s s1 = none := by
  simp [ISIMPOINT.resetSeen, h]

theorem resetSeen_grown (tid : THREADID) (s s1 : ISIMPOINT)
    (h : s1.profiling.emitted.length = s.profiling.emitted.length + 1) :
    ISIMPOINT.resetSeen tid s s1 = some (s1.schedule tid).CumulativeInstructionCount := by
  simp [ISIMPOINT.resetSeen, h, ISIMPOINT.schedule]

/-- The tail probes of an interesting thread when vectors are emitted, in terms of the
schedule, the pending flag and the emission trace. -/
theorem tailProbe_spec (k : Knobs) (b : BlockPtr) (tid : THREADID) (s : ISIMPOINT)
    (hint : s.InterestingThreadLut tid = true) (hev : k.KnobEmitVectors = true) :
    (ISIMPOINT.tailProbe k b tid s).InterestingThreadLut tid = true
    ∧ (∀ a, ((ISIMPOINT.tailProbe k b tid s).profiling.blocks a).StaticInstructionCount
        = (s.profiling.blocks a).StaticInstructionCount)
    ∧ ((ISIMPOINT.countProbe k b tid s).1 = 0 →
        ISIMPOINT.tailProbe k b tid s = (ISIMPOINT.countProbe k b tid s).2)
    ∧ ((ISIMPOINT.countProbe k b tid s).1 ≠ 0 → k.KnobDelayVectorEmission = true →
        (ISIMPOINT.tailProbe k b tid s).schedule tid
            = (ISIMPOINT.countProbe k b tid s).2.schedule tid
        ∧ (ISIMPOINT.tailProbe k b tid s)._vectorPending tid = true
        ∧ (ISIMPOINT.tailProbe k b tid s).profiling.emitted.length
            = (ISIMPOINT.countProbe k b tid s).2.profiling.emitted.length)
    ∧ ((ISIMPOINT.countProbe k b tid s).1 ≠ 0 → k.KnobDelayVectorEmission = false →
        (ISIMPOINT.tailProbe k b tid s).schedule tid
            = ((ISIMPOINT.countProbe k b tid s).2.schedule tid).reset k.KnobSliceSize
        ∧ (ISIMPOINT.tailProbe k b tid s)._vectorPending = s._vectorPending
        ∧ (ISIMPOINT.tailProbe k b tid s).profiling.emitted.length
            = (ISIMPOINT.countProbe k b tid s).2.profiling.emitted.length + 1) := by
  obtain ⟨_, _, c3, c4, _, c6⟩ := countProbe_schedule k b tid s
  have hintc : (ISIMPOINT.countProbe k b tid s).2.InterestingThreadLut tid = true := by
    show (ISIMPOINT.countProbe k b tid s).2.interesting_thread_lut_ tid = true
    rw [c4]
    exact hint
  obtain ⟨t1, t2⟩ := CountBlock_Then_spec k b tid (ISIMPOINT.countProbe k b tid s).2 hintc hev
  by_cases hsig : (ISIMPOINT.countProbe k b tid s).1 = 0
  · have htail : ISIMPOINT.tailProbe k b tid s = (ISIMPOINT.countProbe k b tid s).2 := by
      simp [ISIMPOINT.tailProbe, hsig]
    rw [htail]
    exact ⟨hintc, c6, fun _ => rfl, fun h => absurd hsig h, fun h => absurd hsig h⟩
  · have htail : ISIMPOINT.tailProbe k b tid s
        = ISIMPOINT.CountBlock_Then k b tid (ISIMPOINT.countProbe k b tid s).2 := by
      simp [ISIMPOINT.tailProbe, hsig]
    rw [htail]
    cases hd : k.KnobDelayVectorEmission with
    | true =>
      rw [t1 hd]
      refine ⟨hintc, c6, fun h => absurd h hsig, fun _ _ => ⟨rfl, by simp, rfl⟩,
        fun _ h => by cases h⟩
    | false =>
      obtain ⟨u1, u2, u3, u4, u5⟩ := t2 hd
      refine ⟨u4, fun a => by rw [u5 a, c6 a], fun h => absurd h hsig,
        (fun _ h => by cases h), fun _ _ => ⟨u1, by rw [u2, c3], u3⟩⟩

theorem observeBlocks_after_head (k : Knobs) (tid : THREADID)
    (hev : k.KnobEmitVectors = true) (b : BlockPtr) (rest : List BlockPtr)
    (s s1 : ISIMPOINT) (σ1 : Schedule)
    (hhead : ISIMPOINT.headProbe k b tid s = .ok s1)
    (hint : s1.InterestingThreadLut tid = true)
    (hσ : s1.schedule tid = σ1)
    (hst : ∀ a, (s1.profiling.blocks a).StaticInstructionCount
      = (s.profiling.blocks a).StaticInstructionCount)
    (hpend : k.KnobDelayVectorEmission = true → s1._vectorPending tid = false)
    (ih : ∀ (s2 : ISIMPOINT) (p : Bool), s2.InterestingThreadLut tid = true →
      (k.KnobDelayVectorEmission = true → s2._vectorPending tid = p) →
      ∃ final, ISIMPOINT.observeBlocks k tid rest s2
        = .ok (Schedule.observe k.KnobDelayVectorEmission k.KnobSliceSize
            (s2.staticSizes rest) (s2.schedule tid) p, final)) :
    ∃ final, ISIMPOINT.observeBlocks k tid (b :: rest) s
      = .ok (
          (if (σ1.count (s.profiling.blocks b).StaticInstructionCount).1 ≠ 0 then
            if k.KnobDelayVectorEmission then
              ⟨ISIMPOINT.resetSeen tid s s1,
                (σ1.count (s.profiling.blocks b).StaticInstructionCount).1,
                (σ1.count (s.profiling.blocks b).StaticInstructionCount).2, none⟩
              :: Schedule.observe k.KnobDelayVectorEmission k.KnobSliceSize
                  (s.staticSizes rest)
                  (σ1.count (s.profiling.blocks b).StaticInstructionCount).2 true
            else
              ⟨ISIMPOINT.resetSeen tid s s1,
                (σ1.count (s.profiling.blocks b).StaticInstructionCount).1,
                (σ1.count (s.profiling.blocks b).StaticInstructionCount).2,
                some (((σ1.count (s.profiling.blocks b).StaticInstructionCount).2).reset
                  k.KnobSliceSize).CumulativeInstructionCount⟩
              :: Schedule.observe k.KnobDelayVectorEmission k.KnobSliceSize
                  (s.staticSizes rest)
                  (((σ1.count (s.profiling.blocks b).StaticInstructionCount).2).reset
                    k.KnobSliceSize) false
          else
            ⟨ISIMPOINT.resetSeen tid s s1,
              (σ1.count (s.profiling.blocks b).StaticInstructionCount).1,
              (σ1.count (s.profiling.blocks b).StaticInstructionCount).2, none⟩
            :: Schedule.observe k.KnobDelayVectorEmission k.KnobSliceSize
                (s.staticSizes rest)
                (σ1.count (s.profiling.blocks b).StaticInstructionCount).2 false),
          final) := by
  obtain ⟨c1, c2, c3, _, _, _⟩ := countProbe_schedule k b tid s1
  rw [hσ, hst b] at c1 c2
  obtain ⟨t1, t2, t3, t4, t5⟩ := tailProbe_spec k b tid s1 hint hev
  have hsizes : (ISIMPOINT.tailProbe k b tid s1).staticSizes rest = s.staticSizes rest := by
    simp only [ISIMPOINT.staticSizes, t2, hst]
  have hobs := observeBlock_of_head k b tid s s1 hhead
  by_cases hsig : (ISIMPOINT.countProbe k b tid s1).1 = 0
  · have hsig1 : (σ1.count (s.profiling.blocks b).StaticInstructionCount).1 = 0 := by
      rw [← c1]; exact hsig
    have htail := t3 hsig
    obtain ⟨final, hfin⟩ := ih (ISIMPOINT.tailProbe k b tid s1) false t1
      (fun hd => by rw [htail, c3]; exact hpend hd)
    rw [hsizes, htail, c2] at hfin
    refine ⟨final, ?_⟩
    simp only [ISIMPOINT.observeBlocks, hobs]
    rw [htail, hfin, resetSeen_same tid _ _ rfl, c1, c2]
    simp only [hsig1, ne_eq, not_true_eq_false, if_false]
  · have hsig1 : (σ1.count (s.profiling.blocks b).StaticInstructionCount).1 ≠ 0 := by
      rw [← c1]; exact hsig
    cases hd : k.KnobDelayVectorEmission with
    | true =>
      obtain ⟨u1, u2, u3⟩ := t4 hsig hd
      obtain ⟨final, hfin⟩ := ih (ISIMPOINT.tailProbe k b tid s1) true t1 (fun _ => u2)
      rw [hsizes, u1, c2, hd] at hfin
      refine ⟨final, ?_⟩
      simp only [ISIMPOINT.observeBlocks, hobs]
      rw [hfin, resetSeen_same tid _ _ u3, c1, c2]
      simp only [hsig1, ne_eq, not_false_eq_true, if_true]
    | false =>
      obtain ⟨u1, _, u3⟩ := t5 hsig hd
      obtain ⟨final, hfin⟩ := ih (ISIMPOINT.tailProbe k b tid s1) false t1
        (fun h => by rw [hd] at h; cases h)
      rw [hsizes, u1, c2, hd] at hfin
      refine ⟨final, ?_⟩
      simp only [ISIMPOINT.observeBlocks, hobs]
      rw [hfin, resetSeen_grown tid _ _ u3, u1, c1, c2]
      simp only [hsig1, ne_eq, not_false_eq_true, if_true, Bool.false_eq_true, if_false]

/-- Every run of the probes for an interesting thread, with vectors emitted, is seen exactly
as `Schedule.observe` computes it from the static sizes, the schedule, the fixed slice size
and the emission mode; the run does not abort. -/
theorem observeBlocks_refines (k : Knobs) (tid : THREADID) (hev : k.KnobEmitVectors = true) :
    ∀ (bs : List BlockPtr) (s : ISIMPOINT) (p : Bool),
      s.InterestingThreadLut tid = true →
      (k.KnobDelayVectorEmission = true → s._vectorPending tid = p) →
      ∃ final, ISIMPOINT.observeBlocks k tid bs s
        = .ok (Schedule.observe k.KnobDelayVectorEmission k.KnobSliceSize
            (s.staticSizes bs) (s.schedule tid) p, final)
  | [], s, p, _, _ => ⟨s, rfl⟩
  | b :: rest, s, p, hint, hp => by
    obtain ⟨h1, h2⟩ := headProbe_spec k b tid s hint hev
    have ih := observeBlocks_refines k tid hev rest
    by_cases hcase : k.KnobDelayVectorEmission = true ∧ s._vectorPending tid = true
    · obtain ⟨hd, hpv⟩ := hcase
      have hp1 : p = true := by rw [← hp hd]; exact hpv
      obtain ⟨s1, e1, e2, e3, e4, e5, e6⟩ := h1 hd hpv
      obtain ⟨final, hfin⟩ := observeBlocks_after_head k tid hev b rest s s1 _ e1 e5 e2 e6
        (fun _ => e3) ih
      refine ⟨final, ?_⟩
      rw [hfin, resetSeen_grown tid s s1 e4, e2]
      simp only [ISIMPOINT.staticSizes, List.map_cons, Schedule.observe, hd, hp1, Bool.and_self,
        if_true]
    · have e1 := h2 hcase
      have hdp : (k.KnobDelayVectorEmission && p) = false := by
        cases hd : k.KnobDelayVectorEmission with
        | false => rfl
        | true =>
          have hpv : s._vectorPending tid = false := by
            cases hpv : s._vectorPending tid with
            | false => rfl
            | true => exact absurd ⟨hd, hpv⟩ hcase
          rw [← hp hd, hpv]
          rfl
      obtain ⟨final, hfin⟩ := observeBlocks_after_head k tid hev b rest s s _ e1 hint rfl
        (fun _ => rfl)
        (fun hd => by
          cases hpv : s._vectorPending tid with
          | false => rfl
          | true => exact absurd ⟨hd, hpv⟩ hcase) ih
      refine ⟨final, ?_⟩
      rw [hfin, resetSeen_same tid s s rfl]
      simp only [ISIMPOINT.staticSizes, List.map_cons, Schedule.observe, hdp,
        Bool.false_eq_true, if_false]

/-- Immediate against deferred emission on the same static sizes: the counting probe
returns the same values and leaves the same schedules; the deferred run takes each reset one
block later, so its resets are those of the immediate run, the last one possibly still
pending. `p` tells that the deferred run starts with an emission pending, in which case the
immediate run has already taken that reset. -/
theorem Schedule.observe_modes (fixed : Int) :
    ∀ (sizes : List Int) (σi σd : Schedule) (p : Bool),
      σi = (if p then σd.reset fixed else σd) →
      signalsOf (Schedule.observe false fixed sizes σi false)
          = signalsOf (Schedule.observe true fixed sizes σd p)
      ∧ schedulesOf (Schedule.observe false fixed sizes σi false)
          = schedulesOf (Schedule.observe true fixed sizes σd p)
      ∧ ∃ tail : List Int, tail.length ≤ 1
          ∧ (if p then [σi.CumulativeInstructionCount] else [])
              ++ resetsOf (Schedule.observe false fixed sizes σi false)
            = resetsOf (Schedule.observe true fixed sizes σd p) ++ tail
  | [], σi, σd, p, _ => by
    refine ⟨rfl, rfl, if p then [σi.CumulativeInstructionCount] else [], ?_, ?_⟩
    · cases p <;> simp
    · simp [Schedule.observe, resetsOf]
  | n :: rest, σi, σd, p, hσ => by
    have hhead : (if (true && p) = true then σd.reset fixed else σd) = σi := by
      rw [hσ]; cases p <;> rfl
    by_cases hsig : (σi.count n).1 = 0
    · obtain ⟨i1, i2, tail, i3, i4⟩ :=
        Schedule.observe_modes fixed rest (σi.count n).2 (σi.count n).2 false rfl
      refine ⟨?_, ?_, tail, i3, ?_⟩
      · simp only [Schedule.observe, hhead, Bool.false_and, Bool.false_eq_true, if_false, hsig,
          ne_eq, not_true_eq_false, signalsOf, List.map_cons] at i1 ⊢
        rw [i1]
      · simp only [Schedule.observe, hhead, Bool.false_and, Bool.false_eq_true, if_false, hsig,
          ne_eq, not_true_eq_false, schedulesOf, List.map_cons] at i2 ⊢
        rw [i2]
      · simp only [Bool.false_eq_true, if_false, List.nil_append] at i4
        simp only [Schedule.observe, hhead, Bool.false_and, Bool.false_eq_true, if_false, hsig,
          ne_eq, not_true_eq_false, resetsOf, Option.toList, List.nil_append]
        rw [i4]
        cases p <;> simp
    · obtain ⟨i1, i2, tail, i3, i4⟩ :=
        Schedule.observe_modes fixed rest ((σi.count n).2.reset fixed) (σi.count n).2 true rfl
      refine ⟨?_, ?_, tail, i3, ?_⟩
      · simp only [Schedule.observe, hhead, Bool.false_and, Bool.false_eq_true, if_false, hsig,
          ne_eq, not_false_eq_true, if_true, signalsOf, List.map_cons] at i1 ⊢
        rw [i1]
      · simp only [Schedule.observe, hhead, Bool.false_and, Bool.false_eq_true, if_false, hsig,
          ne_eq, not_false_eq_true, if_true, schedulesOf, List.map_cons] at i2 ⊢
        rw [i2]
      · simp only [if_true] at i4
        simp only [Schedule.observe, hhead, Bool.false_and, Bool.false_eq_true, if_false, hsig,
          ne_eq, not_false_eq_true, if_true, resetsOf, Option.toList, List.nil_append]
        rw [i4]
        cases p <;> simp

/-! ## Boundary determinism -/

/-- Counterexample to C21: two runs on the scenario state with the same blocks, hence the
same static sizes, the same schedule (timer and size 100, empty queue, fixed size 100) and
the same knobs, one by thread 0 and one by thread 1, which is not interesting. For thread 0
the counting probe signals at the ninth block only (instruction 105) and one reset leaves
the cumulative count 105; for thread 1 `CountBlock_Then` returns at its gate, no reset is
taken and the probe signals at the blocks 9, 10, 11 and 12. -/
theorem C21_gated_thread_differs :
    scenarioInit.schedule 0 = scenarioInit.schedule 1
    ∧ (ISIMPOINT.observeBlocks (scenarioKnobs false) 0 scenarioCycles scenarioInit).map
        (fun r => (signalsOf r.1, resetsOf r.1))
        = .ok ([0, 0, 0, 0, 0, 0, 0, 0, 1, 0, 0, 0], [105])
    ∧ (ISIMPOINT.observeBlocks (scenarioKnobs false) 1 scenarioCycles scenarioInit).map
        (fun r => (signalsOf r.1, resetsOf r.1))
        = .ok ([0, 0, 0, 0, 0, 0, 0, 0, 1, 1, 1, 1], [])
    ∧ boundaryIndices (scenarioInit.staticSizes scenarioCycles)
        [0, 0, 0, 0, 0, 0, 0, 0, 1, 0, 0, 0] = [105]
    ∧ boundaryIndices (scenarioInit.staticSizes scenarioCycles)
        [0, 0, 0, 0, 0, 0, 0, 0, 1, 1, 1, 1] = [105, 115, 135, 140] := by
  refine ⟨rfl, rfl, rfl, by decide, by decide⟩

/-- C21 as amended: take two runs of the probes by threads marked interesting, with vectors
emitted by the tool (immediately or deferred) and no emission pending at the start, that
agree on the static sizes of the executed blocks and on the slice-size schedule (timer, slice
size, cumulative count, length queue, fixed size). Neither run aborts; the counting probe
signals at the same blocks, so boundaries are declared at the same instruction indices; the
schedule after every counting probe is the same; with the same emission mode everything seen
is the same, and with different modes the cumulative counts after the resets agree reset by
reset, one run possibly having its last reset still pending. What is seen of a run is
`Schedule.observe` of the sizes and the schedule, whatever the block addresses, ids and
thread ids. -/
theorem C21_boundary_determinism (k1 k2 : Knobs) (t1 t2 : THREADID) (s1 s2 : ISIMPOINT)
    (bs1 bs2 : List BlockPtr)
    (hi1 : s1.InterestingThreadLut t1 = true) (hi2 : s2.InterestingThreadLut t2 = true)
    (he1 : k1.KnobEmitVectors = true) (he2 : k2.KnobEmitVectors = true)
    (hp1 : s1._vectorPending t1 = false) (hp2 : s2._vectorPending t2 = false)
    (hfix : k1.KnobSliceSize = k2.KnobSliceSize)
    (hsched : s1.schedule t1 = s2.schedule t2)
    (hsizes : s1.staticSizes bs1 = s2.staticSizes bs2) :
    ∃ (o1 o2 : List ProbeObservation) (f1 f2 : ISIMPOINT),
      ISIMPOINT.observeBlocks k1 t1 bs1 s1 = .ok (o1, f1)
      ∧ ISIMPOINT.observeBlocks k2 t2 bs2 s2 = .ok (o2, f2)
      ∧ signalsOf o1 = signalsOf o2
      ∧ boundaryIndices (s1.staticSizes bs1) (signalsOf o1)
          = boundaryIndices (s2.staticSizes bs2) (signalsOf o2)
      ∧ schedulesOf o1 = schedulesOf o2
      ∧ (k1.KnobDelayVectorEmission = k2.KnobDelayVectorEmission → o1 = o2)
      ∧ (∃ tail : List Int, tail.length ≤ 1
          ∧ (resetsOf o1 = resetsOf o2 ++ tail ∨ resetsOf o2 = resetsOf o1 ++ tail))
      ∧ o1 = Schedule.observe k1.KnobDelayVectorEmission k1.KnobSliceSize
          (s1.staticSizes bs1) (s1.schedule t1) false
      ∧ o2 = Schedule.observe k2.KnobDelayVectorEmission k2.KnobSliceSize
          (s2.staticSizes bs2) (s2.schedule t2) false := by
  obtain ⟨f1, r1⟩ := observeBlocks_refines k1 t1 he1 bs1 s1 false hi1 (fun _ => hp1)
  obtain ⟨f2, r2⟩ := observeBlocks_refines k2 t2 he2 bs2 s2 false hi2 (fun _ => hp2)
  refine ⟨_, _, f1, f2, r1, r2, ?_⟩
  have key : signalsOf (Schedule.observe k1.KnobDelayVectorEmission k1.KnobSliceSize
          (s1.staticSizes bs1) (s1.schedule t1) false)
        = signalsOf (Schedule.observe k2.KnobDelayVectorEmission k2.KnobSliceSize
          (s2.staticSizes bs2) (s2.schedule t2) false)
      ∧ schedulesOf (Schedule.observe k1.KnobDelayVectorEmission k1.KnobSliceSize
          (s1.staticSizes bs1) (s1.schedule t1) false)
        = schedulesOf (Schedule.observe k2.KnobDelayVectorEmission k2.KnobSliceSize
          (s2.staticSizes bs2) (s2.schedule t2) false)
      ∧ (k1.KnobDelayVectorEmission = k2.KnobDelayVectorEmission →
          Schedule.observe k1.KnobDelayVectorEmission k1.KnobSliceSize
            (s1.staticSizes bs1) (s1.schedule t1) false
          = Schedule.observe k2.KnobDelayVectorEmission k2.KnobSliceSize
            (s2.staticSizes bs2) (s2.schedule t2) false)
      ∧ (∃ tail : List Int, tail.length ≤ 1
          ∧ (resetsOf (Schedule.observe k1.KnobDelayVectorEmission k1.KnobSliceSize
                (s1.staticSizes bs1) (s1.schedule t1) false)
              = resetsOf (Schedule.observe k2.KnobDelayVectorEmission k2.KnobSliceSize
                (s2.staticSizes bs2) (s2.schedule t2) false) ++ tail
            ∨ resetsOf (Schedule.observe k2.KnobDelayVectorEmission k2.KnobSliceSize
                (s2.staticSizes bs2) (s2.schedule t2) false)
              = resetsOf (Schedule.observe k1.KnobDelayVectorEmission k1.KnobSliceSize
                (s1.staticSizes bs1) (s1.schedule t1) false) ++ tail)) := by
    rw [hfix, hsched, hsizes]
    cases hd1 : k1.KnobDelayVectorEmission <;> cases hd2 : k2.KnobDelayVectorEmission
    · exact ⟨rfl, rfl, fun _ => rfl, [], by simp, Or.inl (by simp)⟩
    · obtain ⟨m1, m2, tail, m3, m4⟩ := Schedule.observe_modes k2.KnobSliceSize
        (s2.staticSizes bs2) (s2.schedule t2) (s2.schedule t2) false rfl
      simp only [Bool.false_eq_true, if_false, List.nil_append] at m4
      exact ⟨m1, m2, (fun h => by cases h), tail, m3, Or.inl m4⟩
    · obtain ⟨m1, m2, tail, m3, m4⟩ := Schedule.observe_modes k2.KnobSliceSize
        (s2.staticSizes bs2) (s2.schedule t2) (s2.schedule t2) false rfl
      simp only [Bool.false_eq_true, if_false, List.nil_append] at m4
      exact ⟨m1.symm, m2.symm, (fun h => by cases h), tail, m3, Or.inr m4⟩
    · exact ⟨rfl, rfl, fun _ => rfl, [], by simp, Or.inl (by simp)⟩
  obtain ⟨q1, q2, q3, q4⟩ := key
  exact ⟨q1, by rw [q1, hsizes], q2, q3, q4, rfl, rfl⟩

/-- Witness of C21 as amended: thread 0 with immediate emission on the regions of the
scenarios and thread 1 with deferred emission on the moved regions (other addresses, keys and
ids, same sizes) see the boundary at the same block, instruction 105, and the same cumulative
count 105 after the reset. -/
theorem C21_boundary_determinism_witness :
    ∃ (o1 o2 : List ProbeObservation) (f1 f2 : ISIMPOINT),
      ISIMPOINT.observeBlocks (scenarioKnobs false) 0 scenarioCycles scenarioD = .ok (o1, f1)
      ∧ ISIMPOINT.observeBlocks (scenarioKnobs true) 1 scenarioMovedCycles scenarioMoved
          = .ok (o2, f2)
      ∧ signalsOf o1 = [0, 0, 0, 0, 0, 0, 0, 0, 1, 0, 0, 0]
      ∧ signalsOf o2 = [0, 0, 0, 0, 0, 0, 0, 0, 1, 0, 0, 0]
      ∧ boundaryIndices (scenarioD.staticSizes scenarioCycles) (signalsOf o1) = [105]
      ∧ resetsOf o1 = [105] ∧ resetsOf o2 = [105] := by
  obtain ⟨o1, o2, f1, f2, h1, h2, h3, _, _, _, _, h8, h9⟩ :=
    C21_boundary_determinism (scenarioKnobs false) (scenarioKnobs true) 0 1 scenarioD
      scenarioMoved scenarioCycles scenarioMovedCycles rfl rfl rfl rfl rfl rfl rfl rfl
      (by decide)
  have e1 : signalsOf o1 = [0, 0, 0, 0, 0, 0, 0, 0, 1, 0, 0, 0] := by rw [h8]; decide
  have e2 : resetsOf o1 = [105] := by rw [h8]; decide
  have e3 : resetsOf o2 = [105] := by rw [h9]; decide
  refine ⟨o1, o2, f1, f2, h1, h2, e1, by rw [← h3, e1], ?_, e2, e3⟩
  rw [e1]
  decide

/-! ## Block keys -/

/-- C22: the constructor of `BLOCK_KEY` fails its assertion when `end < start`; otherwise it
succeeds and `Start()`, `End()` and `Size()` return the three arguments; every key that the
constructor returns satisfies `End() >= Start()`. -/
theorem C22_BLOCK_KEY_invariant (s e : ADDRINT) (z : Nat) :
    (e < s → BLOCK_KEY.make s e z = .error "ASSERTX(_end >= _start)")
    ∧ (s ≤ e → ∃ key, BLOCK_KEY.make s e z = .ok key
        ∧ key.Start = s ∧ key.End = e ∧ key.Size = z)
    ∧ (∀ key, BLOCK_KEY.make s e z = .ok key →
        key.End ≥ key.Start ∧ key.Start = s ∧ key.End = e ∧ key.Size = z) := by
  refine ⟨fun h => ?_, fun h => ?_, fun key h => ?_⟩
  · have h1 : ¬ e ≥ s := Nat.not_le.mpr h
    simp [BLOCK_KEY.make, h1]
  · have h1 : e ≥ s := h
    exact ⟨⟨s, e, z⟩, by simp [BLOCK_KEY.make, h1], rfl, rfl, rfl⟩
  · by_cases h1 : e ≥ s
    · simp only [BLOCK_KEY.make, h1, if_true, Except.ok.injEq] at h
      subst h
      exact ⟨h1, rfl, rfl, rfl⟩
    · simp [BLOCK_KEY.make, h1] at h

/-- Witness of C22: the key of region 0 is constructed with its three arguments, and the
constructor fails when the two addresses are exchanged. -/
theorem C22_BLOCK_KEY_invariant_witness :
    BLOCK_KEY.make 4132 4096 40 = .error "ASSERTX(_end >= _start)"
    ∧ ∃ key, BLOCK_KEY.make 4096 4132 40 = .ok key
        ∧ key.Start = 4096 ∧ key.End = 4132 ∧ key.Size = 40 :=
  ⟨(C22_BLOCK_KEY_invariant 4132 4096 40).1 (by decide),
    (C22_BLOCK_KEY_invariant 4096 4132 40).2.1 (by decide)⟩

/-! ## Where the counting probe signals -/

theorem instructionsAfter_cons (n : Int) (r : List Int) (i : Nat) :
    instructionsAfter (n :: r) (i + 1) = n + instructionsAfter r i := by
  simp [instructionsAfter]

theorem staticSizes_CountBlock_If (b : BlockPtr) (tid : THREADID) (s : ISIMPOINT)
    (bs : List BlockPtr) :
    (ISIMPOINT.CountBlock_If b tid s).2.staticSizes bs = s.staticSizes bs := by
  simp [ISIMPOINT.staticSizes, (CountBlock_If_step b tid s).2.2.2.1]

theorem countBlocks_signals (tid : THREADID) :
    ∀ (bs : List BlockPtr) (s : ISIMPOINT) (S : Int),
      (s.profiling.slice tid).SliceTimer = S →
      (∀ i, i < bs.length → InINT64 (S - instructionsAfter (s.staticSizes bs) (i + 1))) →
      (ISIMPOINT.countBlocks tid bs s).1
          = (List.range bs.length).map
              (fun i => if S < instructionsAfter (s.staticSizes bs) (i + 1) then 1 else 0)
      ∧ ((ISIMPOINT.countBlocks tid bs s).2.profiling.slice tid).SliceTimer
          = S - instructionsAfter (s.staticSizes bs) bs.length
  | [], s, S, hT, _ => by
    simp [ISIMPOINT.countBlocks, instructionsAfter, hT]
  | b :: rest, s, S, hT, hr => by
    obtain ⟨e1, e2, _, _, _, _⟩ := CountBlock_If_step b tid s
    have hsz : s.staticSizes (b :: rest)
        = (s.profiling.blocks b).StaticInstructionCount :: s.staticSizes rest := rfl
    have h0 := hr 0 (by simp)
    rw [hsz, instructionsAfter_cons] at h0
    have hz : instructionsAfter (s.staticSizes rest) 0 = 0 := by simp [instructionsAfter]
    rw [hz, add_zero] at h0
    have ht : toINT64 (S - (s.profiling.blocks b).StaticInstructionCount)
        = S - (s.profiling.blocks b).StaticInstructionCount := toINT64_of_InINT64 _ h0
    rw [hT, ht] at e1 e2
    have hr1 : ∀ i, i < rest.length →
        InINT64 (S - (s.profiling.blocks b).StaticInstructionCount
          - instructionsAfter ((ISIMPOINT.CountBlock_If b tid s).2.staticSizes rest) (i + 1)) := by
      intro i hi
      have h := hr (i + 1) (by simpa using hi)
      rw [hsz, instructionsAfter_cons] at h
      rw [staticSizes_CountBlock_If]
      rw [show S - (s.profiling.blocks b).StaticInstructionCount
          - instructionsAfter (s.staticSizes rest) (i + 1)
        = S - ((s.profiling.blocks b).StaticInstructionCount
          + instructionsAfter (s.staticSizes rest) (i + 1)) by ring]
      exact h
    obtain ⟨ih1, ih2⟩ := countBlocks_signals tid rest (ISIMPOINT.CountBlock_If b tid s).2
      (S - (s.profiling.blocks b).StaticInstructionCount) e1 hr1
    rw [staticSizes_CountBlock_If] at ih1 ih2
    constructor
    · simp only [ISIMPOINT.countBlocks, List.length_cons, List.range_succ_eq_map, List.map_cons,
        List.map_map, ih1, e2, hsz]
      congr 1
      · simp only [instructionsAfter_cons, hz, add_zero]
        by_cases hc : S < (s.profiling.blocks b).StaticInstructionCount
        · have hc1 : S - (s.profiling.blocks b).StaticInstructionCount < 0 := by omega
          simp [hc, hc1]
        · have hc1 : ¬ S - (s.profiling.blocks b).StaticInstructionCount < 0 := by omega
          simp [hc, hc1]
      · apply List.map_congr_left
        intro i _
        simp only [Function.comp, instructionsAfter_cons]
        by_cases hc : S < (s.profiling.blocks b).StaticInstructionCount
            + instructionsAfter (s.staticSizes rest) (i + 1)
        · have hc1 : S - (s.profiling.blocks b).StaticInstructionCount
              < instructionsAfter (s.staticSizes rest) (i + 1) := by omega
          simp [hc, hc1]
        · have hc1 : ¬ S - (s.profiling.blocks b).StaticInstructionCount
              < instructionsAfter (s.staticSizes rest) (i + 1) := by omega
          simp [hc, hc1]
    · simp only [ISIMPOINT.countBlocks, List.length_cons, ih2, hsz, instructionsAfter_cons]
      ring

/-- Counterexample to C23: in scenario A (slice size 100) the eighth block is the first one
after which the instruction count since the reset is at least 100 (it is exactly 100), yet
`CountBlock_If` returns zero for it as for the seven blocks before; it signals at the ninth
block only. -/
theorem C23_exact_size_does_not_signal :
    (scenarioInit.profiling.slice 0).SliceTimer = 100
    ∧ (scenarioInit.profiling.slice 0).CurrentSliceSize = 100
    ∧ (List.range 9).map
        (instructionsAfter (scenarioInit.staticSizes [0, 1, 2, 0, 1, 2, 0, 1, 2]))
        = [0, 10, 30, 35, 45, 65, 70, 80, 100]
    ∧ (ISIMPOINT.countBlocks 0 [0, 1, 2, 0, 1, 2, 0, 1, 2] scenarioInit).1
        = [0, 0, 0, 0, 0, 0, 0, 0, 1] := by
  refine ⟨rfl, rfl, by decide, rfl⟩

/-- C23 as amended: right after a reset (`SliceTimer = CurrentSliceSize = S`), as long as the
timer stays within `INT64`, `CountBlock_If` returns nonzero at a block exactly when the static
instruction count executed since the reset, that block included, is strictly greater than
`S`; so the first signal comes at the first block after which the count exceeds `S`, and a
block that brings the count to exactly `S` does not signal. -/
theorem C23_first_boundary (tid : THREADID) (s : ISIMPOINT) (bs : List BlockPtr) (S : Int)
    (hT : (s.profiling.slice tid).SliceTimer = S)
    (hC : (s.profiling.slice tid).CurrentSliceSize = S)
    (hr : ∀ i, i < bs.length → InINT64 (S - instructionsAfter (s.staticSizes bs) (i + 1))) :
    (ISIMPOINT.countBlocks tid bs s).1.length = bs.length
    ∧ (∀ i, i < bs.length →
        (ISIMPOINT.countBlocks tid bs s).1[i]?
          = some (if S < instructionsAfter (s.staticSizes bs) (i + 1) then 1 else 0))
    ∧ (∀ j, j < bs.length →
        (∀ i, i < j → instructionsAfter (s.staticSizes bs) (i + 1) ≤ S) →
        S < instructionsAfter (s.staticSizes bs) (j + 1) →
        (∀ i, i < j → (ISIMPOINT.countBlocks tid bs s).1[i]? = some 0)
        ∧ (ISIMPOINT.countBlocks tid bs s).1[j]? = some 1)
    ∧ ((ISIMPOINT.countBlocks tid bs s).2.profiling.slice tid).SliceTimer
        = (s.profiling.slice tid).CurrentSliceSize
          - instructionsAfter (s.staticSizes bs) bs.length := by
  obtain ⟨h1, h2⟩ := countBlocks_signals tid bs s S hT hr
  have hget : ∀ i, i < bs.length →
      (ISIMPOINT.countBlocks tid bs s).1[i]?
        = some (if S < instructionsAfter (s.staticSizes bs) (i + 1) then 1 else 0) := by
    intro i hi
    rw [h1]
    simp [List.getElem?_map, List.getElem?_range hi]
  refine ⟨by rw [h1]; simp, hget, ?_, by rw [h2, hC]⟩
  intro j hj hbefore hat
  constructor
  · intro i hi
    rw [hget i (by omega)]
    have := hbefore i hi
    have hn : ¬ S < instructionsAfter (s.staticSizes bs) (i + 1) := by omega
    simp [hn]
  · rw [hget j hj]
    simp [hat]

/-- Witness of C23 as amended: in scenario A the count first exceeds 100 after the ninth
block (105 instructions); the first eight calls return zero and the ninth returns one. -/
theorem C23_first_boundary_witness :
    (∀ i, i < 8 →
      (ISIMPOINT.countBlocks 0 [0, 1, 2, 0, 1, 2, 0, 1, 2] scenarioInit).1[i]? = some 0)
    ∧ (ISIMPOINT.countBlocks 0 [0, 1, 2, 0, 1, 2, 0, 1, 2] scenarioInit).1[8]? = some 1 :=
  (C23_first_boundary 0 scenarioInit [0, 1, 2, 0, 1, 2, 0, 1, 2] 100 rfl rfl
    (by decide)).2.2.1 8 (by decide) (by decide) (by decide)

/-! ## The previously executed block -/

theorem ResetSliceTimer_last_block (k : Knobs) (t tid : THREADID) (s : ISIMPOINT) :
    ((ISIMPOINT.ResetSliceTimer k t s).profiling.slice tid).last_block
      = (s.profiling.slice tid).last_block := by
  unfold ISIMPOINT.ResetSliceTimer
  by_cases hi : s.InterestingThreadLut t = true
  · simp only [hi, Bool.not_true, Bool.false_eq_true, if_false]
    by_cases h : tid = t
    · subst h
      cases (s.profiling.slice tid).length_queue <;> simp [PROFILING.setSlice]
    · cases (s.profiling.slice t).length_queue <;> simp [PROFILING.setSlice, Function.update, h]
  · simp [hi]

theorem CountBlock_Then_last_block (k : Knobs) (b : BlockPtr) (t tid : THREADID)
    (s : ISIMPOINT) :
    ((ISIMPOINT.CountBlock_Then k b t s).profiling.slice tid).last_block
      = (s.profiling.slice tid).last_block := by
  unfold ISIMPOINT.CountBlock_Then
  split_ifs
  · rfl
  · rfl
  · rfl
  · exact ResetSliceTimer_last_block k t tid s

theorem EmitVectorForFriend_last_block (k : Knobs) (m : ADDRINT) (i o : Nat) (t tid : THREADID)
    (s s1 : ISIMPOINT) (hrun : ISIMPOINT.EmitVectorForFriend k m i t o s = .ok s1) :
    (s1.profiling.slice tid).last_block = (s.profiling.slice tid).last_block := by
  unfold ISIMPOINT.EmitVectorForFriend at hrun
  split_ifs at hrun
  · rw [← Except.ok.inj hrun]
  · rw [← Except.ok.inj hrun]
    exact ResetSliceTimer_last_block k t tid _

theorem DelayedVectorEmission_last_block (k : Knobs) (b : BlockPtr) (t tid : THREADID)
    (s s1 : ISIMPOINT) (hrun : ISIMPOINT.DelayedVectorEmission k b t s = .ok s1) :
    (s1.profiling.slice tid).last_block = (s.profiling.slice tid).last_block := by
  unfold ISIMPOINT.DelayedVectorEmission at hrun
  split_ifs at hrun
  · rw [← Except.ok.inj hrun]
  · exact EmitVectorForFriend_last_block k _ _ _ t tid s s1 hrun

theorem Callback.run_last_block (k : Knobs) (fini : THREADID → ISIMPOINT → ISIMPOINT)
    (t tid : THREADID) (cb : Callback) (s s1 : ISIMPOINT)
    (hf : cb.isThreadFini = false) (hrun : Callback.run k fini t cb s = .ok s1) :
    (s1.profiling.slice tid).last_block
      = if t = tid ∧ cb.executes?.isSome then cb.executes?
        else (s.profiling.slice tid).last_block := by
  cases cb with
  | GetFirstIP_If =>
    rw [← Except.ok.inj hrun]
    simp [Callback.executes?]
  | GetFirstIP_Then ip imgID =>
    rw [← Except.ok.inj hrun]
    simp only [Callback.executes?, Option.isSome_none, Bool.false_eq_true, and_false, if_false]
    unfold ISIMPOINT.GetFirstIP_Then
    split_ifs
    · rfl
    · by_cases h : tid = t
      · subst h; simp [PROFILING.setSlice]
      · simp [PROFILING.setSlice, Function.update, h]
  | CountRepIterations f =>
    rw [← Except.ok.inj hrun]
    simp only [Callback.executes?, Option.isSome_none, Bool.false_eq_true, and_false, if_false]
    unfold ISIMPOINT.CountRepIterations
    split_ifs
    · rfl
    · by_cases h : tid = t
      · subst h; simp [PROFILING.setSlice]
      · simp [PROFILING.setSlice, Function.update, h]
  | CountBlock_If b =>
    rw [← Except.ok.inj hrun]
    by_cases h : t = tid
    · subst h
      simp [Callback.executes?, ISIMPOINT.CountBlock_If, PROFILING.setSlice]
    · have h1 : tid ≠ t := fun e => h e.symm
      simp [Callback.executes?, ISIMPOINT.CountBlock_If, PROFILING.setSlice,
        PROFILING.modifyBlock, Function.update, h, h1]
  | CountBlockAndTrackPrevious_If b =>
    rw [← Except.ok.inj hrun]
    by_cases h : t = tid
    · subst h
      simp [Callback.executes?, ISIMPOINT.CountBlockAndTrackPrevious_If, PROFILING.setSlice]
    · have h1 : tid ≠ t := fun e => h e.symm
      simp [Callback.executes?, ISIMPOINT.CountBlockAndTrackPrevious_If, PROFILING.setSlice,
        PROFILING.modifyBlock, Function.update, h, h1]
  | ResetSliceTimer =>
    rw [← Except.ok.inj hrun]
    simp only [Callback.executes?, Option.isSome_none, Bool.false_eq_true, and_false, if_false]
    exact ResetSliceTimer_last_block k t tid s
  | CheckDelayedVectorEmission =>
    rw [← Except.ok.inj hrun]
    simp [Callback.executes?]
  | EmitVectorForFriend m i o =>
    simp only [Callback.executes?, Option.isSome_none, Bool.false_eq_true, and_false, if_false]
    exact EmitVectorForFriend_last_block k m i o t tid s s1 hrun
  | DelayedVectorEmission b =>
    simp only [Callback.executes?, Option.isSome_none, Bool.false_eq_true, and_false, if_false]
    exact DelayedVectorEmission_last_block k b t tid s s1 hrun
  | CountBlock_Then b =>
    rw [← Except.ok.inj hrun]
    simp only [Callback.executes?, Option.isSome_none, Bool.false_eq_true, and_false, if_false]
    exact CountBlock_Then_last_block k b t tid s
  | ThreadFini => simp [Callback.isThreadFini] at hf

theorem Callback.runEvents_last_block (k : Knobs) (fini : THREADID → ISIMPOINT → ISIMPOINT)
    (tid : THREADID) :
    ∀ (events : List (THREADID × Callback)) (s s1 : ISIMPOINT),
      (∀ e ∈ events, e.2.isThreadFini = false) →
      Callback.runEvents k fini events s = .ok s1 →
      (s1.profiling.slice tid).last_block
        = lastExecuted tid (s.profiling.slice tid).last_block events
  | [], s, s1, _, hrun => by
    rw [← Except.ok.inj hrun]
    rfl
  | e :: rest, s, s1, hf, hrun => by
    cases hstep : Callback.run k fini e.1 e.2 s with
    | error err => simp [Callback.runEvents, hstep] at hrun
    | ok s2 =>
      simp only [Callback.runEvents, hstep] at hrun
      have h1 := Callback.run_last_block k fini e.1 tid e.2 s s2
        (hf e (List.mem_cons_self _ _)) hstep
      have h2 := Callback.runEvents_last_block k fini tid rest s2 s1
        (fun x hx => hf x (List.mem_cons_of_mem _ hx)) hrun
      rw [h2, h1]
      rfl

/-- C24: `CountBlockAndTrackPrevious_If(b, tid)` hands to `b.Execute` the block that
`slice[tid].last_block` held before the call (`NULL` when it held none) and then sets
`last_block` to `b`; the new slice state of the thread, hence `SliceTimer`, and the returned
signal are those of `CountBlock_If(b, tid)` from the same state. After any run of callbacks
(the thread-finish callback apart) from a state where the thread has executed no block,
`last_block` is the block that the thread executed most recently. -/
theorem C24_CountBlockAndTrackPrevious_If (k : Knobs) (b : BlockPtr) (tid : THREADID)
    (s : ISIMPOINT) :
    (ISIMPOINT.CountBlockAndTrackPrevious_If k b tid s).2.profiling.blocks b
        = BLOCK.ExecutePrev k tid
            ((s.profiling.slice tid).last_block.map s.profiling.blocks) (s.profiling.blocks b)
    ∧ ((ISIMPOINT.CountBlockAndTrackPrevious_If k b tid s).2.profiling.slice tid).last_block
        = some b
    ∧ (ISIMPOINT.CountBlockAndTrackPrevious_If k b tid s).2.profiling.slice
        = (ISIMPOINT.CountBlock_If b tid s).2.profiling.slice
    ∧ ((ISIMPOINT.CountBlockAndTrackPrevious_If k b tid s).2.profiling.slice tid).SliceTimer
        = ((ISIMPOINT.CountBlock_If b tid s).2.profiling.slice tid).SliceTimer
    ∧ (ISIMPOINT.CountBlockAndTrackPrevious_If k b tid s).1 = (ISIMPOINT.CountBlock_If b tid s).1
    ∧ (∀ (k0 : Knobs) (fini : THREADID → ISIMPOINT → ISIMPOINT)
        (events : List (THREADID × Callback)) (s0 : ISIMPOINT),
        (s0.profiling.slice tid).last_block = none →
        (∀ e ∈ events, e.2.isThreadFini = false) →
        Callback.runEvents k0 fini events s0 = .ok s →
        (s.profiling.slice tid).last_block = lastExecuted tid none events) := by
  have hstatic : (BLOCK.ExecutePrev k tid
      ((s.profiling.slice tid).last_block.map s.profiling.blocks)
      (s.profiling.blocks b)).StaticInstructionCount
        = ((s.profiling.blocks b).Execute tid).StaticInstructionCount := by
    unfold BLOCK.ExecutePrev
    split_ifs
    · cases (s.profiling.slice tid).last_block.map s.profiling.blocks <;> rfl
    · rfl
  have hslice : (ISIMPOINT.CountBlockAndTrackPrevious_If k b tid s).2.profiling.slice
      = (ISIMPOINT.CountBlock_If b tid s).2.profiling.slice := by
    simp only [ISIMPOINT.CountBlockAndTrackPrevious_If, ISIMPOINT.CountBlock_If,
      PROFILING.setSlice, PROFILING.modifyBlock, Function.update_same, hstatic]
  refine ⟨?_, ?_, hslice, by rw [hslice], ?_, ?_⟩
  · simp [ISIMPOINT.CountBlockAndTrackPrevious_If, PROFILING.setSlice, PROFILING.modifyBlock]
  · simp [ISIMPOINT.CountBlockAndTrackPrevious_If, PROFILING.setSlice]
  · simp only [ISIMPOINT.CountBlockAndTrackPrevious_If, ISIMPOINT.CountBlock_If,
      PROFILING.setSlice, PROFILING.modifyBlock, Function.update_same, hstatic]
  · intro k0 fini events s0 h0 hf hrun
    rw [Callback.runEvents_last_block k0 fini tid events s0 s hf hrun, h0]

/-- Witness of C24: thread 0 of the scenario state executes regions 0 and 1 (thread 1
executes region 2 in between), so its `last_block` is region 1; with transition tracking on,
`CountBlockAndTrackPrevious_If` for region 2 then counts one transition from the block of id
1 and leaves `last_block` at region 2. -/
theorem C24_CountBlockAndTrackPrevious_If_witness :
    ((scenarioState (Callback.runEvents (scenarioKnobs false) (fun _ s => s)
        [(0, .CountBlock_If 0), (1, .CountBlock_If 2), (0, .CountBlock_If 1)]
        scenarioInit)).profiling.slice 0).last_block = some 1
    ∧ ((ISIMPOINT.CountBlockAndTrackPrevious_If
        { scenarioKnobs false with KnobEmitPrevBlockCounts := true } 2 0
        (scenarioState (Callback.runEvents (scenarioKnobs false) (fun _ s => s)
          [(0, .CountBlock_If 0), (1, .CountBlock_If 2), (0, .CountBlock_If 1)]
          scenarioInit))).2.profiling.blocks 2)._blockCountMap 0 = [(1, 1)]
    ∧ ((ISIMPOINT.CountBlockAndTrackPrevious_If
        { scenarioKnobs false with KnobEmitPrevBlockCounts := true } 2 0
        (scenarioState (Callback.runEvents (scenarioKnobs false) (fun _ s => s)
          [(0, .CountBlock_If 0), (1, .CountBlock_If 2), (0, .CountBlock_If 1)]
          scenarioInit))).2.profiling.slice 0).last_block = some 2 := by
  obtain ⟨h1, h2, _, _, _, h6⟩ := C24_CountBlockAndTrackPrevious_If
    { scenarioKnobs false with KnobEmitPrevBlockCounts := true } 2 0
    (scenarioState (Callback.runEvents (scenarioKnobs false) (fun _ s => s)
      [(0, .CountBlock_If 0), (1, .CountBlock_If 2), (0, .CountBlock_If 1)] scenarioInit))
  refine ⟨?_, ?_, h2⟩
  · rw [h6 (scenarioKnobs false) (fun _ s => s)
      [(0, .CountBlock_If 0), (1, .CountBlock_If 2), (0, .CountBlock_If 1)] scenarioInit
      rfl (by decide) rfl]
    decide
  · rw [h1]
    rfl

/-! ## The loop tracker: largest number of iterations -/

theorem LOOP_TRACKER.call_other (t tid : THREADID) (h : t ≠ tid) (c : LoopCall)
    (li : LoopInfo) :
    (LOOP_TRACKER.call t c li).insideLoop tid = li.insideLoop tid
    ∧ (LOOP_TRACKER.call t c li).entryCounter tid = li.entryCounter tid
    ∧ (LOOP_TRACKER.call t c li).tempEntryCounter tid = li.tempEntryCounter tid
    ∧ (LOOP_TRACKER.call t c li).startCounter tid = li.startCounter tid
    ∧ (LOOP_TRACKER.call t c li).endCounter tid = li.endCounter tid := by
  have h1 : tid ≠ t := fun e => h e.symm
  cases c with
  | enterLoop =>
    simp only [LOOP_TRACKER.call, LOOP_TRACKER.enterLoop]
    split_ifs <;> simp [Function.update, h1]
  | enterLoopExitSink =>
    simp only [LOOP_TRACKER.call, LOOP_TRACKER.enterLoopExitSink]
    split_ifs <;> simp [Function.update, h1]

theorem LOOP_TRACKER.enterLoop_inside (li : LoopInfo) (tid : THREADID)
    (hin : li.insideLoop tid = true) :
    (LOOP_TRACKER.enterLoop li tid).insideLoop tid = true
    ∧ (LOOP_TRACKER.enterLoop li tid).entryCounter tid = toINT64 (li.entryCounter tid + 1)
    ∧ (LOOP_TRACKER.enterLoop li tid).tempEntryCounter tid = li.tempEntryCounter tid
    ∧ (LOOP_TRACKER.enterLoop li tid).startCounter tid = li.startCounter tid
    ∧ (LOOP_TRACKER.enterLoop li tid).endCounter tid = li.endCounter tid := by
  simp [LOOP_TRACKER.enterLoop, hin]

theorem LOOP_TRACKER.enterLoop_outside (li : LoopInfo) (tid : THREADID)
    (hin : li.insideLoop tid = false) :
    (LOOP_TRACKER.enterLoop li tid).insideLoop tid = true
    ∧ (LOOP_TRACKER.enterLoop li tid).entryCounter tid = toINT64 (li.entryCounter tid + 1)
    ∧ (LOOP_TRACKER.enterLoop li tid).tempEntryCounter tid = toINT64 (li.entryCounter tid + 1)
    ∧ (LOOP_TRACKER.enterLoop li tid).startCounter tid = li.startCounter tid
    ∧ (LOOP_TRACKER.enterLoop li tid).endCounter tid = li.endCounter tid := by
  simp [LOOP_TRACKER.enterLoop, hin]

theorem LOOP_TRACKER.enterLoopExitSink_inside (li : LoopInfo) (tid : THREADID)
    (hin : li.insideLoop tid = true) :
    (LOOP_TRACKER.enterLoopExitSink li tid).insideLoop tid = false
    ∧ (LOOP_TRACKER.enterLoopExitSink li tid).entryCounter tid = li.entryCounter tid
    ∧ (toINT64 (li.endCounter tid - li.startCounter tid) < li.lastVisitIterations tid →
        (LOOP_TRACKER.enterLoopExitSink li tid).startCounter tid = li.tempEntryCounter tid
        ∧ (LOOP_TRACKER.enterLoopExitSink li tid).endCounter tid = li.entryCounter tid)
    ∧ (¬ toINT64 (li.endCounter tid - li.startCounter tid) < li.lastVisitIterations tid →
        (LOOP_TRACKER.enterLoopExitSink li tid).startCounter tid = li.startCounter tid
        ∧ (LOOP_TRACKER.enterLoopExitSink li tid).endCounter tid = li.endCounter tid) := by
  refine ⟨?_, ?_, ?_, ?_⟩
  · simp only [LOOP_TRACKER.enterLoopExitSink, hin, if_true]
    split_ifs <;> simp
  · simp only [LOOP_TRACKER.enterLoopExitSink, hin, if_true]
    split_ifs <;> rfl
  · intro h
    have h1 : toINT64 (li.endCounter tid - li.startCounter tid)
        < LoopInfo.lastVisitIterations
            { li with insideLoop := Function.update li.insideLoop tid false } tid := h
    simp [LOOP_TRACKER.enterLoopExitSink, hin, h1]
  · intro h
    have h1 : ¬ toINT64 (li.endCounter tid - li.startCounter tid)
        < LoopInfo.lastVisitIterations
            { li with insideLoop := Function.update li.insideLoop tid false } tid := h
    simp [LOOP_TRACKER.enterLoopExitSink, hin, h1]

theorem enterLoopCalls_cons (tid : THREADID) (e : THREADID × LoopCall)
    (rest : List (THREADID × LoopCall)) :
    enterLoopCalls tid (e :: rest)
      = (if e.1 = tid ∧ e.2 = .enterLoop then 1 else 0) + enterLoopCalls tid rest := by
  unfold enterLoopCalls
  by_cases h1 : e.1 = tid <;> by_cases h2 : e.2 = .enterLoop <;>
    simp [List.filter_cons, h1, h2]
  omega

theorem LOOP_TRACKER.calls_largest (tid : THREADID) :
    ∀ (events : List (THREADID × LoopCall)) (li : LoopInfo) (inside : Bool) (cur E : Nat)
      (M : Int),
      li.entryCounter tid = (E : Int) →
      li.insideLoop tid = inside →
      (inside = true → li.tempEntryCounter tid = (E : Int) - (cur : Int) ∧ cur ≤ E) →
      0 ≤ li.startCounter tid →
      li.startCounter tid ≤ li.endCounter tid →
      li.endCounter tid ≤ (E : Int) →
      li.endCounter tid - li.startCounter tid = M →
      E + enterLoopCalls tid events < 9223372036854775808 →
      LOOP_TRACKER.reported tid events li
          = (entryIterationsFrom tid events inside cur).map Int.ofNat
      ∧ (LOOP_TRACKER.calls events li).endCounter tid
          - (LOOP_TRACKER.calls events li).startCounter tid
          = (LOOP_TRACKER.reported tid events li).foldl max M
  | [], li, inside, cur, E, M, _, _, _, _, _, _, hM, _ => by
    simp [LOOP_TRACKER.reported, entryIterationsFrom, LOOP_TRACKER.calls, hM]
  | e :: rest, li, inside, cur, E, M, hE, hin, htemp, hs0, hse, heE, hM, hlen => by
    rw [enterLoopCalls_cons] at hlen
    by_cases ht : e.1 = tid
    · obtain ⟨t, c⟩ := e
      simp only at ht
      subst ht
      cases c with
      | enterLoop =>
        simp only [and_self, if_true] at hlen
        have hE1 : toINT64 (li.entryCounter t + 1) = ((E + 1 : Nat) : Int) := by
          rw [hE]
          push_cast
          apply toINT64_of_InINT64
          unfold InINT64
          omega
        cases hinside : inside with
        | true =>
          rw [hinside] at hin htemp
          obtain ⟨a1, a2, a3, a4, a5⟩ := LOOP_TRACKER.enterLoop_inside li t hin
          obtain ⟨htv, hcur⟩ := htemp rfl
          have ih := LOOP_TRACKER.calls_largest t rest (LOOP_TRACKER.enterLoop li t) true
            (cur + 1) (E + 1) M (by rw [a2, hE1]) a1
            (fun _ => ⟨by rw [a3, htv]; push_cast; ring, by omega⟩)
            (by rw [a4]; exact hs0) (by rw [a4, a5]; exact hse)
            (by rw [a5]; push_cast; omega) (by rw [a4, a5]; exact hM) (by omega)
          simpa [LOOP_TRACKER.reported, entryIterationsFrom, LOOP_TRACKER.calls,
            LOOP_TRACKER.call] using ih
        | false =>
          rw [hinside] at hin
          obtain ⟨a1, a2, a3, a4, a5⟩ := LOOP_TRACKER.enterLoop_outside li t hin
          have ih := LOOP_TRACKER.calls_largest t rest (LOOP_TRACKER.enterLoop li t) true
            0 (E + 1) M (by rw [a2, hE1]) a1
            (fun _ => ⟨by rw [a3, hE1]; push_cast; ring, by omega⟩)
            (by rw [a4]; exact hs0) (by rw [a4, a5]; exact hse)
            (by rw [a5]; push_cast; omega) (by rw [a4, a5]; exact hM) (by omega)
          simpa [LOOP_TRACKER.reported, entryIterationsFrom, LOOP_TRACKER.calls,
            LOOP_TRACKER.call] using ih
      | enterLoopExitSink =>
        have hlen1 : E + enterLoopCalls t rest < 9223372036854775808 := by
          simpa using hlen
        cases hinside : inside with
        | true =>
          rw [hinside] at hin htemp
          obtain ⟨htv, hcur⟩ := htemp rfl
          obtain ⟨a1, a2, a3, a4⟩ := LOOP_TRACKER.enterLoopExitSink_inside li t hin
          have hv : li.lastVisitIterations t = (cur : Int) := by
            unfold LoopInfo.lastVisitIterations
            rw [hE, htv, show (E : Int) - ((E : Int) - (cur : Int)) = (cur : Int) by ring]
            apply toINT64_of_InINT64
            unfold InINT64
            omega
          have hd : toINT64 (li.endCounter t - li.startCounter t) = M := by
            rw [hM]
            apply toINT64_of_InINT64
            unfold InINT64
            omega
          rw [hd, hv] at a3 a4
          have hstep : 0 ≤ (LOOP_TRACKER.enterLoopExitSink li t).startCounter t
              ∧ (LOOP_TRACKER.enterLoopExitSink li t).startCounter t
                  ≤ (LOOP_TRACKER.enterLoopExitSink li t).endCounter t
              ∧ (LOOP_TRACKER.enterLoopExitSink li t).endCounter t ≤ (E : Int)
              ∧ (LOOP_TRACKER.enterLoopExitSink li t).endCounter t
                  - (LOOP_TRACKER.enterLoopExitSink li t).startCounter t
                = max M (cur : Int) := by
            by_cases hlt : M < (cur : Int)
            · obtain ⟨b1, b2⟩ := a3 hlt
              rw [b1, b2, htv, hE, max_eq_right (le_of_lt hlt)]
              refine ⟨by omega, by omega, le_refl _, by ring⟩
            · obtain ⟨b1, b2⟩ := a4 hlt
              rw [b1, b2, max_eq_left (not_lt.mp hlt)]
              exact ⟨hs0, hse, heE, hM⟩
          obtain ⟨c1, c2, c3, c4⟩ := hstep
          have ih := LOOP_TRACKER.calls_largest t rest (LOOP_TRACKER.enterLoopExitSink li t)
            false 0 E (max M (cur : Int)) (by rw [a2, hE]) a1 (fun h => by cases h)
            c1 c2 c3 c4 hlen1
          simp only [LOOP_TRACKER.reported, entryIterationsFrom, LOOP_TRACKER.calls,
            LOOP_TRACKER.call, hin, and_self, if_true, List.map_cons, List.foldl_cons, hv]
          exact ⟨by rw [ih.1]; rfl, ih.2⟩
        | false =>
          rw [hinside] at hin
          have hsame : LOOP_TRACKER.enterLoopExitSink li t = li := by
            simp [LOOP_TRACKER.enterLoopExitSink, hin]
          have ih := LOOP_TRACKER.calls_largest t rest li false cur E M hE hin
            (fun h => by cases h) hs0 hse heE hM hlen1
          simpa [LOOP_TRACKER.reported, entryIterationsFrom, LOOP_TRACKER.calls,
            LOOP_TRACKER.call, hin, hsame] using ih
    · obtain ⟨o1, o2, o3, o4, o5⟩ := LOOP_TRACKER.call_other e.1 tid ht e.2 li
      have hlen1 : E + enterLoopCalls tid rest < 9223372036854775808 := by
        simpa [ht] using hlen
      have ih := LOOP_TRACKER.calls_largest tid rest (LOOP_TRACKER.call e.1 e.2 li) inside cur
        E M (by rw [o2]; exact hE) (by rw [o1]; exact hin) (by rw [o3]; exact htemp)
        (by rw [o4]; exact hs0) (by rw [o4, o5]; exact hse) (by rw [o5]; exact heE)
        (by rw [o4, o5]; exact hM) hlen1
      simpa [LOOP_TRACKER.reported, entryIterationsFrom, LOOP_TRACKER.calls, ht] using ih

theorem foldl_max_spec : ∀ (l : List Int) (M : Int),
    M ≤ l.foldl max M ∧ (∀ x ∈ l, x ≤ l.foldl max M)
    ∧ (l.foldl max M = M ∨ l.foldl max M ∈ l)
  | [], M => by simp
  | y :: rest, M => by
    obtain ⟨h1, h2, h3⟩ := foldl_max_spec rest (max M y)
    simp only [List.foldl_cons, List.mem_cons]
    refine ⟨le_trans (le_max_left M y) h1, ?_, ?_⟩
    · intro x hx
      rcases hx with hx | hx
      · rw [hx]; exact le_trans (le_max_right M y) h1
      · exact h2 x hx
    · rcases h3 with h3 | h3
      · rw [h3]
        rcases le_total M y with h | h
        · right; left; exact max_eq_right h
        · left; exact max_eq_left h
      · right; right; exact h3

/-- C25: on a `LoopInfo` whose flag is clear and whose entry, start and end counters are zero
for thread `t`, after any sequence of `enterLoop` and `enterLoopExitSink` calls (of any
threads, fewer than `2^63` `enterLoop` calls of `t`) the difference
`endCounter[t] - startCounter[t]` is the largest "last visit iterations" value that
`enterLoopExitSink` reported for a completed entry of `t`, and 0 when no entry has completed.
The reported values are, entry by entry, the numbers of `enterLoop` calls of `t` between the
call that entered the loop from outside and the exit. -/
theorem C25_largest_iterations (tid : THREADID) (li : LoopInfo)
    (events : List (THREADID × LoopCall))
    (hin : li.insideLoop tid = false) (he : li.entryCounter tid = 0)
    (hs : li.startCounter tid = 0) (hend : li.endCounter tid = 0)
    (hlen : enterLoopCalls tid events < 9223372036854775808) :
    (LOOP_TRACKER.calls events li).endCounter tid
        - (LOOP_TRACKER.calls events li).startCounter tid
      = largestCount (LOOP_TRACKER.reported tid events li)
    ∧ (∀ x ∈ LOOP_TRACKER.reported tid events li,
        x ≤ (LOOP_TRACKER.calls events li).endCounter tid
          - (LOOP_TRACKER.calls events li).startCounter tid)
    ∧ (LOOP_TRACKER.reported tid events li ≠ [] →
        (LOOP_TRACKER.calls events li).endCounter tid
          - (LOOP_TRACKER.calls events li).startCounter tid
          ∈ LOOP_TRACKER.reported tid events li)
    ∧ (LOOP_TRACKER.reported tid events li = [] →
        (LOOP_TRACKER.calls events li).endCounter tid
          - (LOOP_TRACKER.calls events li).startCounter tid = 0)
    ∧ LOOP_TRACKER.reported tid events li
        = (entryIterationsFrom tid events false 0).map Int.ofNat := by
  obtain ⟨h1, h2⟩ := LOOP_TRACKER.calls_largest tid events li false 0 0 0
    (by rw [he]; rfl) hin (fun h => by cases h) (by rw [hs]) (by rw [hs, hend])
    (by rw [hend]; rfl) (by rw [hs, hend]; rfl) (by omega)
  have h2a : (LOOP_TRACKER.calls events li).endCounter tid
        - (LOOP_TRACKER.calls events li).startCounter tid
      = largestCount (LOOP_TRACKER.reported tid events li) := h2
  obtain ⟨f1, f2, f3⟩ := foldl_max_spec (LOOP_TRACKER.reported tid events li) 0
  have hnn : ∀ x ∈ LOOP_TRACKER.reported tid events li, 0 ≤ x := by
    intro x hx
    rw [h1] at hx
    obtain ⟨n, _, rfl⟩ := List.mem_map.mp hx
    exact Int.ofNat_nonneg n
  refine ⟨h2a, ?_, ?_, ?_, h1⟩
  · intro x hx
    rw [h2a]
    exact f2 x hx
  · intro hne
    rw [h2a]
    rcases f3 with f3 | f3
    · obtain ⟨y, rest, hl⟩ := List.exists_cons_of_ne_nil hne
      have hy : y ∈ LOOP_TRACKER.reported tid events li := by rw [hl]; simp
      have hy0 : y = 0 := by
        have := f2 y hy
        have := hnn y hy
        omega
      unfold largestCount
      rw [f3, ← hy0]
      exact hy
    · exact f3
  · intro hnil
    rw [h2a, hnil]
    rfl

/-- Witness of C25: thread 0 completes two entries of 3 and 1 iterations and is inside a
third time; the difference of its end and start counters is 3. Thread 1 completes one entry
of 0 iterations; its difference is 0. -/
theorem C25_largest_iterations_witness :
    LOOP_TRACKER.reported 0 scenarioLoopCalls (LoopInfo.new 12 "loop.c" 4096 (fun _ => 77))
      = [3, 1]
    ∧ (LOOP_TRACKER.calls scenarioLoopCalls
        (LoopInfo.new 12 "loop.c" 4096 (fun _ => 77))).endCounter 0
      - (LOOP_TRACKER.calls scenarioLoopCalls
        (LoopInfo.new 12 "loop.c" 4096 (fun _ => 77))).startCounter 0 = 3
    ∧ (LOOP_TRACKER.calls scenarioLoopCalls
        (LoopInfo.new 12 "loop.c" 4096 (fun _ => 77))).endCounter 1
      - (LOOP_TRACKER.calls scenarioLoopCalls
        (LoopInfo.new 12 "loop.c" 4096 (fun _ => 77))).startCounter 1 = 0 := by
  have h0 := C25_largest_iterations 0 (LoopInfo.new 12 "loop.c" 4096 (fun _ => 77))
    scenarioLoopCalls rfl rfl rfl rfl (by decide)
  have h1 := C25_largest_iterations 1 (LoopInfo.new 12 "loop.c" 4096 (fun _ => 77))
    scenarioLoopCalls rfl rfl rfl rfl (by decide)
  have r0 : LOOP_TRACKER.reported 0 scenarioLoopCalls
      (LoopInfo.new 12 "loop.c" 4096 (fun _ => 77)) = [3, 1] := by
    rw [h0.2.2.2.2]
    decide
  have r1 : LOOP_TRACKER.reported 1 scenarioLoopCalls
      (LoopInfo.new 12 "loop.c" 4096 (fun _ => 77)) = [0] := by
    rw [h1.2.2.2.2]
    decide
  refine ⟨r0, ?_, ?_⟩
  · rw [h0.1, r0]
    decide
  · rw [h1.1, r1]
    decide

/-! ## Accounted instructions -/

theorem CountBlock_If_accounted (b : BlockPtr) (tid : THREADID) (s : ISIMPOINT)
    (h : InINT64 ((s.profiling.slice tid).SliceTimer
      - (s.profiling.blocks b).StaticInstructionCount)) :
    ((ISIMPOINT.CountBlock_If b tid s).2.profiling.slice tid).accounted
      = (s.profiling.slice tid).accounted + (s.profiling.blocks b).StaticInstructionCount
    ∧ ((ISIMPOINT.CountBlock_If b tid s).2.profiling.slice tid).CumulativeInstructionCount
      = (s.profiling.slice tid).CumulativeInstructionCount := by
  obtain ⟨e1, _, e3, _, _, _⟩ := CountBlock_If_step b tid s
  have ec : ((ISIMPOINT.CountBlock_If b tid s).2.profiling.slice tid).CumulativeInstructionCount
      = (s.profiling.slice tid).CumulativeInstructionCount := by
    simp [ISIMPOINT.CountBlock_If, PROFILING.setSlice, PROFILING.modifyBlock]
  refine ⟨?_, ec⟩
  unfold SLICE_INFO.accounted
  rw [e1, e3, ec, toINT64_of_InINT64 _ h]
  ring

theorem ResetSliceTimer_accounted (k : Knobs) (tid : THREADID) (s : ISIMPOINT)
    (h1 : InINT64 ((s.profiling.slice tid).CurrentSliceSize - (s.profiling.slice tid).SliceTimer))
    (h2 : InINT64 ((s.profiling.slice tid).CumulativeInstructionCount
        + ((s.profiling.slice tid).CurrentSliceSize - (s.profiling.slice tid).SliceTimer))) :
    ((ISIMPOINT.ResetSliceTimer k tid s).profiling.slice tid).accounted
      = (s.profiling.slice tid).accounted
    ∧ (s.InterestingThreadLut tid = true →
        ((ISIMPOINT.ResetSliceTimer k tid s).profiling.slice tid).CumulativeInstructionCount
          = (s.profiling.slice tid).accounted) := by
  by_cases hint : s.InterestingThreadLut tid = true
  · have hc : ((ISIMPOINT.ResetSliceTimer k tid s).profiling.slice tid).CumulativeInstructionCount
        = (s.profiling.slice tid).accounted := by
      unfold ISIMPOINT.ResetSliceTimer SLICE_INFO.accounted
      simp only [hint, Bool.not_true, Bool.false_eq_true, if_false]
      cases hq : (s.profiling.slice tid).length_queue <;>
        simp [PROFILING.setSlice, toINT64_of_InINT64 _ h1, toINT64_of_InINT64 _ h2]
    have ht : ((ISIMPOINT.ResetSliceTimer k tid s).profiling.slice tid).CurrentSliceSize
        = ((ISIMPOINT.ResetSliceTimer k tid s).profiling.slice tid).SliceTimer := by
      unfold ISIMPOINT.ResetSliceTimer
      simp only [hint, Bool.not_true, Bool.false_eq_true, if_false]
      cases hq : (s.profiling.slice tid).length_queue <;> simp [PROFILING.setSlice]
    refine ⟨?_, fun _ => hc⟩
    rw [← hc]
    unfold SLICE_INFO.accounted
    rw [ht]
    ring
  · have hs : ISIMPOINT.ResetSliceTimer k tid s = s := by
      simp [ISIMPOINT.ResetSliceTimer, hint]
    rw [hs]
    exact ⟨rfl, fun h => absurd h hint⟩

theorem sliceCall_static (k : Knobs) (tid : THREADID) (c : SliceCall) (s : ISIMPOINT) :
    (∀ a, ((ISIMPOINT.sliceCall k tid c s).profiling.blocks a).StaticInstructionCount
      = (s.profiling.blocks a).StaticInstructionCount)
    ∧ (ISIMPOINT.sliceCall k tid c s).InterestingThreadLut tid = s.InterestingThreadLut tid := by
  cases c with
  | count b => exact ⟨(CountBlock_If_step b tid s).2.2.2.1, rfl⟩
  | reset =>
    refine ⟨fun a => ?_, ?_⟩
    · simp only [ISIMPOINT.sliceCall, (ResetSliceTimer_blocks k tid s).1]
    · simp only [ISIMPOINT.sliceCall, ISIMPOINT.InterestingThreadLut, ResetSliceTimer_lut]

theorem executedInstructions_congr (s s1 : ISIMPOINT)
    (h : ∀ a, (s1.profiling.blocks a).StaticInstructionCount
      = (s.profiling.blocks a).StaticInstructionCount) :
    ∀ calls, ISIMPOINT.executedInstructions s1 calls = ISIMPOINT.executedInstructions s calls
  | [] => rfl
  | .count b :: rest => by
    simp only [ISIMPOINT.executedInstructions, h b, executedInstructions_congr s s1 h rest]
  | .reset :: rest => by
    simp only [ISIMPOINT.executedInstructions, executedInstructions_congr s s1 h rest]

theorem sliceCalls_accounted (k : Knobs) (tid : THREADID) :
    ∀ (calls : List SliceCall) (s : ISIMPOINT),
      ISIMPOINT.sliceCallsExact k tid calls s = true →
      ((ISIMPOINT.sliceCalls k tid calls s).profiling.slice tid).accounted
          = (s.profiling.slice tid).accounted + ISIMPOINT.executedInstructions s calls
      ∧ (ISIMPOINT.sliceCalls k tid calls s).InterestingThreadLut tid
          = s.InterestingThreadLut tid
  | [], s, _ => by simp [ISIMPOINT.sliceCalls, ISIMPOINT.executedInstructions]
  | c :: rest, s, hex => by
    simp only [ISIMPOINT.sliceCallsExact, Bool.and_eq_true] at hex
    obtain ⟨hc, hrest⟩ := hex
    obtain ⟨hst, hl⟩ := sliceCall_static k tid c s
    obtain ⟨ih1, ih2⟩ := sliceCalls_accounted k tid rest (ISIMPOINT.sliceCall k tid c s) hrest
    rw [executedInstructions_congr s _ hst rest] at ih1
    refine ⟨?_, by simp only [ISIMPOINT.sliceCalls, ih2, hl]⟩
    simp only [ISIMPOINT.sliceCalls, ih1]
    cases c with
    | count b =>
      simp only [ISIMPOINT.sliceCallExact, decide_eq_true_eq] at hc
      simp only [ISIMPOINT.sliceCall, ISIMPOINT.executedInstructions,
        (CountBlock_If_accounted b tid s hc).1]
      ring
    | reset =>
      simp only [ISIMPOINT.sliceCallExact, Bool.and_eq_true, decide_eq_true_eq] at hc
      simp only [ISIMPOINT.sliceCall, ISIMPOINT.executedInstructions,
        (ResetSliceTimer_accounted k tid s hc.1 hc.2).1]

theorem sliceCalls_append (k : Knobs) (tid : THREADID) :
    ∀ (cs ds : List SliceCall) (s : ISIMPOINT),
      ISIMPOINT.sliceCalls k tid (cs ++ ds) s
        = ISIMPOINT.sliceCalls k tid ds (ISIMPOINT.sliceCalls k tid cs s)
  | [], _, _ => rfl
  | c :: rest, ds, s => by
    simp only [List.cons_append, ISIMPOINT.sliceCalls]
    exact sliceCalls_append k tid rest ds _

theorem sliceCallsExact_append (k : Knobs) (tid : THREADID) :
    ∀ (cs ds : List SliceCall) (s : ISIMPOINT),
      ISIMPOINT.sliceCallsExact k tid (cs ++ ds) s
        = (ISIMPOINT.sliceCallsExact k tid cs s
            && ISIMPOINT.sliceCallsExact k tid ds (ISIMPOINT.sliceCalls k tid cs s))
  | [], _, _ => by simp [ISIMPOINT.sliceCallsExact, ISIMPOINT.sliceCalls]
  | c :: rest, ds, s => by
    have ih := sliceCallsExact_append k tid rest ds (ISIMPOINT.sliceCall k tid c s)
    show (ISIMPOINT.sliceCallExact tid c s
        && ISIMPOINT.sliceCallsExact k tid (rest ++ ds) (ISIMPOINT.sliceCall k tid c s)) = _
    rw [ih]
    simp only [ISIMPOINT.sliceCallsExact, ISIMPOINT.sliceCalls, Bool.and_assoc]

/-- Counterexample to C26: thread 1 of the scenario state is not interesting; it starts with
`CumulativeInstructionCount = 0` and `SliceTimer = CurrentSliceSize`, executes region 0 (10
instructions) and calls `ResetSliceTimer`, after which its `CumulativeInstructionCount` is
still 0 and not 10. -/
theorem C26_gated_reset_accounts_nothing :
    scenarioInit.InterestingThreadLut 1 = false
    ∧ (scenarioInit.profiling.slice 1).CumulativeInstructionCount = 0
    ∧ (scenarioInit.profiling.slice 1).SliceTimer
        = (scenarioInit.profiling.slice 1).CurrentSliceSize
    ∧ ISIMPOINT.executedInstructions scenarioInit [.count 0, .reset] = 10
    ∧ ((ISIMPOINT.sliceCalls (scenarioKnobs false) 1 [.count 0, .reset]
        scenarioInit).profiling.slice 1).CumulativeInstructionCount = 0 := by
  refine ⟨rfl, rfl, rfl, by decide, rfl⟩

/-- C26 as amended: as long as the `INT64` arithmetic is exact, for every thread the quantity
`CumulativeInstructionCount + (CurrentSliceSize - SliceTimer)` grows by the static
instruction count of the block on each `CountBlock_If` and is unchanged by each
`ResetSliceTimer`; hence for an interesting thread that starts with
`CumulativeInstructionCount = 0` and `SliceTimer = CurrentSliceSize`, the
`CumulativeInstructionCount` right after any `ResetSliceTimer` is the total static
instruction count of the blocks executed so far. For a thread that is not interesting
`ResetSliceTimer` changes nothing. -/
theorem C26_accounted_invariant (k : Knobs) (tid : THREADID) (s : ISIMPOINT) :
    (∀ b, InINT64 ((s.profiling.slice tid).SliceTimer
          - (s.profiling.blocks b).StaticInstructionCount) →
        ((ISIMPOINT.CountBlock_If b tid s).2.profiling.slice tid).accounted
          = (s.profiling.slice tid).accounted + (s.profiling.blocks b).StaticInstructionCount)
    ∧ (InINT64 ((s.profiling.slice tid).CurrentSliceSize - (s.profiling.slice tid).SliceTimer) →
        InINT64 ((s.profiling.slice tid).CumulativeInstructionCount
          + ((s.profiling.slice tid).CurrentSliceSize - (s.profiling.slice tid).SliceTimer)) →
        ((ISIMPOINT.ResetSliceTimer k tid s).profiling.slice tid).accounted
          = (s.profiling.slice tid).accounted)
    ∧ (∀ calls : List SliceCall,
        s.InterestingThreadLut tid = true →
        (s.profiling.slice tid).CumulativeInstructionCount = 0 →
        (s.profiling.slice tid).SliceTimer = (s.profiling.slice tid).CurrentSliceSize →
        ISIMPOINT.sliceCallsExact k tid (calls ++ [.reset]) s = true →
        ((ISIMPOINT.sliceCalls k tid (calls ++ [.reset]) s).profiling.slice
            tid).CumulativeInstructionCount
          = ISIMPOINT.executedInstructions s calls)
    ∧ (s.InterestingThreadLut tid = false → ISIMPOINT.ResetSliceTimer k tid s = s) := by
  refine ⟨fun b h => (CountBlock_If_accounted b tid s h).1,
    fun h1 h2 => (ResetSliceTimer_accounted k tid s h1 h2).1, ?_,
    fun h => by simp [ISIMPOINT.ResetSliceTimer, h]⟩
  intro calls hint hc ht hex
  rw [sliceCallsExact_append, Bool.and_eq_true] at hex
  obtain ⟨hex1, hex2⟩ := hex
  obtain ⟨hacc, hlut⟩ := sliceCalls_accounted k tid calls s hex1
  simp only [ISIMPOINT.sliceCallsExact, ISIMPOINT.sliceCallExact, Bool.and_true,
    Bool.and_eq_true, decide_eq_true_eq] at hex2
  have hreset := (ResetSliceTimer_accounted k tid (ISIMPOINT.sliceCalls k tid calls s)
    hex2.1 hex2.2).2 (by rw [hlut]; exact hint)
  rw [sliceCalls_append]
  simp only [ISIMPOINT.sliceCalls, ISIMPOINT.sliceCall]
  rw [hreset, hacc]
  unfold SLICE_INFO.accounted
  rw [hc, ht]
  ring

/-- Witness of C26 as amended: the interesting thread 0 of the scenario state executes
regions 0 and 1, resets, executes region 2 and resets again; its cumulative count is then
35. -/
theorem C26_accounted_invariant_witness :
    ((ISIMPOINT.sliceCalls (scenarioKnobs false) 0
        ([.count 0, .count 1, .reset, .count 2] ++ [.reset])
        scenarioInit).profiling.slice 0).CumulativeInstructionCount = 35 := by
  rw [(C26_accounted_invariant (scenarioKnobs false) 0 scenarioInit).2.2.1
    [.count 0, .count 1, .reset, .count 2] rfl rfl rfl rfl]
  decide

/-! ## Overshoot at a boundary -/

/-- C27: when the timer is not negative before a block of `n >= 1` static instructions
executes and `CountBlock_If` signals, the new timer lies between `-n` and `-1`; the slice
length `CurrentSliceSize - SliceTimer` at that boundary is strictly greater than
`CurrentSliceSize` and at most `CurrentSliceSize + n`, and it is what a reset of the
(interesting) thread adds to `CumulativeInstructionCount` when the sums are representable. -/
theorem C27_boundary_overshoot (b : BlockPtr) (tid : THREADID) (s : ISIMPOINT)
    (ht : 0 ≤ (s.profiling.slice tid).SliceTimer)
    (ht64 : InINT64 (s.profiling.slice tid).SliceTimer)
    (hn : 1 ≤ (s.profiling.blocks b).StaticInstructionCount)
    (hn64 : InINT64 (s.profiling.blocks b).StaticInstructionCount)
    (hsig : (ISIMPOINT.CountBlock_If b tid s).1 ≠ 0) :
    - (s.profiling.blocks b).StaticInstructionCount
        ≤ ((ISIMPOINT.CountBlock_If b tid s).2.profiling.slice tid).SliceTimer
    ∧ ((ISIMPOINT.CountBlock_If b tid s).2.profiling.slice tid).SliceTimer ≤ -1
    ∧ (s.profiling.slice tid).CurrentSliceSize
        < ((ISIMPOINT.CountBlock_If b tid s).2.profiling.slice tid).CurrentSliceSize
          - ((ISIMPOINT.CountBlock_If b tid s).2.profiling.slice tid).SliceTimer
    ∧ ((ISIMPOINT.CountBlock_If b tid s).2.profiling.slice tid).CurrentSliceSize
          - ((ISIMPOINT.CountBlock_If b tid s).2.profiling.slice tid).SliceTimer
        ≤ (s.profiling.slice tid).CurrentSliceSize
          + (s.profiling.blocks b).StaticInstructionCount
    ∧ (∀ k : Knobs, s.InterestingThreadLut tid = true →
        InINT64 (((ISIMPOINT.CountBlock_If b tid s).2.profiling.slice tid).CurrentSliceSize
          - ((ISIMPOINT.CountBlock_If b tid s).2.profiling.slice tid).SliceTimer) →
        InINT64 ((s.profiling.slice tid).CumulativeInstructionCount
          + (((ISIMPOINT.CountBlock_If b tid s).2.profiling.slice tid).CurrentSliceSize
            - ((ISIMPOINT.CountBlock_If b tid s).2.profiling.slice tid).SliceTimer)) →
        ((ISIMPOINT.ResetSliceTimer k tid
            (ISIMPOINT.CountBlock_If b tid s).2).profiling.slice tid).CumulativeInstructionCount
          = (s.profiling.slice tid).CumulativeInstructionCount
            + (((ISIMPOINT.CountBlock_If b tid s).2.profiling.slice tid).CurrentSliceSize
              - ((ISIMPOINT.CountBlock_If b tid s).2.profiling.slice tid).SliceTimer)) := by
  obtain ⟨e1, e2, e3, _, _, _⟩ := CountBlock_If_step b tid s
  have hex : InINT64 ((s.profiling.slice tid).SliceTimer
      - (s.profiling.blocks b).StaticInstructionCount) := by
    unfold InINT64 at ht64 hn64 ⊢
    omega
  rw [toINT64_of_InINT64 _ hex] at e1 e2
  have hneg : (s.profiling.slice tid).SliceTimer
      - (s.profiling.blocks b).StaticInstructionCount < 0 := by
    by_contra hc
    rw [if_neg hc] at e2
    exact hsig e2
  refine ⟨by rw [e1]; omega, by rw [e1]; omega, by rw [e1, e3]; omega, by rw [e1, e3]; omega, ?_⟩
  intro k hint h1 h2
  obtain ⟨_, hcum⟩ := CountBlock_If_accounted b tid s hex
  rw [← hcum] at h2 ⊢
  have hr := (ResetSliceTimer_accounted k tid (ISIMPOINT.CountBlock_If b tid s).2 h1 h2).2 hint
  rw [hr]
  rfl

/-- Witness of C27: in scenario A the timer is 0 before the ninth block (region 2 with 5
instructions); `CountBlock_If` signals and leaves the timer at -5, so the slice length at
the boundary is 105, between 101 and 105. -/
theorem C27_boundary_overshoot_witness :
    (scenarioA8.profiling.slice 0).SliceTimer = 0
    ∧ -5 ≤ ((ISIMPOINT.CountBlock_If 2 0 scenarioA8).2.profiling.slice 0).SliceTimer
    ∧ ((ISIMPOINT.CountBlock_If 2 0 scenarioA8).2.profiling.slice 0).SliceTimer ≤ -1
    ∧ ((ISIMPOINT.ResetSliceTimer (scenarioKnobs false) 0
        (ISIMPOINT.CountBlock_If 2 0 scenarioA8).2).profiling.slice
          0).CumulativeInstructionCount = 105 := by
  obtain ⟨h1, h2, _, _, h5⟩ := C27_boundary_overshoot 2 0 scenarioA8
    (by decide) (by decide) (by decide) (by decide) (by decide)
  refine ⟨rfl, h1, h2, ?_⟩
  rw [h5 (scenarioKnobs false) rfl (by decide) (by decide)]
  decide

/-! ## Instructions counted in the current slice -/

theorem rangeSum_update (N : Nat) (f g : Nat → Int) (b : Nat) (n : Int) (hb : b < N)
    (hgb : g b = f b + n) (hg : ∀ a, a ≠ b → g a = f a) :
    ((List.range N).map g).sum = ((List.range N).map f).sum + n := by
  rw [rangeSum_eq_finsetSum, rangeSum_eq_finsetSum]
  have hfg : ∀ a ∈ Finset.range N, g a = f a + (if a = b then n else 0) := by
    intro a _
    by_cases h : a = b
    · subst h; simp [hgb]
    · simp [h, hg a h]
  rw [Finset.sum_congr rfl hfg, Finset.sum_add_distrib, Finset.sum_ite_eq']
  simp [hb]

theorem countBlocks_sliceInstructions (tid : THREADID) :
    ∀ (bs : List BlockPtr) (s : ISIMPOINT) (m : Nat) (D : Int),
      (∀ b ∈ bs, b < s.profiling.nblocks) →
      (∀ a, a < s.profiling.nblocks →
        0 ≤ (s.profiling.blocks a)._sliceBlockCount tid
        ∧ (s.profiling.blocks a)._sliceBlockCount tid ≤ (m : Int)) →
      m + bs.length < 9223372036854775808 →
      (∀ i, i < bs.length →
        InINT64 ((s.profiling.slice tid).SliceTimer
          - instructionsAfter (s.staticSizes bs) (i + 1))) →
      s.profiling.sliceInstructionTotal tid = D - (s.profiling.slice tid).SliceTimer →
      (ISIMPOINT.countBlocks tid bs s).2.profiling.sliceInstructionTotal tid
          = D - ((ISIMPOINT.countBlocks tid bs s).2.profiling.slice tid).SliceTimer
      ∧ ((ISIMPOINT.countBlocks tid bs s).2.profiling.slice tid).CurrentSliceSize
          = (s.profiling.slice tid).CurrentSliceSize
      ∧ (ISIMPOINT.countBlocks tid bs s).2.profiling.nblocks = s.profiling.nblocks
  | [], s, _, _, _, _, _, _, htot => ⟨htot, rfl, rfl⟩
  | b :: rest, s, m, D, hal, hc, hm, hr, htot => by
    obtain ⟨e1, _, e3, e4, e5, e6⟩ := CountBlock_If_step b tid s
    have hN : (ISIMPOINT.CountBlock_If b tid s).2.profiling.nblocks = s.profiling.nblocks := rfl
    have hb : b < s.profiling.nblocks := hal b (List.mem_cons_self _ _)
    have hsz : s.staticSizes (b :: rest)
        = (s.profiling.blocks b).StaticInstructionCount :: s.staticSizes rest := rfl
    have h0 := hr 0 (by simp)
    have hz : instructionsAfter (s.staticSizes rest) 0 = 0 := by simp [instructionsAfter]
    rw [hsz, instructionsAfter_cons, hz, add_zero] at h0
    rw [toINT64_of_InINT64 _ h0] at e1
    have hcb := hc b hb
    have hm1 : (m : Int) + 1 < 9223372036854775808 := by
      have : m + (rest.length + 1) < 9223372036854775808 := hm
      omega
    have hcount : ((ISIMPOINT.CountBlock_If b tid s).2.profiling.blocks b)._sliceBlockCount tid
        = (s.profiling.blocks b)._sliceBlockCount tid + 1 := by
      rw [e5]
      apply toINT64_of_InINT64
      unfold InINT64
      omega
    have htot1 : (ISIMPOINT.CountBlock_If b tid s).2.profiling.sliceInstructionTotal tid
        = D - ((ISIMPOINT.CountBlock_If b tid s).2.profiling.slice tid).SliceTimer := by
      unfold PROFILING.sliceInstructionTotal at htot ⊢
      rw [hN, rangeSum_update s.profiling.nblocks
        (fun a => (s.profiling.blocks a)._sliceBlockCount tid
          * (s.profiling.blocks a).StaticInstructionCount) _ b
        (s.profiling.blocks b).StaticInstructionCount hb
        (by simp only [hcount, e4]; ring)
        (fun a ha => by simp only [e6 a ha, e4]), htot, e1]
      ring
    have hc1 : ∀ a, a < (ISIMPOINT.CountBlock_If b tid s).2.profiling.nblocks →
        0 ≤ ((ISIMPOINT.CountBlock_If b tid s).2.profiling.blocks a)._sliceBlockCount tid
        ∧ ((ISIMPOINT.CountBlock_If b tid s).2.profiling.blocks a)._sliceBlockCount tid
            ≤ ((m + 1 : Nat) : Int) := by
      intro a ha
      have hca := hc a ha
      by_cases hab : a = b
      · subst hab
        rw [hcount]
        push_cast
        omega
      · rw [e6 a hab]
        push_cast
        omega
    have hr1 : ∀ i, i < rest.length →
        InINT64 (((ISIMPOINT.CountBlock_If b tid s).2.profiling.slice tid).SliceTimer
          - instructionsAfter ((ISIMPOINT.CountBlock_If b tid s).2.staticSizes rest) (i + 1)) := by
      intro i hi
      have h := hr (i + 1) (by simpa using hi)
      rw [hsz, instructionsAfter_cons] at h
      rw [staticSizes_CountBlock_If, e1]
      rw [show (s.profiling.slice tid).SliceTimer - (s.profiling.blocks b).StaticInstructionCount
          - instructionsAfter (s.staticSizes rest) (i + 1)
        = (s.profiling.slice tid).SliceTimer - ((s.profiling.blocks b).StaticInstructionCount
          + instructionsAfter (s.staticSizes rest) (i + 1)) by ring]
      exact h
    obtain ⟨i1, i2, i3⟩ := countBlocks_sliceInstructions tid rest
      (ISIMPOINT.CountBlock_If b tid s).2 (m + 1) D
      (fun x hx => hal x (List.mem_cons_of_mem _ hx)) hc1
      (by have : m + (rest.length + 1) < 9223372036854775808 := hm
          omega) hr1 htot1
    exact ⟨i1, by rw [show (ISIMPOINT.countBlocks tid (b :: rest) s).2
        = (ISIMPOINT.countBlocks tid rest (ISIMPOINT.CountBlock_If b tid s).2).2 from rfl,
        i2, e3], i3⟩

/-- C28: start from a state where all current-slice counts of the thread are zero and
`SliceTimer = CurrentSliceSize`, and let the thread execute any sequence of allocated blocks
(fewer than `2^63`, the timer staying within `INT64`). Then the sum over all blocks of the
current-slice count of the thread times the static instruction count of the block equals
`CurrentSliceSize - SliceTimer`; each product is what `SliceInstructionCount` returns when
it is representable. -/
theorem C28_slice_instruction_total (tid : THREADID) (s : ISIMPOINT) (bs : List BlockPtr)
    (hz : ∀ a, a < s.profiling.nblocks → (s.profiling.blocks a)._sliceBlockCount tid = 0)
    (hT : (s.profiling.slice tid).SliceTimer = (s.profiling.slice tid).CurrentSliceSize)
    (hal : ∀ b ∈ bs, b < s.profiling.nblocks)
    (hlen : bs.length < 9223372036854775808)
    (hr : ∀ i, i < bs.length →
      InINT64 ((s.profiling.slice tid).SliceTimer
        - instructionsAfter (s.staticSizes bs) (i + 1))) :
    (ISIMPOINT.countBlocks tid bs s).2.profiling.sliceInstructionTotal tid
        = ((ISIMPOINT.countBlocks tid bs s).2.profiling.slice tid).CurrentSliceSize
          - ((ISIMPOINT.countBlocks tid bs s).2.profiling.slice tid).SliceTimer
    ∧ (∀ blk : BLOCK, InINT64 (blk._sliceBlockCount tid * blk.StaticInstructionCount) →
        blk.SliceInstructionCount tid = blk._sliceBlockCount tid * blk.StaticInstructionCount) := by
  have htot : s.profiling.sliceInstructionTotal tid
      = (s.profiling.slice tid).CurrentSliceSize - (s.profiling.slice tid).SliceTimer := by
    unfold PROFILING.sliceInstructionTotal
    rw [hT, sub_self]
    apply List.sum_eq_zero
    intro x hx
    obtain ⟨a, ha, rfl⟩ := List.mem_map.mp hx
    rw [hz a (List.mem_range.mp ha), zero_mul]
  obtain ⟨h1, h2, _⟩ := countBlocks_sliceInstructions tid bs s 0
    (s.profiling.slice tid).CurrentSliceSize hal
    (fun a ha => by rw [hz a ha]; exact ⟨le_refl _, by simp⟩) (by omega) hr htot
  refine ⟨by rw [h1, h2], fun blk h => ?_⟩
  unfold BLOCK.SliceInstructionCount
  exact toINT64_of_InINT64 _ h

/-- Witness of C28: after three cycles of the three regions of scenario A the counts are 3
each, and 3 * 10 + 3 * 20 + 3 * 5 = 105 = 100 - (-5). -/
theorem C28_slice_instruction_total_witness :
    (ISIMPOINT.countBlocks 0 [0, 1, 2, 0, 1, 2, 0, 1, 2]
        scenarioInit).2.profiling.sliceInstructionTotal 0 = 105
    ∧ ((ISIMPOINT.countBlocks 0 [0, 1, 2, 0, 1, 2, 0, 1, 2] scenarioInit).2.profiling.slice
        0).CurrentSliceSize
      - ((ISIMPOINT.countBlocks 0 [0, 1, 2, 0, 1, 2, 0, 1, 2] scenarioInit).2.profiling.slice
        0).SliceTimer = 105 := by
  have h := (C28_slice_instruction_total 0 scenarioInit [0, 1, 2, 0, 1, 2, 0, 1, 2]
    (by decide) rfl (by decide) (by decide) (by decide)).1
  have h2 : ((ISIMPOINT.countBlocks 0 [0, 1, 2, 0, 1, 2, 0, 1, 2]
        scenarioInit).2.profiling.slice 0).CurrentSliceSize
      - ((ISIMPOINT.countBlocks 0 [0, 1, 2, 0, 1, 2, 0, 1, 2] scenarioInit).2.profiling.slice
        0).SliceTimer = 105 := by decide
  exact ⟨h.trans h2, h2⟩

/-! ## The pending flag and the timer -/

theorem executeBlock_eq_probes (k : Knobs) (b : BlockPtr) (tid : THREADID) (s : ISIMPOINT) :
    ISIMPOINT.executeBlock k b tid s
      = (ISIMPOINT.headProbe k b tid s).map (ISIMPOINT.tailProbe k b tid) := by
  unfold ISIMPOINT.executeBlock ISIMPOINT.headProbe ISIMPOINT.tailProbe ISIMPOINT.countProbe
  split_ifs <;> first
    | rfl
    | (cases hd : ISIMPOINT.DelayedVectorEmission k b tid s <;> simp [Except.map, *])

theorem probeEvents_block (k : Knobs) (b : BlockPtr) (t : THREADID) (s : ISIMPOINT) :
    ISIMPOINT.probeEvents k (blockEvents [(t, b)]) s = ISIMPOINT.executeBlock k b t s := by
  rw [executeBlock_eq_probes]
  cases hh : ISIMPOINT.headProbe k b t s <;>
    simp [blockEvents, ISIMPOINT.probeEvents, ISIMPOINT.probeEvent, hh, Except.map]

theorem PendingInv.preserved (k : Knobs) (t : THREADID) (s s1 : ISIMPOINT)
    (hJ : PendingInv k s)
    (hother : ∀ t2, t ≠ t2 → OtherThreadFrame t2 s s1)
    (hstatic : ∀ a, (s1.profiling.blocks a).StaticInstructionCount
      = (s.profiling.blocks a).StaticInstructionCount)
    (hown : s1._vectorPending t = true → (s1.profiling.slice t).SliceTimer < 0)
    (himm : k.KnobEmitVectors = true → k.KnobDelayVectorEmission = false →
      s1._vectorPending t = false) :
    PendingInv k s1 := by
  obtain ⟨j1, j2, j3⟩ := hJ
  refine ⟨fun t2 hp => ?_, fun he hd t2 => ?_, fun a => by rw [hstatic a]; exact j3 a⟩
  · by_cases h : t = t2
    · subst h; exact hown hp
    · obtain ⟨f1, f2, _⟩ := hother t2 h
      rw [f1]
      exact j1 t2 (by rw [← f2]; exact hp)
  · by_cases h : t = t2
    · subst h; exact himm he hd
    · obtain ⟨_, f2, _⟩ := hother t2 h
      rw [f2]
      exact j2 he hd t2

theorem EmitVectorForFriend_pendingInv (k : Knobs) (m : ADDRINT) (i o : Nat) (t : THREADID)
    (s s1 : ISIMPOINT) (hJ : PendingInv k s)
    (hrun : ISIMPOINT.EmitVectorForFriend k m i t o s = .ok s1) : PendingInv k s1 := by
  by_cases hint : s.InterestingThreadLut t = true
  · have hp : s1._vectorPending t = false
        ∧ ∀ a, (s1.profiling.blocks a).StaticInstructionCount
            = (s.profiling.blocks a).StaticInstructionCount := by
      unfold ISIMPOINT.EmitVectorForFriend at hrun
      by_cases h2 : s._vectorPending t = true
      · simp only [hint, h2, Bool.not_true, Bool.false_eq_true, if_false] at hrun
        rw [← Except.ok.inj hrun]
        constructor
        · show (ISIMPOINT.ResetSliceTimer k t
            { s with _vectorPending := Function.update s._vectorPending t false
              })._vectorPending t = false
          rw [(ResetSliceTimer_blocks k t _).2.2.2.2]
          simp
        · intro a
          rw [EmitSliceEnd_static, ResetSliceTimer_static]
      · simp only [Bool.not_eq_true] at h2
        simp [hint, h2] at hrun
    exact PendingInv.preserved k t s s1 hJ
      (fun t2 h => EmitVectorForFriend_other k t t2 h m i o s s1 hrun) hp.2
      (fun h => by rw [hp.1] at h; cases h) (fun _ _ => hp.1)
  · have hs : s1 = s := by
      unfold ISIMPOINT.EmitVectorForFriend at hrun
      simp only [Bool.not_eq_true] at hint
      simp only [hint, Bool.not_false, if_true] at hrun
      exact (Except.ok.inj hrun).symm
    rw [hs]
    exact hJ

theorem headProbe_pendingInv (k : Knobs) (b : BlockPtr) (t : THREADID) (s s1 : ISIMPOINT)
    (hJ : PendingInv k s) (hrun : ISIMPOINT.headProbe k b t s = .ok s1) :
    PendingInv k s1 := by
  unfold ISIMPOINT.headProbe at hrun
  split_ifs at hrun
  · unfold ISIMPOINT.DelayedVectorEmission at hrun
    split_ifs at hrun
    · rw [← Except.ok.inj hrun]; exact hJ
    · exact EmitVectorForFriend_pendingInv k _ _ _ t s s1 hJ hrun
  · rw [← Except.ok.inj hrun]; exact hJ
  · rw [← Except.ok.inj hrun]; exact hJ

theorem countProbe_other (k : Knobs) (b : BlockPtr) (t t2 : THREADID) (h : t ≠ t2)
    (s : ISIMPOINT) : OtherThreadFrame t2 s (ISIMPOINT.countProbe k b t s).2 := by
  unfold ISIMPOINT.countProbe
  split_ifs
  · exact CountBlockAndTrackPrevious_If_other k t t2 h b s
  · exact CountBlock_If_other t t2 h b s

theorem countProbe_pendingInv (k : Knobs) (b : BlockPtr) (t : THREADID) (s : ISIMPOINT)
    (hJ : PendingInv k s)
    (hex : InINT64 ((s.profiling.slice t).SliceTimer
      - (s.profiling.blocks b).StaticInstructionCount)) :
    PendingInv k (ISIMPOINT.countProbe k b t s).2 := by
  obtain ⟨_, c2, c3, _, _, c6⟩ := countProbe_schedule k b t s
  have htimer : ((ISIMPOINT.countProbe k b t s).2.profiling.slice t).SliceTimer
      = (s.profiling.slice t).SliceTimer - (s.profiling.blocks b).StaticInstructionCount := by
    have := congrArg Schedule.SliceTimer c2
    simp only [ISIMPOINT.schedule, Schedule.count] at this
    rw [this]
    exact toINT64_of_InINT64 _ hex
  obtain ⟨j1, j2, j3⟩ := hJ
  refine PendingInv.preserved k t s _ ⟨j1, j2, j3⟩ (fun t2 h => countProbe_other k b t t2 h s)
    c6 ?_ ?_
  · intro hp
    rw [c3] at hp
    have := j1 t hp
    have := j3 b
    rw [htimer]
    omega
  · intro he hd
    rw [c3]
    exact j2 he hd t

theorem tailProbe_pendingInv (k : Knobs) (b : BlockPtr) (t : THREADID) (s : ISIMPOINT)
    (hJ : PendingInv k s)
    (hex : InINT64 ((s.profiling.slice t).SliceTimer
      - (s.profiling.blocks b).StaticInstructionCount)) :
    PendingInv k (ISIMPOINT.tailProbe k b t s) := by
  have hc := countProbe_pendingInv k b t s hJ hex
  obtain ⟨c1, c2, _, _, _, _⟩ := countProbe_schedule k b t s
  unfold ISIMPOINT.tailProbe
  split_ifs with hsig
  · have hneg : ((ISIMPOINT.countProbe k b t s).2.profiling.slice t).SliceTimer < 0 := by
      have h2 := congrArg Schedule.SliceTimer c2
      simp only [ISIMPOINT.schedule, Schedule.count] at h2
      rw [h2]
      by_contra hge
      apply hsig
      rw [c1]
      simp [Schedule.count, ISIMPOINT.schedule, hge]
    obtain ⟨j1, j2, j3⟩ := hc
    have hset : k.KnobEmitVectors = false ∨ k.KnobDelayVectorEmission = true →
        PendingInv k { (ISIMPOINT.countProbe k b t s).2 with
          _vectorPending :=
            Function.update (ISIMPOINT.countProbe k b t s).2._vectorPending t true } := by
      intro hmode
      refine ⟨fun t2 hp => ?_, fun he hd t2 => ?_, j3⟩
      · by_cases h : t2 = t
        · subst h; exact hneg
        · have hp2 : (ISIMPOINT.countProbe k b t s).2._vectorPending t2 = true := by
            simpa [Function.update, h] using hp
          exact j1 t2 hp2
      · rcases hmode with hm | hm
        · rw [he] at hm; cases hm
        · rw [hd] at hm; cases hm
    unfold ISIMPOINT.CountBlock_Then
    by_cases hint : (ISIMPOINT.countProbe k b t s).2.InterestingThreadLut t = true
    · cases he : k.KnobEmitVectors with
      | false =>
        simp only [hint, Bool.not_true, Bool.false_eq_true, if_false, Bool.not_false, if_true]
        exact hset (Or.inl he)
      | true =>
        cases hd : k.KnobDelayVectorEmission with
        | true =>
          simp only [hint, Bool.not_true, Bool.false_eq_true, if_false, if_true]
          exact hset (Or.inr hd)
        | false =>
          simp only [hint, Bool.not_true, Bool.false_eq_true, if_false]
          have hpend : (ISIMPOINT.EmitSliceEnd
              ((ISIMPOINT.ResetSliceTimer k t (ISIMPOINT.countProbe k b t s).2).profiling.blocks
                b).Key.End
              ((ISIMPOINT.ResetSliceTimer k t (ISIMPOINT.countProbe k b t s).2).profiling.blocks
                b).ImgId t 0
              (ISIMPOINT.ResetSliceTimer k t (ISIMPOINT.countProbe k b t s).2))._vectorPending
              = (ISIMPOINT.countProbe k b t s).2._vectorPending :=
            (ResetSliceTimer_blocks k t _).2.2.2.2
          refine ⟨fun t2 hp => ?_, fun _ _ t2 => ?_, fun a => ?_⟩
          · rw [hpend, j2 he hd t2] at hp
            cases hp
          · rw [hpend]
            exact j2 he hd t2
          · rw [EmitSliceEnd_static, ResetSliceTimer_static]
            exact j3 a
    · simp only [Bool.not_eq_true] at hint
      simp only [hint, Bool.not_false, if_true]
      exact ⟨j1, j2, j3⟩
  · exact hc

theorem probeEvents_pendingInv (k : Knobs) :
    ∀ (events : List (THREADID × ProbeEvent)) (s s1 : ISIMPOINT),
      PendingInv k s →
      ISIMPOINT.probeEventsExact k events s = true →
      ISIMPOINT.probeEvents k events s = .ok s1 →
      PendingInv k s1
  | [], s, s1, hJ, _, hrun => by
    rw [← Except.ok.inj hrun]
    exact hJ
  | e :: rest, s, s1, hJ, hex, hrun => by
    cases hstep : ISIMPOINT.probeEvent k e.1 e.2 s with
    | error err => simp [ISIMPOINT.probeEvents, hstep] at hrun
    | ok s2 =>
      simp only [ISIMPOINT.probeEvents, hstep] at hrun
      simp only [ISIMPOINT.probeEventsExact, hstep, Bool.and_eq_true] at hex
      obtain ⟨hex1, hex2⟩ := hex
      have hJ2 : PendingInv k s2 := by
        obtain ⟨t, ev⟩ := e
        cases ev with
        | head b => exact headProbe_pendingInv k b t s s2 hJ hstep
        | tail b =>
          simp only [ISIMPOINT.probeEventExact, decide_eq_true_eq] at hex1
          rw [← Except.ok.inj hstep]
          exact tailProbe_pendingInv k b t s hJ hex1
        | friend m i o =>
          exact EmitVectorForFriend_pendingInv k m i o t s s2 hJ hstep
      exact probeEvents_pendingInv k rest s2 s1 hJ2 hex2 hrun

/-- C29: start with every pending flag clear and no negative static instruction count, and
run any sequence of events of the probe protocol for any threads: head probes, tail probes
(`CountBlock_Then` only after the counting probe returned nonzero) and requests of another
class through `EmitVectorForFriend`, the timer subtractions being exact in `INT64`. In the
state reached, and in the state between the counting probe of a further block and its
`CountBlock_Then`, a set pending flag implies a negative slice timer; with `KnobEmitVectors`
set and `KnobDelayVectorEmission` clear no pending flag is set. -/
theorem C29_pending_implies_negative_timer (k : Knobs) (s0 s : ISIMPOINT)
    (events : List (THREADID × ProbeEvent))
    (h0 : ∀ t, s0._vectorPending t = false)
    (hn : ∀ a, 0 ≤ (s0.profiling.blocks a).StaticInstructionCount)
    (hex : ISIMPOINT.probeEventsExact k events s0 = true)
    (hrun : ISIMPOINT.probeEvents k events s0 = .ok s) :
    (∀ t, s._vectorPending t = true → (s.profiling.slice t).SliceTimer < 0)
    ∧ (k.KnobEmitVectors = true → k.KnobDelayVectorEmission = false →
        ∀ t, s._vectorPending t = false)
    ∧ (∀ (t : THREADID) (b : BlockPtr),
        (k.KnobEmitVectors = true → k.KnobDelayVectorEmission = false →
            ∀ t2, (ISIMPOINT.countProbe k b t s).2._vectorPending t2 = false)
        ∧ (InINT64 ((s.profiling.slice t).SliceTimer
              - (s.profiling.blocks b).StaticInstructionCount) →
            ∀ t2, (ISIMPOINT.countProbe k b t s).2._vectorPending t2 = true →
              ((ISIMPOINT.countProbe k b t s).2.profiling.slice t2).SliceTimer < 0)) := by
  have hJ0 : PendingInv k s0 :=
    ⟨(fun t hp => by rw [h0 t] at hp; cases hp), fun _ _ t => h0 t, hn⟩
  have hJ := probeEvents_pendingInv k events s0 s hJ0 hex hrun
  refine ⟨hJ.1, hJ.2.1, fun t b => ?_⟩
  have hpend : (ISIMPOINT.countProbe k b t s).2._vectorPending = s._vectorPending :=
    (countProbe_schedule k b t s).2.2.1
  exact ⟨fun he hd t2 => by rw [hpend]; exact hJ.2.1 he hd t2,
    fun hx => (countProbe_pendingInv k b t s hJ hx).1⟩

set_option maxRecDepth 10000 in
/-- Witness of C29: without vector emission by the tool, thread 0 of scenario D signals at
its ninth block, `CountBlock_Then` sets its pending flag, and two more blocks leave the flag
set with the timer at -35; with immediate emission the same run leaves the flag clear. -/
theorem C29_pending_implies_negative_timer_witness :
    (scenarioState (ISIMPOINT.probeEvents { scenarioKnobs false with KnobEmitVectors := false }
        scenarioFriendEvents scenarioD))._vectorPending 0 = true
    ∧ ((scenarioState (ISIMPOINT.probeEvents
        { scenarioKnobs false with KnobEmitVectors := false }
        scenarioFriendEvents scenarioD)).profiling.slice 0).SliceTimer < 0
    ∧ (scenarioState (ISIMPOINT.probeEvents (scenarioKnobs false)
        scenarioFriendEvents scenarioD))._vectorPending 0 = false := by
  have h1 := C29_pending_implies_negative_timer
    { scenarioKnobs false with KnobEmitVectors := false } scenarioD
    (scenarioState (ISIMPOINT.probeEvents { scenarioKnobs false with KnobEmitVectors := false }
      scenarioFriendEvents scenarioD))
    scenarioFriendEvents (fun _ => rfl) (by
      intro a
      show 0 ≤ (scenarioBlocks a).StaticInstructionCount
      unfold scenarioBlocks
      split <;> decide) rfl rfl
  have h2 := C29_pending_implies_negative_timer (scenarioKnobs false) scenarioD
    (scenarioState (ISIMPOINT.probeEvents (scenarioKnobs false) scenarioFriendEvents scenarioD))
    scenarioFriendEvents (fun _ => rfl) (by
      intro a
      show 0 ≤ (scenarioBlocks a).StaticInstructionCount
      unfold scenarioBlocks
      split <;> decide) rfl rfl
  exact ⟨rfl, h1.1 0 rfl, h2.2.1 rfl rfl 0⟩

/-! ## The length field of a record -/

theorem IFSTREAM.getline_no_newline (n : Nat) (st : IFSTREAM) :
    Char.ofNat 10 ∉ (st.getline n).1 := by
  unfold IFSTREAM.getline
  split_ifs
  · simp
  · have h := IFSTREAM.extract_no_newline st.rest (n - 1)
    rcases hx : IFSTREAM.extract (n - 1) st.rest with ⟨stored, rest, stop⟩
    rw [hx] at h
    cases stop <;> exact h

theorem record_field_nonempty (n : Nat) (st : IFSTREAM)
    (hlen : (cstr (st.getline n).1).length ≠ 0) :
    (cstr (st.getline n).1).takeWhile (fun c => c ≠ Char.ofNat 10) = cstr (st.getline n).1
    ∧ ((cstr (st.getline n).1).takeWhile (fun c => c ≠ Char.ofNat 10)).isEmpty = false := by
  have h := cstr_no_newline (st.getline n).1 (IFSTREAM.getline_no_newline n st)
  refine ⟨h, ?_⟩
  rw [h]
  cases hc : cstr (st.getline n).1 with
  | nil => rw [hc] at hlen; simp at hlen
  | cons c cs => rfl

theorem SLICE_INFO.ReadLengthLoop_no_abort (U : String → Nat) :
    ∀ (fuel : Nat) (lfile : IFSTREAM) (recordNum : Nat) (sl : SLICE_INFO) (e : String),
      SLICE_INFO.ReadLengthLoop U fuel lfile recordNum sl ≠ some (.error e)
  | 0, _, _, _, _ => by simp [SLICE_INFO.ReadLengthLoop]
  | fuel + 1, lfile, recordNum, sl, e => by
    unfold SLICE_INFO.ReadLengthLoop
    by_cases heof : lfile.eofbit = true
    · simp [heof]
    · simp only [heof, Bool.false_eq_true, if_false]
      by_cases hlen : (cstr (lfile.getline SLICE_INFO.BUFSIZE).1).length = 0
      · simp only [hlen, if_true]
        exact SLICE_INFO.ReadLengthLoop_no_abort U fuel _ _ _ e
      · simp only [hlen, if_false]
        by_cases hcom : (cstr (lfile.getline SLICE_INFO.BUFSIZE).1).head? = some (Char.ofNat 35)
        · simp only [hcom, if_true]
          exact SLICE_INFO.ReadLengthLoop_no_abort U fuel _ _ _ e
        · simp only [hcom, if_false, (record_field_nonempty SLICE_INFO.BUFSIZE lfile hlen).2,
            Bool.false_eq_true]
          by_cases hrec : recordNum = 0
          · simp only [hrec, if_true]
            exact SLICE_INFO.ReadLengthLoop_no_abort U fuel _ _ _ e
          · simp only [hrec, if_false]
            exact SLICE_INFO.ReadLengthLoop_no_abort U fuel _ _ _ e

/-- C30: for every record that `getline` stores and that passes the blank-line and comment
filters, the field extracted from it is the whole record and is not empty; so for no file
content does `ReadLengthFile` abort on the "Empty length field." assertion: once the file
is open it does not abort at all. -/
theorem C30_length_field_never_empty (U : String → Nat) :
    (∀ (lfile : IFSTREAM),
      (cstr (lfile.getline SLICE_INFO.BUFSIZE).1).length ≠ 0 →
      (cstr (lfile.getline SLICE_INFO.BUFSIZE).1).takeWhile (fun c => c ≠ Char.ofNat 10)
          = cstr (lfile.getline SLICE_INFO.BUFSIZE).1
      ∧ ((cstr (lfile.getline SLICE_INFO.BUFSIZE).1).takeWhile
          (fun c => c ≠ Char.ofNat 10)).isEmpty = false)
    ∧ (∀ (fuel : Nat) (file : Option (List Char)) (sl : SLICE_INFO),
        SLICE_INFO.ReadLengthFile U fuel file sl ≠ some (.error "Empty length field."))
    ∧ (∀ (fuel : Nat) (content : List Char) (sl : SLICE_INFO) (e : String),
        SLICE_INFO.ReadLengthFile U fuel (some content) sl ≠ some (.error e)) := by
  refine ⟨fun lfile h => record_field_nonempty SLICE_INFO.BUFSIZE lfile h, ?_, ?_⟩
  · intro fuel file sl
    cases file with
    | none =>
      simp only [SLICE_INFO.ReadLengthFile, ne_eq, Option.some.injEq, Except.error.injEq]
      decide
    | some content => exact SLICE_INFO.ReadLengthLoop_no_abort U fuel _ _ _ _
  · intro fuel content sl e
    exact SLICE_INFO.ReadLengthLoop_no_abort U fuel _ _ _ e

/-- Witness of C30: the length file of scenario C, a comment, three records and a blank
line, is read without abort; a line of two blanks passes both filters and its field is the
two blanks. -/
theorem C30_length_field_never_empty_witness :
    SLICE_INFO.ReadLengthFile decimalValue 8 (some (joinLines scenarioLengthLines)) {}
      = some (.ok { CurrentSliceSize := 50, SliceTimer := 50, length_queue := [30, 20] })
    ∧ (cstr ((IFSTREAM.mk [' ', ' ', Char.ofNat 10] false false).getline
        SLICE_INFO.BUFSIZE).1).takeWhile (fun c => c ≠ Char.ofNat 10) = [' ', ' '] := by
  refine ⟨rfl, ?_⟩
  rw [((C30_length_field_never_empty decimalValue).1
    (IFSTREAM.mk [' ', ' ', Char.ofNat 10] false false) (by decide)).1]
  rfl
